import Mathlib

/-!
Per-socket interception handlers of bypass4netns.

A shallow embedding of `pkg/bypass4netns/socket.go`.  The handlers of that file
mutate a per-socket record and talk to the outside (target process memory, host
system calls, the seccomp add-fd ioctl, the multi-node registry).  Here a handler
is a pure function of the record, the notification context and a `World` that
answers every outside call; it returns the new record, the response and the
ordered trace of the outside calls it made, each with its success flag.

Machine integers: `uint64`/`uint32`/`uint16` values are `Nat`, Go `int` values
are `Int`; conversions and wrapping additions are written out with `%`.
-/

namespace Bypass4netns

/-! ## Data model -/

/-- Recorded setsockopt call (`socketOption`, socket.go 18-23). -/
structure socketOption where
  level : Nat
  optname : Nat
  optval : List Nat
  optlen : Nat
deriving DecidableEq, Repr

/-- Recorded fcntl call (`fcntlOption`, socket.go 25-29). -/
structure fcntlOption where
  cmd : Nat
  value : Nat
deriving DecidableEq, Repr

/-- State of a per-socket record (`socketState`, socket.go 31-45). -/
inductive socketState where
  | NotBypassable
  | NotBypassed
  | Bypassed
  | Error
deriving DecidableEq, Repr

/-- Modelled from the spec: the declaration of the decoded socket address type
`sockaddr` is not among the sources.  Spec section 4.2 gives it as the uniform
record of family, port, ip bytes and scope id; socket.go reads exactly the fields
`Family`, `Port`, `IP` and `ScopeID`. -/
structure sockaddr where
  Family : Nat
  Port : Nat
  IP : List Nat
  ScopeID : Nat
deriving DecidableEq, Repr

/-- Per-socket record (`socketStatus`, socket.go 72-86), without the logger. -/
structure socketStatus where
  state : socketState
  pid : Int
  sockfd : Int
  sockDomain : Int
  sockType : Int
  sockProto : Int
  addr : Option sockaddr
  socketOptions : List socketOption
  fcntlOptions : List fcntlOption
  ignoreBind : Bool
deriving DecidableEq, Repr

/-- Constructor of a record (`newSocketStatus`, socket.go 88-101). -/
def newSocketStatus (pid sockfd sockDomain sockType sockProto : Int) (ignoreBind : Bool) :
    socketStatus :=
  { state := socketState.NotBypassed
    pid := pid
    sockfd := sockfd
    sockDomain := sockDomain
    sockType := sockType
    sockProto := sockProto
    addr := none
    socketOptions := []
    fcntlOptions := []
    ignoreBind := ignoreBind }

/-- Argument words of the intercepted system call (`req.Data`). -/
structure ScmpNotifData where
  Args : Nat → Nat

/-- Seccomp notification request (`libseccomp.ScmpNotifReq`). -/
structure ScmpNotifReq where
  ID : Nat
  Pid : Nat
  Data : ScmpNotifData

/-- Seccomp notification response (`libseccomp.ScmpNotifResp`). -/
structure ScmpNotifResp where
  ID : Nat
  Error : Int
  Val : Nat
  Flags : Nat
deriving DecidableEq, Repr

/-- Notification context (`context`, bypass4netns.go 141-145). -/
structure context where
  notifFd : Int
  req : ScmpNotifReq
  resp : ScmpNotifResp

/-- Argument of the add-fd ioctl (`seccompNotifAddFd`, built at socket.go 258-265
and 385-392). -/
structure seccompNotifAddFd where
  id : Nat
  flags : Nat
  srcfd : Nat
  newfd : Nat
  newfdFlags : Nat
deriving DecidableEq, Repr

/-- Address handed to the in-process bind (`syscall.SockaddrInet4` and
`syscall.SockaddrInet6`, built at socket.go 354-376). -/
inductive syscallSockaddr where
  | SockaddrInet4 (Port : Int) (Addr : List Nat)
  | SockaddrInet6 (Port : Int) (ZoneId : Nat) (Addr : List Nat)
deriving DecidableEq, Repr

/-- Entry of the forward-port table; socket.go reads `HostPort` and `ChildPort`. -/
structure ForwardPortMapping where
  HostPort : Int
  ChildPort : Int
deriving DecidableEq, Repr

/-- Entry of the container-interface map; socket.go reads `containerID` and
`hostPort`. -/
structure containerInterface where
  containerID : String
  hostPort : Int
deriving DecidableEq, Repr

/-- Policy data of a session handler, the fields of `notifHandler` that socket.go
reads: the handler-IP filter, the forward-port table keyed by port, the
container-interface map keyed by the printed address, the container id
(`state.State.ID`), the two mode switches and the non-bypassable set. -/
structure notifHandler where
  ip : String
  forwardingPorts : Int → Option ForwardPortMapping
  containerInterfaces : String → Option containerInterface
  stateID : String
  multinodeEnable : Bool
  c2cConnectionsEnable : Bool
  nonBypassable : List Nat → Bool

/-! ## Outside calls and their trace -/

/-- An outside call made by a handler, with the arguments it carries. -/
inductive Call where
  | readSockaddrFromProcess (pid : Int) (offset : Nat) (len : Nat)
  | readProcMem (pid : Int) (offset : Nat) (len : Nat)
  | writeProcMem (pid : Int) (offset : Nat) (data : List Nat)
  | etcdGet (key : String)
  | socket (domain : Int) (typ : Int) (proto : Int)
  | setsockopt (sockfd : Int) (level : Nat) (optname : Nat) (optval : List Nat) (optlen : Nat)
  | fcntl (sockfd : Int) (cmd : Nat) (value : Nat)
  | bind (sockfd : Int) (sa : syscallSockaddr)
  | ioctlNotifAddFd (notifFd : Int) (addfd : seccompNotifAddFd)
  | close (fd : Int)
deriving DecidableEq, Repr

/-- One entry of a trace: the call and whether it reported success. -/
structure Event where
  call : Call
  ok : Bool
deriving DecidableEq, Repr

/-- Everything outside socket.go.  The effectful fields answer a call given the
trace of the calls made so far in the current handler run, so that two calls
with the same arguments may be answered differently.  The pure fields are
functions of the Go library or of files that are not among the sources.

* `readSockaddrFromProcess`: `none` is an error, `some sa` the decoded address.
* `readProcMem`: the bytes returned and whether the read succeeded.
* `etcdGet`: `none` is an error, `some vs` the values of the returned key-value pairs.
* `socket`: `none` is an error, `some fd` the new host descriptor.
* `ipString`, `sockaddrString`: `net.IP.String` and the `String` method of `sockaddr`.
* `toBytes`: serialisation of a `sockaddr`, `none` on error.
* `Atoi`, `ParseIP`: `strconv.Atoi` (`none` on error) and `net.ParseIP` (`[]` for nil).
* `ETCD_MULTINODE_PREFIX`: the registry key prefix constant. -/
structure World where
  readSockaddrFromProcess : List Event → Int → Nat → Nat → Option sockaddr
  readProcMem : List Event → Int → Nat → Nat → List Nat × Bool
  writeProcMem : List Event → Int → Nat → List Nat → Bool
  etcdGet : List Event → String → Option (List String)
  socket : List Event → Int → Int → Int → Option Int
  setsockopt : List Event → Int → socketOption → Bool
  fcntl : List Event → Int → fcntlOption → Bool
  bind : List Event → Int → syscallSockaddr → Bool
  ioctlNotifAddFd : List Event → Int → seccompNotifAddFd → Bool
  ipString : List Nat → String
  sockaddrString : sockaddr → String
  toBytes : sockaddr → Option (List Nat)
  Atoi : String → Option Int
  ParseIP : String → List Nat
  ETCD_MULTINODE_PREFIX : String

/-- Result of one handler run: the record and the response afterwards, the trace
of outside calls in the order they were made, and whether the run ended in a Go
run-time panic (index or slice out of range, nil interface). -/
structure Outcome where
  ss : socketStatus
  resp : ScmpNotifResp
  trace : List Event
  panicked : Bool
deriving DecidableEq, Repr

/-! ## Constants -/

/-- Linux `F_SETFD`. -/
def F_SETFD : Nat := 2
/-- Linux `F_GETFL`. -/
def F_GETFL : Nat := 3
/-- Linux `F_SETFL`. -/
def F_SETFL : Nat := 4
/-- Linux `AF_INET`. -/
def AF_INET : Nat := 2
/-- Linux `AF_INET6`. -/
def AF_INET6 : Nat := 10
/-- Linux `SOCK_CLOEXEC`. -/
def SOCK_CLOEXEC : Nat := 524288
/-- Kernel `SECCOMP_ADDFD_FLAG_SETFD`. -/
def SeccompAddFdFlagSetFd : Nat := 1
/-- Kernel `SECCOMP_USER_NOTIF_FLAG_CONTINUE`. -/
def SeccompUserNotifFlagContinue : Nat := 1

/-! ## Integer conversions -/

/-- Conversion `uint16(x)` of a Go int. -/
def uint16 (x : Int) : Nat := (x % 65536).toNat

/-- Conversion `uint32(x)` of a Go int. -/
def uint32 (x : Int) : Nat := (x % 4294967296).toNat

/-- Addition of two `uint64` values. -/
def uint64add (a b : Nat) : Nat := (a + b) % 18446744073709551616

/-- Bitwise and of a Go int (64-bit two-complement) with a non-negative mask. -/
def intAnd (a : Int) (mask : Nat) : Nat := (a % 18446744073709551616).toNat &&& mask

/-- Bytes written by `binary.BigEndian.PutUint16`. -/
def bigEndianPutUint16 (v : Nat) : List Nat := [v / 256 % 256, v % 256]

/-- Bytes written by `binary.LittleEndian.PutUint32`. -/
def littleEndianPutUint32 (v : Nat) : List Nat :=
  [v % 256, v / 256 % 256, v / 65536 % 256, v / 16777216 % 256]

/-! ## Recording handlers -/

/-- Handler of setsockopt (`socketStatus.handleSysSetsockopt`, socket.go 103-122).
The read error is only logged: the entry is appended with whatever bytes the read
returned. -/
def handleSysSetsockopt (w : World) (pid : Int) (ctx : context) (ss : socketStatus) : Outcome :=
  let level := ctx.req.Data.Args 1
  let optname := ctx.req.Data.Args 2
  let optlen := ctx.req.Data.Args 4
  let r := w.readProcMem [] pid (ctx.req.Data.Args 3) optlen
  let value : socketOption :=
    { level := level, optname := optname, optval := r.1, optlen := optlen }
  { ss := { ss with socketOptions := ss.socketOptions ++ [value] }
    resp := ctx.resp
    trace := [⟨Call.readProcMem pid (ctx.req.Data.Args 3) optlen, r.2⟩]
    panicked := false }

/-- Handler of fcntl (`socketStatus.handleSysFcntl`, socket.go 124-141).  A Go
`switch` does not fall through: the `F_SETFD` case has an empty body. -/
def handleSysFcntl (ctx : context) (ss : socketStatus) : Outcome :=
  let fcntlCmd := ctx.req.Data.Args 1
  if fcntlCmd = F_SETFD then
    { ss := ss, resp := ctx.resp, trace := [], panicked := false }
  else if fcntlCmd = F_SETFL then
    let opt : fcntlOption := { cmd := fcntlCmd, value := ctx.req.Data.Args 2 }
    { ss := { ss with fcntlOptions := ss.fcntlOptions ++ [opt] }
      resp := ctx.resp, trace := [], panicked := false }
  else if fcntlCmd = F_GETFL then
    { ss := ss, resp := ctx.resp, trace := [], panicked := false }
  else
    { ss := ss, resp := ctx.resp, trace := [], panicked := false }

/-! ## Option replay -/

/-- Result of `configureSocket`: `nil`, an error, or a run-time panic. -/
inductive ConfigResult where
  | nil
  | error
  | panic
deriving DecidableEq, Repr

/-- First loop of `configureSocket` (socket.go 438-444).  Taking the address of
`optval[0]` panics when the recorded value is empty. -/
def replaySocketOptions (w : World) (sockfd : Int) :
    List socketOption → List Event → ConfigResult × List Event
  | [], tr => (ConfigResult.nil, tr)
  | optVal :: rest, tr =>
    if optVal.optval.length = 0 then (ConfigResult.panic, tr)
    else
      let ok := w.setsockopt tr sockfd optVal
      let tr1 := tr ++ [⟨Call.setsockopt sockfd optVal.level optVal.optname optVal.optval
        optVal.optlen, ok⟩]
      if ok then replaySocketOptions w sockfd rest tr1 else (ConfigResult.error, tr1)

/-- Second loop of `configureSocket` (socket.go 446-452). -/
def replayFcntlOptions (w : World) (sockfd : Int) :
    List fcntlOption → List Event → ConfigResult × List Event
  | [], tr => (ConfigResult.nil, tr)
  | fcntlVal :: rest, tr =>
    let ok := w.fcntl tr sockfd fcntlVal
    let tr1 := tr ++ [⟨Call.fcntl sockfd fcntlVal.cmd fcntlVal.value, ok⟩]
    if ok then replayFcntlOptions w sockfd rest tr1 else (ConfigResult.error, tr1)

/-- Replay of the recorded options on a host socket
(`socketStatus.configureSocket`, socket.go 437-455); `tr` is the trace so far and
the returned trace extends it. -/
def configureSocket (w : World) (ss : socketStatus) (sockfd : Int) (tr : List Event) :
    ConfigResult × List Event :=
  match replaySocketOptions w sockfd ss.socketOptions tr with
  | (ConfigResult.nil, tr1) => replayFcntlOptions w sockfd ss.fcntlOptions tr1
  | r => r

/-! ## Go `net.IP` helpers

Byte-level behaviour of the `net` package functions that socket.go calls; an IP
is its byte list, the nil slice is `[]`. -/

/-- Value `net.IPv4zero` (16-byte form of 0.0.0.0). -/
def IPv4zero : List Nat := [0, 0, 0, 0, 0, 0, 0, 0, 0, 0, 255, 255, 0, 0, 0, 0]

/-- Value `net.IPv6loopback` (::1). -/
def IPv6loopback : List Nat := [0, 0, 0, 0, 0, 0, 0, 0, 0, 0, 0, 0, 0, 0, 0, 1]

/-- Function `net.IP.To4`: a 4-byte address is returned as is, a 16-byte
IPv4-mapped address gives its last four bytes, anything else gives nil. -/
def To4 (ip : List Nat) : List Nat :=
  if ip.length = 4 then ip
  else if ip.length = 16 ∧ (ip.take 10).all (fun b => b == 0) = true
      ∧ ip.getD 10 0 = 255 ∧ ip.getD 11 0 = 255 then ip.drop 12
  else []

/-- Function `net.IP.To16`: a 4-byte address is mapped into 16 bytes, a 16-byte
address is returned as is, anything else gives nil. -/
def To16 (ip : List Nat) : List Nat :=
  if ip.length = 4 then
    [0, 0, 0, 0, 0, 0, 0, 0, 0, 0, 255, 255, ip.getD 0 0, ip.getD 1 0, ip.getD 2 0, ip.getD 3 0]
  else if ip.length = 16 then ip
  else []

/-- Function `net.IP.IsLoopback`. -/
def IsLoopback (ip : List Nat) : Bool :=
  if To4 ip ≠ [] then (To4 ip).getD 0 0 == 127 else ip == IPv6loopback

/-- Function `net.IP.IsPrivate`. -/
def IsPrivate (ip : List Nat) : Bool :=
  if To4 ip ≠ [] then
    (To4 ip).getD 0 0 == 10
      || ((To4 ip).getD 0 0 == 172 && (To4 ip).getD 1 0 &&& 240 == 16)
      || ((To4 ip).getD 0 0 == 192 && (To4 ip).getD 1 0 == 168)
  else ip.length == 16 && ip.getD 0 0 &&& 254 == 252

/-- Split of a character list at every colon, as `strings.Split(s, ":")` does. -/
def splitColonChars : List Char → List (List Char)
  | [] => [[]]
  | c :: cs =>
    if c = ':' then [] :: splitColonChars cs
    else
      match splitColonChars cs with
      | [] => [[c]]
      | p :: ps => (c :: p) :: ps

/-- Function `strings.Split(s, ":")`. -/
def stringsSplitColon (s : String) : List String :=
  (splitColonChars s.data).map String.mk

/-! ## connect -/

/-- The effect of `defer syscall.Close(fd)`: the close is the last call of the
run, on every path; its result is discarded by the source. -/
def deferClose (fd : Int) (o : Outcome) : Outcome :=
  { o with trace := o.trace ++ [⟨Call.close fd, true⟩] }

/-- Initial replacement address chosen by family (socket.go 157-171): the
loopback of the family, `none` for any other family. -/
def hostLoopbackFor (family : Nat) : Option (List Nat) :=
  if family = AF_INET then some (((To4 IPv4zero).set 0 127).set 3 1)
  else if family = AF_INET6 then some (To16 IPv6loopback)
  else none

/-- Loopback and interface rules (socket.go 173-190): the two flags
`connectToLoopback`, `connectToInterface` and the looked-up `fwdPort`, which is
the zero value when the lookup is skipped or misses. -/
def connectForwardRules (w : World) (handler : notifHandler) (ss : socketStatus)
    (destAddr : sockaddr) : Bool × Bool × ForwardPortMapping :=
  if !ss.ignoreBind then
    match handler.forwardingPorts (destAddr.Port : Int) with
    | some fwdPort =>
      if IsLoopback destAddr.IP then (true, false, fwdPort)
      else
        match handler.containerInterfaces (w.sockaddrString destAddr) with
        | some contIf =>
          if contIf.containerID = handler.stateID then (false, true, fwdPort)
          else (false, false, fwdPort)
        | none => (false, false, fwdPort)
    | none => (false, false, ⟨0, 0⟩)
  else (false, false, ⟨0, 0⟩)

/-- Result of the peer rules: either the handler stops with state `Error`, or it
goes on with the replacement address, the forward port, the flag
`connectToOtherBypassedContainer` and the trace. -/
inductive PeerResult where
  | abort (tr : List Event)
  | go (newDestAddr : List Nat) (fwdPort : ForwardPortMapping) (other : Bool) (tr : List Event)

/-- Peer rules (socket.go 192-232).  The container-interface map is consulted
only in the `else` branch of the multi-node test. -/
def connectPeerRules (w : World) (handler : notifHandler) (destAddr : sockaddr)
    (newDestAddr : List Nat) (fwdPort : ForwardPortMapping) (tr : List Event) : PeerResult :=
  if handler.multinodeEnable && IsPrivate destAddr.IP then
    let key := w.ETCD_MULTINODE_PREFIX ++ w.sockaddrString destAddr
    match w.etcdGet tr key with
    | none => PeerResult.go newDestAddr fwdPort false (tr ++ [⟨Call.etcdGet key, false⟩])
    | some kvs =>
      let tr1 := tr ++ [⟨Call.etcdGet key, true⟩]
      match kvs with
      | [hostAddrWithPort] =>
        match stringsSplitColon hostAddrWithPort with
        | [hostAddr, portStr] =>
          match w.Atoi portStr with
          | none => PeerResult.abort tr1
          | some hostPort =>
            PeerResult.go (w.ParseIP hostAddr) { fwdPort with HostPort := hostPort } true tr1
        | _ => PeerResult.abort tr1
      | _ => PeerResult.abort tr1
  else if handler.c2cConnectionsEnable then
    match handler.containerInterfaces (w.sockaddrString destAddr) with
    | some contIf =>
      PeerResult.go newDestAddr { fwdPort with HostPort := contIf.hostPort } true tr
    | none => PeerResult.go newDestAddr fwdPort false tr
  else PeerResult.go newDestAddr fwdPort false tr

/-- Rewrite of the destination IP (socket.go 288-313).  Slicing the nil result of
`To4`/`To16` panics. -/
def connectRewriteIP (w : World) (ctx : context) (ss : socketStatus) (destAddr : sockaddr)
    (iface other : Bool) (newDestAddr : List Nat) (tr : List Event) : Outcome :=
  if iface || other then
    if destAddr.Family = AF_INET then
      if (To4 newDestAddr).length < 4 then ⟨ss, ctx.resp, tr, true⟩
      else
        let off := uint64add (ctx.req.Data.Args 1) 4
        let ok := w.writeProcMem tr ss.pid off ((To4 newDestAddr).take 4)
        let tr1 := tr ++ [⟨Call.writeProcMem ss.pid off ((To4 newDestAddr).take 4), ok⟩]
        if ok then ⟨{ ss with state := socketState.Bypassed }, ctx.resp, tr1, false⟩
        else ⟨{ ss with state := socketState.Error }, ctx.resp, tr1, false⟩
    else if destAddr.Family = AF_INET6 then
      if (To16 newDestAddr).length < 16 then ⟨ss, ctx.resp, tr, true⟩
      else
        let off := uint64add (ctx.req.Data.Args 1) 8
        let ok := w.writeProcMem tr ss.pid off ((To16 newDestAddr).take 16)
        let tr1 := tr ++ [⟨Call.writeProcMem ss.pid off ((To16 newDestAddr).take 16), ok⟩]
        if ok then ⟨{ ss with state := socketState.Bypassed }, ctx.resp, tr1, false⟩
        else ⟨{ ss with state := socketState.Error }, ctx.resp, tr1, false⟩
    else ⟨{ ss with state := socketState.Error }, ctx.resp, tr, false⟩
  else ⟨{ ss with state := socketState.Bypassed }, ctx.resp, tr, false⟩

/-- Rewrite of the destination port, then of the IP (socket.go 274-313). -/
def connectRewrite (w : World) (ctx : context) (ss : socketStatus) (destAddr : sockaddr)
    (loop iface other : Bool) (fwdPort : ForwardPortMapping) (newDestAddr : List Nat)
    (tr : List Event) : Outcome :=
  if loop || iface || other then
    let p := bigEndianPutUint16 (uint16 fwdPort.HostPort)
    let off := uint64add (ctx.req.Data.Args 1) 2
    let ok := w.writeProcMem tr ss.pid off p
    let tr1 := tr ++ [⟨Call.writeProcMem ss.pid off p, ok⟩]
    if ok then connectRewriteIP w ctx ss destAddr iface other newDestAddr tr1
    else ⟨{ ss with state := socketState.Error }, ctx.resp, tr1, false⟩
  else connectRewriteIP w ctx ss destAddr iface other newDestAddr tr

/-- The add-fd request built by connect and bind (socket.go 258-265, 385-392). -/
def mkAddFd (ctx : context) (ss : socketStatus) (sockfdOnHost : Int) : seccompNotifAddFd :=
  { id := ctx.req.ID
    flags := SeccompAddFdFlagSetFd
    srcfd := uint32 sockfdOnHost
    newfd := ctx.req.Data.Args 0 % 4294967296
    newfdFlags := intAnd ss.sockType SOCK_CLOEXEC % 4294967296 }

/-- Host socket creation, option replay, add-fd and the rewrites
(socket.go 243-313). -/
def connectInstall (w : World) (ctx : context) (ss : socketStatus) (destAddr : sockaddr)
    (loop iface other : Bool) (fwdPort : ForwardPortMapping) (newDestAddr : List Nat)
    (tr : List Event) : Outcome :=
  match w.socket tr ss.sockDomain ss.sockType ss.sockProto with
  | none =>
    ⟨{ ss with state := socketState.NotBypassable }, ctx.resp,
      tr ++ [⟨Call.socket ss.sockDomain ss.sockType ss.sockProto, false⟩], false⟩
  | some sockfdOnHost =>
    deferClose sockfdOnHost
      (match configureSocket w ss sockfdOnHost
          (tr ++ [⟨Call.socket ss.sockDomain ss.sockType ss.sockProto, true⟩]) with
       | (ConfigResult.panic, tr1) => ⟨ss, ctx.resp, tr1, true⟩
       | (ConfigResult.error, tr1) =>
         ⟨{ ss with state := socketState.NotBypassable }, ctx.resp, tr1, false⟩
       | (ConfigResult.nil, tr1) =>
         let addfd := mkAddFd ctx ss sockfdOnHost
         let ok := w.ioctlNotifAddFd tr1 ctx.notifFd addfd
         let tr2 := tr1 ++ [⟨Call.ioctlNotifAddFd ctx.notifFd addfd, ok⟩]
         if ok then connectRewrite w ctx ss destAddr loop iface other fwdPort newDestAddr tr2
         else ⟨{ ss with state := socketState.NotBypassable }, ctx.resp, tr2, false⟩)

/-- Handler of connect (`socketStatus.handleSysConnect`, socket.go 143-314). -/
def handleSysConnect (w : World) (handler : notifHandler) (ctx : context) (ss : socketStatus) :
    Outcome :=
  match w.readSockaddrFromProcess [] ss.pid (ctx.req.Data.Args 1) (ctx.req.Data.Args 2) with
  | none =>
    ⟨ss, ctx.resp,
      [⟨Call.readSockaddrFromProcess ss.pid (ctx.req.Data.Args 1) (ctx.req.Data.Args 2), false⟩],
      false⟩
  | some destAddr =>
    let tr : List Event :=
      [⟨Call.readSockaddrFromProcess ss.pid (ctx.req.Data.Args 1) (ctx.req.Data.Args 2), true⟩]
    let ss1 : socketStatus := { ss with addr := some destAddr }
    if handler.ip ≠ "" ∧ w.ipString destAddr.IP ≠ handler.ip then
      ⟨{ ss1 with state := socketState.NotBypassable }, ctx.resp, tr, false⟩
    else
      match hostLoopbackFor destAddr.Family with
      | none => ⟨{ ss1 with state := socketState.Error }, ctx.resp, tr, false⟩
      | some newDestAddr =>
        let rules := connectForwardRules w handler ss1 destAddr
        match connectPeerRules w handler destAddr newDestAddr rules.2.2 tr with
        | PeerResult.abort tr1 => ⟨{ ss1 with state := socketState.Error }, ctx.resp, tr1, false⟩
        | PeerResult.go newDestAddr1 fwdPort other tr1 =>
          let isNotBypassed := handler.nonBypassable destAddr.IP
          if !rules.1 && !rules.2.1 && !other && isNotBypassed then
            ⟨{ ss1 with state := socketState.NotBypassable }, ctx.resp, tr1, false⟩
          else
            connectInstall w ctx ss1 destAddr rules.1 rules.2.1 other fwdPort newDestAddr1 tr1

/-! ## bind -/

/-- Construction of the host bind address (socket.go 354-376) as seen by
`syscall.Bind`: `none` stands for a run-time panic, either an index out of range
while copying the IP bytes or the nil interface left by a family that is neither
`AF_INET` nor `AF_INET6`. -/
def bindSockaddr (sa : sockaddr) (fwdPort : ForwardPortMapping) : Option syscallSockaddr :=
  if sa.Family = AF_INET then
    if sa.IP.length < 4 then none
    else some (syscallSockaddr.SockaddrInet4 fwdPort.HostPort (sa.IP.take 4))
  else if sa.Family = AF_INET6 then
    if sa.IP.length < 16 then none
    else some (syscallSockaddr.SockaddrInet6 fwdPort.HostPort sa.ScopeID (sa.IP.take 16))
  else none

/-- The response flags with the continue bit cleared:
`Flags &= ^uint32(SeccompUserNotifFlagContinue)`. -/
def clearContinue (resp : ScmpNotifResp) : ScmpNotifResp :=
  { resp with Flags := resp.Flags &&& (4294967295 ^^^ SeccompUserNotifFlagContinue) }

/-- Host socket creation, option replay, in-process bind and add-fd
(socket.go 339-405). -/
def bindInstall (w : World) (ctx : context) (ss : socketStatus) (sa : sockaddr)
    (fwdPort : ForwardPortMapping) (tr : List Event) : Outcome :=
  match w.socket tr ss.sockDomain ss.sockType ss.sockProto with
  | none =>
    ⟨{ ss with state := socketState.NotBypassable }, ctx.resp,
      tr ++ [⟨Call.socket ss.sockDomain ss.sockType ss.sockProto, false⟩], false⟩
  | some sockfdOnHost =>
    deferClose sockfdOnHost
      (match configureSocket w ss sockfdOnHost
          (tr ++ [⟨Call.socket ss.sockDomain ss.sockType ss.sockProto, true⟩]) with
       | (ConfigResult.panic, tr1) => ⟨ss, ctx.resp, tr1, true⟩
       | (ConfigResult.error, tr1) =>
         ⟨{ ss with state := socketState.NotBypassable }, ctx.resp, tr1, false⟩
       | (ConfigResult.nil, tr1) =>
         match bindSockaddr sa fwdPort with
         | none => ⟨ss, ctx.resp, tr1, true⟩
         | some bind_addr =>
           let okb := w.bind tr1 sockfdOnHost bind_addr
           let tr2 := tr1 ++ [⟨Call.bind sockfdOnHost bind_addr, okb⟩]
           if okb then
             let addfd := mkAddFd ctx ss sockfdOnHost
             let ok := w.ioctlNotifAddFd tr2 ctx.notifFd addfd
             let tr3 := tr2 ++ [⟨Call.ioctlNotifAddFd ctx.notifFd addfd, ok⟩]
             if ok then ⟨{ ss with state := socketState.Bypassed }, clearContinue ctx.resp, tr3, false⟩
             else ⟨{ ss with state := socketState.NotBypassable }, ctx.resp, tr3, false⟩
           else ⟨{ ss with state := socketState.NotBypassable }, ctx.resp, tr2, false⟩)

/-- Handler of bind (`socketStatus.handleSysBind`, socket.go 316-405). -/
def handleSysBind (w : World) (pid : Int) (handler : notifHandler) (ctx : context)
    (ss : socketStatus) : Outcome :=
  if ss.ignoreBind then
    ⟨{ ss with state := socketState.NotBypassable }, ctx.resp, [], false⟩
  else
    match w.readSockaddrFromProcess [] pid (ctx.req.Data.Args 1) (ctx.req.Data.Args 2) with
    | none =>
      ⟨{ ss with state := socketState.NotBypassable }, ctx.resp,
        [⟨Call.readSockaddrFromProcess pid (ctx.req.Data.Args 1) (ctx.req.Data.Args 2), false⟩],
        false⟩
    | some sa =>
      let tr : List Event :=
        [⟨Call.readSockaddrFromProcess pid (ctx.req.Data.Args 1) (ctx.req.Data.Args 2), true⟩]
      let ss1 : socketStatus := { ss with addr := some sa }
      match handler.forwardingPorts (sa.Port : Int) with
      | none => ⟨{ ss1 with state := socketState.NotBypassable }, ctx.resp, tr, false⟩
      | some fwdPort => bindInstall w ctx ss1 sa fwdPort tr

/-! ## getpeername -/

/-- Handler of getpeername (`socketStatus.handleSysGetpeername`,
socket.go 407-435). -/
def handleSysGetpeername (w : World) (ctx : context) (ss : socketStatus) : Outcome :=
  match ss.addr with
  | none => ⟨ss, ctx.resp, [], false⟩
  | some addr =>
    match w.toBytes addr with
    | none => ⟨ss, ctx.resp, [], false⟩
    | some buf =>
      let ok1 := w.writeProcMem [] ss.pid (ctx.req.Data.Args 1) buf
      let tr1 : List Event := [⟨Call.writeProcMem ss.pid (ctx.req.Data.Args 1) buf, ok1⟩]
      if ok1 then
        let bufLen := littleEndianPutUint32 (buf.length % 4294967296)
        let ok2 := w.writeProcMem tr1 ss.pid (ctx.req.Data.Args 2) bufLen
        let tr2 := tr1 ++ [⟨Call.writeProcMem ss.pid (ctx.req.Data.Args 2) bufLen, ok2⟩]
        if ok2 then ⟨ss, clearContinue ctx.resp, tr2, false⟩
        else ⟨ss, ctx.resp, tr2, false⟩
      else ⟨ss, ctx.resp, tr1, false⟩

/-! ## Trace observations -/

/-- The add-fd request carried by a call, if it is one. -/
def Call.addFdArg : Call → Option seccompNotifAddFd
  | Call.ioctlNotifAddFd _ a => some a
  | _ => none

/-- The target-memory write carried by a call, if it is one: process id, address
and bytes. -/
def Call.memWriteArg : Call → Option (Int × Nat × List Nat)
  | Call.writeProcMem pid off data => some (pid, off, data)
  | _ => none

/-- The host socket creation carried by a call, if it is one. -/
def Call.socketArg : Call → Option (Int × Int × Int)
  | Call.socket d t p => some (d, t, p)
  | _ => none

/-- The in-process bind carried by a call, if it is one. -/
def Call.bindArg : Call → Option (Int × syscallSockaddr)
  | Call.bind fd sa => some (fd, sa)
  | _ => none

/-- Whether a call is a host setsockopt or fcntl, the calls of the option replay. -/
def Call.isReplay : Call → Bool
  | Call.setsockopt _ _ _ _ _ => true
  | Call.fcntl _ _ _ => true
  | _ => false

/-- The add-fd requests issued in a trace, in order. -/
def addFds (tr : List Event) : List seccompNotifAddFd :=
  tr.filterMap (fun e => e.call.addFdArg)

/-- The writes to the target memory attempted in a trace, in order. -/
def memWrites (tr : List Event) : List (Int × Nat × List Nat) :=
  tr.filterMap (fun e => e.call.memWriteArg)

/-- The host socket creations attempted in a trace, in order. -/
def socketCalls (tr : List Event) : List (Int × Int × Int) :=
  tr.filterMap (fun e => e.call.socketArg)

/-- The in-process binds attempted in a trace, in order. -/
def bindCalls (tr : List Event) : List (Int × syscallSockaddr) :=
  tr.filterMap (fun e => e.call.bindArg)

/-! ## The replay sequence, from the words of the specification -/

/-- The host call that replays one recorded socket option on `sockfd`. -/
def socketOptionCall (sockfd : Int) (o : socketOption) : Call :=
  Call.setsockopt sockfd o.level o.optname o.optval o.optlen

/-- The host call that replays one recorded fcntl option on `sockfd`. -/
def fcntlOptionCall (sockfd : Int) (f : fcntlOption) : Call :=
  Call.fcntl sockfd f.cmd f.value

/-- Every recorded socketOption in insertion order, followed by every recorded
fcntlOption in insertion order. -/
def replayCalls (ss : socketStatus) (sockfd : Int) : List Call :=
  ss.socketOptions.map (socketOptionCall sockfd) ++ ss.fcntlOptions.map (fcntlOptionCall sockfd)

/-- What a replay loop over `calls` guarantees of its result `res` and of the
events `evs` it appended. -/
def ReplayPost (calls : List Call) (res : ConfigResult) (evs : List Event) : Prop :=
  evs.map Event.call <+: calls ∧
  (∀ e ∈ evs, e.call.isReplay = true) ∧
  (res = ConfigResult.nil → evs.map Event.call = calls ∧ ∀ e ∈ evs, e.ok = true) ∧
  (res = ConfigResult.error →
    ∃ pre e, evs = pre ++ [e] ∧ e.ok = false ∧ ∀ x ∈ pre, x.ok = true) ∧
  (res = ConfigResult.panic → ∀ e ∈ evs, e.ok = true)

/-! ## Sequences of handler steps -/

/-- One handler step on a record, with the world that answers its outside calls
and the notification it handles. -/
inductive Step where
  | setsockopt (w : World) (pid : Int) (ctx : context)
  | fcntl (ctx : context)
  | connect (w : World) (handler : notifHandler) (ctx : context)
  | bind (w : World) (pid : Int) (handler : notifHandler) (ctx : context)
  | getpeername (w : World) (ctx : context)

/-- The handler run of a step. -/
def Step.apply : Step → socketStatus → Outcome
  | Step.setsockopt w pid ctx, ss => handleSysSetsockopt w pid ctx ss
  | Step.fcntl ctx, ss => handleSysFcntl ctx ss
  | Step.connect w handler ctx, ss => handleSysConnect w handler ctx ss
  | Step.bind w pid handler ctx, ss => handleSysBind w pid handler ctx ss
  | Step.getpeername w ctx, ss => handleSysGetpeername w ctx ss

/-- The record after a sequence of steps; a step that panics ends the sequence. -/
def runSteps : List Step → socketStatus → socketStatus
  | [], ss => ss
  | s :: rest, ss =>
    if (s.apply ss).panicked then (s.apply ss).ss else runSteps rest (s.apply ss).ss

/-- The relation between the state before and after one step that the handlers
keep: unchanged, or set to one of Bypassed, NotBypassable, Error. -/
def StateStep (old new : socketState) : Prop :=
  new = old ∨ new = socketState.Bypassed ∨ new = socketState.NotBypassable ∨
    new = socketState.Error

/-! ## Session handler: descriptors received with the container state

The functions `closeStateFds` and `parseStateFds` of `pkg/bypass4netns/bypass4netns.go`.
Their only outside call is `unix.Close`; a run returns the list of descriptors
it closed, in order. -/

/-- The well-known name `specs.SeccompFdName` of the seccomp descriptor. -/
def SeccompFdName : String := "seccompFd"

/-- Conversion `uintptr(x)` of a Go int. -/
def uintptr (x : Int) : Nat := (x % 18446744073709551616).toNat

/-- The loop of `closeStateFds` (bypass4netns.go 27-31) from index `i` on:
`for i := range recvFds` binds the index, and the body closes `i`. -/
def closeStateFdsFrom : List Int → Nat → List Int
  | [], _ => []
  | _ :: rest, i => (i : Int) :: closeStateFdsFrom rest (i + 1)

/-- The descriptors closed by `closeStateFds(recvFds)`, in order. -/
def closeStateFds (recvFds : List Int) : List Int :=
  closeStateFdsFrom recvFds 0

/-- First loop of `parseStateFds` (bypass4netns.go 42-52) from index `i` on, with
the current values of `idx` and `err`. -/
def findSeccompFd : List String → Nat → Int → Bool → Int × Bool
  | [], _, idx, err => (idx, err)
  | name :: rest, i, idx, err =>
    if name = SeccompFdName ∧ idx = -1 then findSeccompFd rest (i + 1) (i : Int) err
    else if name = SeccompFdName ∧ idx ≠ -1 then findSeccompFd rest (i + 1) idx true
    else findSeccompFd rest (i + 1) idx err

/-- Second loop of `parseStateFds` (bypass4netns.go 64-70) from index `i` on: the
descriptors closed, in order. -/
def closeOthersFrom : List Int → Nat → Int → List Int
  | [], _, _ => []
  | fd :: rest, i, idx =>
    if (i : Int) = idx then closeOthersFrom rest (i + 1) idx
    else fd :: closeOthersFrom rest (i + 1) idx

/-- Result of `parseStateFds`: the returned descriptor, whether an error is
returned, and the descriptors closed, in order. -/
structure ParseResult where
  fd : Nat
  err : Bool
  closed : List Int
deriving DecidableEq, Repr

/-- Function `parseStateFds` (bypass4netns.go 37-73). -/
def parseStateFds (stateFds : List String) (recvFds : List Int) : ParseResult :=
  let r := findSeccompFd stateFds 0 (-1) false
  if r.1 = -1 ∨ r.2 = true then ⟨0, true, []⟩
  else if r.1 ≥ (recvFds.length : Int) ∨ r.1 < 0 then ⟨0, true, []⟩
  else ⟨uintptr (recvFds.getD r.1.toNat 0), false, closeOthersFrom recvFds 0 r.1⟩

/-- The trace carried by a result of the peer rules. -/
def PeerResult.trace : PeerResult → List Event
  | PeerResult.abort tr => tr
  | PeerResult.go _ _ _ tr => tr

/-- Whether a call belongs to the policy phase of a handler: the reads of the
target memory and the registry lookup. -/
def Call.isPolicy : Call → Bool
  | Call.readSockaddrFromProcess _ _ _ => true
  | Call.readProcMem _ _ _ => true
  | Call.etcdGet _ => true
  | _ => false

/-- The descriptor closed by a call, if it is a close. -/
def Call.closeArg : Call → Option Int
  | Call.close fd => some fd
  | _ => none

/-- The descriptors closed in a trace, in order. -/
def closeCalls (tr : List Event) : List Int :=
  tr.filterMap (fun e => e.call.closeArg)

/-- The add-fd requests of a trace that succeeded, in order: the host sockets
installed into the descriptor table of the target. -/
def installedFds (tr : List Event) : List seccompNotifAddFd :=
  tr.filterMap (fun e => if e.ok then e.call.addFdArg else none)

/-- The writes to the target memory of a trace that succeeded, in order. -/
def okWrites (tr : List Event) : List (Int × Nat × List Nat) :=
  tr.filterMap (fun e => if e.ok then e.call.memWriteArg else none)

/-- What the rewrite phase of connect guarantees of its outcome `o` and of the
events `wevs` it appended, for a record that entered the phase as `ss0`: the
events are memory writes; the run ends Bypassed with every write succeeded, or
in Error, or panics with the state untouched; a failed write gives Error. -/
def RewriteShape (ss0 : socketStatus) (o : Outcome) (wevs : List Event) : Prop :=
  (∀ e ∈ wevs, e.call.memWriteArg.isSome = true) ∧
  ((o.ss.state = socketState.Bypassed ∧ o.panicked = false ∧ ∀ e ∈ wevs, e.ok = true) ∨
   (o.ss.state = socketState.Error ∧ o.panicked = false) ∨
   (o.panicked = true ∧ o.ss.state = ss0.state ∧ ∀ e ∈ wevs, e.ok = true)) ∧
  ((∃ e ∈ wevs, e.ok = false) → o.ss.state = socketState.Error ∧ o.panicked = false)

/-- The paths of the install phase of connect, started at trace `tr` on record
`ss`, as seen on its outcome `o`: the host socket creation fails; or it gives
descriptor `fd`, the replay events `evs` follow, then the events `mid` of the
add-fd and rewrite steps, and the deferred close of `fd` ends the trace. -/
def InstallShape (w : World) (ctx : context) (ss : socketStatus) (tr : List Event)
    (o : Outcome) : Prop :=
  (w.socket tr ss.sockDomain ss.sockType ss.sockProto = none ∧
    o.trace = tr ++ [⟨Call.socket ss.sockDomain ss.sockType ss.sockProto, false⟩] ∧
    o.ss.state = socketState.NotBypassable ∧ o.panicked = false) ∨
  (∃ fd evs mid, w.socket tr ss.sockDomain ss.sockType ss.sockProto = some fd ∧
    (∀ e ∈ evs, e.call.isReplay = true) ∧
    o.trace = tr ++ [⟨Call.socket ss.sockDomain ss.sockType ss.sockProto, true⟩] ++ evs ++ mid
      ++ [⟨Call.close fd, true⟩] ∧
    ((mid = [] ∧ o.panicked = true ∧ o.ss.state = ss.state ∧ ∀ e ∈ evs, e.ok = true) ∨
     (mid = [] ∧ o.panicked = false ∧ o.ss.state = socketState.NotBypassable ∧
       ∃ e ∈ evs, e.ok = false) ∨
     (mid = [⟨Call.ioctlNotifAddFd ctx.notifFd (mkAddFd ctx ss fd), false⟩] ∧
       o.panicked = false ∧ o.ss.state = socketState.NotBypassable ∧ ∀ e ∈ evs, e.ok = true) ∨
     (∃ wevs, mid = ⟨Call.ioctlNotifAddFd ctx.notifFd (mkAddFd ctx ss fd), true⟩ :: wevs ∧
       (∀ e ∈ evs, e.ok = true) ∧ RewriteShape ss o wevs)))

/-- The paths of the install phase of bind, started at trace `tr` on record `ss`,
as seen on its outcome `o`, in the manner of `InstallShape`; `mid` holds the
events of the in-process bind and of the add-fd. -/
def BindShape (w : World) (ctx : context) (ss : socketStatus) (tr : List Event)
    (o : Outcome) : Prop :=
  (w.socket tr ss.sockDomain ss.sockType ss.sockProto = none ∧
    o.trace = tr ++ [⟨Call.socket ss.sockDomain ss.sockType ss.sockProto, false⟩] ∧
    o.ss.state = socketState.NotBypassable ∧ o.panicked = false) ∨
  (∃ fd evs mid, w.socket tr ss.sockDomain ss.sockType ss.sockProto = some fd ∧
    (∀ e ∈ evs, e.call.isReplay = true) ∧
    o.trace = tr ++ [⟨Call.socket ss.sockDomain ss.sockType ss.sockProto, true⟩] ++ evs ++ mid
      ++ [⟨Call.close fd, true⟩] ∧
    ((mid = [] ∧ o.panicked = true ∧ o.ss.state = ss.state ∧ ∀ e ∈ evs, e.ok = true) ∨
     (mid = [] ∧ o.panicked = false ∧ o.ss.state = socketState.NotBypassable ∧
       ∃ e ∈ evs, e.ok = false) ∨
     (∃ ba, mid = [⟨Call.bind fd ba, false⟩] ∧
       o.panicked = false ∧ o.ss.state = socketState.NotBypassable ∧ ∀ e ∈ evs, e.ok = true) ∨
     (∃ ba, mid = [⟨Call.bind fd ba, true⟩,
         ⟨Call.ioctlNotifAddFd ctx.notifFd (mkAddFd ctx ss fd), false⟩] ∧
       o.panicked = false ∧ o.ss.state = socketState.NotBypassable ∧ ∀ e ∈ evs, e.ok = true) ∨
     (∃ ba, mid = [⟨Call.bind fd ba, true⟩,
         ⟨Call.ioctlNotifAddFd ctx.notifFd (mkAddFd ctx ss fd), true⟩] ∧
       o.panicked = false ∧ o.ss.state = socketState.Bypassed ∧ ∀ e ∈ evs, e.ok = true)))

/-- Whether the socket type carries the `SOCK_CLOEXEC` bit: bit 19 of the 64-bit
two-complement representation of the Go int. -/
def hasCloexecBit (sockType : Int) : Bool :=
  ((sockType % 18446744073709551616).toNat).testBit 19

/-- The close discipline of a handler run with trace `trace` for a host socket
requested with `(d, t, p)`: either no host socket was created and nothing is
closed; or the world answered the one successful creation, made after the calls
`pre`, with descriptor `fd`, and the trace ends with the one close of the run,
the close of `fd`. -/
def ClosedOnce (w : World) (d t p : Int) (trace : List Event) : Prop :=
  ((∀ e ∈ trace, e.call.socketArg.isSome = true → e.ok = false) ∧ closeCalls trace = []) ∨
  (∃ fd pre post,
    trace = pre ++ [⟨Call.socket d t p, true⟩] ++ post ++ [⟨Call.close fd, true⟩] ∧
    w.socket pre d t p = some fd ∧
    socketCalls pre = [] ∧ socketCalls post = [] ∧
    closeCalls pre = [] ∧ closeCalls post = [] ∧
    closeCalls trace = [fd])

/-! ## Dispatcher loop

The functions `notifHandler.handle`, `notifHandler.handleReq` and the
per-syscall handlers they call in `pkg/bypass4netns/bypass4netns.go`.  One
iteration of the loop is a pure function of the handler state and of an
`IterWorld` that answers the outside calls of that iteration; it returns the
new handler state and the trace of the transport calls. -/

namespace Dispatcher

/-- Modelled from the spec: the declaration of the socket state used by
bypass4netns.go is not among the sources.  The file stores and tests the values
`Bypassed` and `SwitchBacked` and panics on any other value, which is
`unexpected` here. -/
inductive socketState where
  | Bypassed
  | SwitchBacked
  | unexpected
deriving DecidableEq, Repr

/-- Entry of `socketInfo.status`, with the fields bypass4netns.go writes
(lines 269-273). -/
structure socketStatus where
  state : socketState
  fdInNetns : Int
  fdInHost : Int
deriving DecidableEq, Repr

/-- State of a dispatcher (`notifHandler`, bypass4netns.go 511-515): the seccomp
descriptor, the ignored subnets as membership tests, and the map
`socketInfo.status`, keyed by the pair printed as "pid:sockfd". -/
structure notifHandler where
  fd : Int
  ignoredSubnets : List (List Nat → Bool)
  status : Nat × Nat → Option socketStatus

/-- Constructor `newNotifHandler` (bypass4netns.go 517-529): empty maps and a copy
of the ignored subnets. -/
def newNotifHandler (fd : Int) (ignoredSubnets : List (List Nat → Bool)) : notifHandler :=
  { fd := fd, ignoredSubnets := ignoredSubnets, status := fun _ => none }

/-- Method `isIgnored` (bypass4netns.go 532-540). -/
def isIgnored (h : notifHandler) (ip : List Nat) : Bool :=
  h.ignoredSubnets.any (fun subnet => subnet ip)

/-- A step of the dispatcher loop: the three transport calls, the run of
`handleReq`, and the close of the seccomp descriptor. -/
inductive NotifCall where
  | NotifReceive
  | NotifIDValid (id : Nat)
  | handleReq (id : Nat)
  | NotifRespond (resp : ScmpNotifResp)
  | close (fd : Int)
deriving DecidableEq, Repr

/-- One entry of the trace of the loop: the step and whether it reported
success. -/
structure NotifEvent where
  call : NotifCall
  ok : Bool
deriving DecidableEq, Repr

/-- Answers to the outside calls of one iteration of the loop.

* `NotifReceive`: `none` is an error, `some req` the received request.
* `NotifIDValid`, `NotifRespond`, `Bind`, `ioctlNotifAddFd`: whether the call succeeds.
* `GetName`: the decoded syscall name, `none` on error.
* `readProcMem`: what the open and the pread of `readProcMem` give once its
  buffer is allocated: `none` on error, else the bytes the pread stored.
* `duplicateSocketOnHost`: `none` on error, else the new host socket and the
  descriptor of the target socket.
* `configureSocket`, `recordSocketOption`: whether the methods of `socketInfo`,
  which are not among the sources, return nil. -/
structure IterWorld where
  NotifReceive : Option ScmpNotifReq
  NotifIDValid : Bool
  NotifRespond : Bool
  GetName : Option String
  readProcMem : Option (List Nat)
  duplicateSocketOnHost : Option (Int × Int)
  configureSocket : Bool
  recordSocketOption : Bool
  Bind : Bool
  ioctlNotifAddFd : Bool

/-- Result of a handler of the dispatcher: the handler state, the response and
whether the handler panicked. -/
structure ReqOutcome where
  handler : notifHandler
  resp : ScmpNotifResp
  panicked : Bool

/-- Largest allocation the Go runtime accepts on 64-bit Linux (`maxAlloc`,
2^48 bytes): `make([]byte, len)` panics for a larger `len`. -/
def maxAlloc : Nat := 281474976710656

/-- Result of `readProcMem`: a run-time panic, an error, or the bytes read. -/
inductive ReadResult where
  | panic
  | error
  | bytes (buf : List Nat)
deriving DecidableEq, Repr

/-- Function `readProcMem` (bypass4netns.go 76-91).  The buffer is allocated first,
with the length the caller passes, which panics when the length is more than
the runtime can allocate; then the open and the pread are answered by the
world, and the result is `buffer[:size]`, at most `len` bytes. -/
def readProcMem (iw : IterWorld) (len : Nat) : ReadResult :=
  if len > maxAlloc then ReadResult.panic
  else
    match iw.readProcMem with
    | none => ReadResult.error
    | some buf => ReadResult.bytes (buf.take len)

/-- The two `binary.Read` calls of the handlers (bypass4netns.go 215-233 and
334-352): both structures take 16 bytes, little-endian; `none` when the buffer
is too short or the family is not `AF_INET`, else the raw port field and the
four address bytes. -/
def decodeInet4 (buf : List Nat) : Option (Nat × List Nat) :=
  if buf.length < 16 then none
  else if buf.getD 0 0 + 256 * buf.getD 1 0 ≠ AF_INET then none
  else some (buf.getD 2 0 + 256 * buf.getD 3 0, (buf.drop 4).take 4)

/-- Byte swap of the raw port (bypass4netns.go 236 and 355), in `uint16`. -/
def swapPort (p : Nat) : Nat := (((p &&& 255) <<< 8) % 65536) ||| (p >>> 8)

/-- The map `socketInfo.status` with one entry written. -/
def setStatus (h : notifHandler) (key : Nat × Nat) (st : socketStatus) : notifHandler :=
  { h with status := fun k => if k = key then some st else h.status k }

/-- Handler of connect of the dispatcher (`notifHandler.handleSysConnect`,
bypass4netns.go 207-320).  It never assigns a field of the response.  The add-fd
at the end does not change the handler state, whatever its result.  It panics
when `readProcMem` does, and on a stored state that is neither `Bypassed` nor
`SwitchBacked`. -/
def handleSysConnect (iw : IterWorld) (h : notifHandler) (ctx : context) : ReqOutcome :=
  match readProcMem iw (ctx.req.Data.Args 2) with
  | ReadResult.panic => ⟨h, ctx.resp, true⟩
  | ReadResult.error => ⟨h, ctx.resp, false⟩
  | ReadResult.bytes buf =>
    match decodeInet4 buf with
    | none => ⟨h, ctx.resp, false⟩
    | some addrInet =>
      let destIsIgnored := isIgnored h addrInet.2
      let key := (ctx.req.Pid, ctx.req.Data.Args 0)
      match h.status key with
      | none =>
        if destIsIgnored then ⟨h, ctx.resp, false⟩
        else
          match iw.duplicateSocketOnHost with
          | none => ⟨h, ctx.resp, false⟩
          | some fds =>
            if iw.configureSocket then
              ⟨setStatus h key ⟨socketState.Bypassed, fds.2, fds.1⟩, ctx.resp, false⟩
            else ⟨h, ctx.resp, false⟩
      | some sockStatus =>
        match sockStatus.state with
        | socketState.Bypassed =>
          if !destIsIgnored then ⟨h, ctx.resp, false⟩
          else
            ⟨setStatus h key { sockStatus with state := socketState.SwitchBacked }, ctx.resp,
              false⟩
        | socketState.SwitchBacked =>
          if destIsIgnored then ⟨h, ctx.resp, false⟩
          else
            ⟨setStatus h key { sockStatus with state := socketState.Bypassed }, ctx.resp, false⟩
        | socketState.unexpected => ⟨h, ctx.resp, true⟩

/-- Handler of bind of the dispatcher (`notifHandler.handleSysBind`,
bypass4netns.go 326-405): the continue flag is cleared when every step
succeeded; it panics when `readProcMem` does. -/
def handleSysBind (iw : IterWorld) (h : notifHandler) (ctx : context) : ReqOutcome :=
  match readProcMem iw (ctx.req.Data.Args 2) with
  | ReadResult.panic => ⟨h, ctx.resp, true⟩
  | ReadResult.error => ⟨h, ctx.resp, false⟩
  | ReadResult.bytes buf =>
    match decodeInet4 buf with
    | none => ⟨h, ctx.resp, false⟩
    | some addrInet =>
      if swapPort addrInet.1 ≠ 5201 then ⟨h, ctx.resp, false⟩
      else
        match iw.duplicateSocketOnHost with
        | none => ⟨h, ctx.resp, false⟩
        | some _ =>
          if !iw.configureSocket then ⟨h, ctx.resp, false⟩
          else if !iw.Bind then ⟨h, ctx.resp, false⟩
          else if !iw.ioctlNotifAddFd then ⟨h, ctx.resp, false⟩
          else ⟨h, clearContinue ctx.resp, false⟩

/-- Handler of setsockopt of the dispatcher (`notifHandler.handleSysSetsockopt`,
bypass4netns.go 409-415); the error of `recordSocketOption` is only logged. -/
def handleSysSetsockopt (_iw : IterWorld) (h : notifHandler) (ctx : context) : ReqOutcome :=
  ⟨h, ctx.resp, false⟩

/-- Modelled from the spec: the method `socketInfo.deleteSocket` is not among the
sources; by spec section 4.6 close deletes the record of the socket, here the
entry of the key made of the process id and Args[0]. -/
def deleteSocket (h : notifHandler) (ctx : context) : notifHandler :=
  { h with status := fun k => if k = (ctx.req.Pid, ctx.req.Data.Args 0) then none else h.status k }

/-- Handler of close of the dispatcher (`notifHandler.handleSysClose`,
bypass4netns.go 418-422). -/
def handleSysClose (h : notifHandler) (ctx : context) : ReqOutcome :=
  ⟨deleteSocket h ctx, ctx.resp, false⟩

/-- Function `notifHandler.handleReq` (bypass4netns.go 425-452). -/
def handleReq (iw : IterWorld) (h : notifHandler) (ctx : context) : ReqOutcome :=
  match iw.GetName with
  | none => ⟨h, ctx.resp, false⟩
  | some syscallName =>
    let ctx1 : context :=
      { ctx with resp := { ctx.resp with
          Flags := ctx.resp.Flags ||| SeccompUserNotifFlagContinue } }
    if syscallName = "connect" then handleSysConnect iw h ctx1
    else if syscallName = "bind" then handleSysBind iw h ctx1
    else if syscallName = "setsockopt" then handleSysSetsockopt iw h ctx1
    else if syscallName = "close" then handleSysClose h ctx1
    else ⟨h, ctx1.resp, false⟩

/-- Result of one iteration of the loop of `handle`. -/
structure IterOutcome where
  handler : notifHandler
  trace : List NotifEvent
  panicked : Bool

/-- One iteration of the loop of `notifHandler.handle` (bypass4netns.go 458-488):
every error branch is a `continue`. -/
def handleIteration (iw : IterWorld) (h : notifHandler) : IterOutcome :=
  match iw.NotifReceive with
  | none => ⟨h, [⟨NotifCall.NotifReceive, false⟩], false⟩
  | some req =>
    let ctx : context :=
      { notifFd := h.fd
        req := req
        resp := { ID := req.ID, Error := 0, Val := 0, Flags := SeccompUserNotifFlagContinue } }
    if !iw.NotifIDValid then
      ⟨h, [⟨NotifCall.NotifReceive, true⟩, ⟨NotifCall.NotifIDValid req.ID, false⟩], false⟩
    else
      let r := handleReq iw h ctx
      if r.panicked then
        ⟨r.handler, [⟨NotifCall.NotifReceive, true⟩, ⟨NotifCall.NotifIDValid req.ID, true⟩,
          ⟨NotifCall.handleReq req.ID, false⟩], true⟩
      else
        ⟨r.handler, [⟨NotifCall.NotifReceive, true⟩, ⟨NotifCall.NotifIDValid req.ID, true⟩,
          ⟨NotifCall.handleReq req.ID, true⟩,
          ⟨NotifCall.NotifRespond r.resp, iw.NotifRespond⟩], false⟩

/-- Where a run of `handle` stands once the given iterations are done: still in
the loop, returned, or ended by a panic. -/
inductive LoopStatus where
  | looping
  | returned
  | panicked
deriving DecidableEq, Repr

/-- Function `notifHandler.handle` (bypass4netns.go 455-489) run for the
iterations answered by the given worlds.  The body of the `for` has no `break`
and no `return`; the deferred close of the seccomp descriptor runs when a panic
unwinds the function. -/
def handle : List IterWorld → notifHandler → List NotifEvent × LoopStatus
  | [], _ => ([], LoopStatus.looping)
  | iw :: rest, h =>
    if (handleIteration iw h).panicked then
      ((handleIteration iw h).trace ++ [⟨NotifCall.close h.fd, true⟩], LoopStatus.panicked)
    else
      ((handleIteration iw h).trace ++ (handle rest (handleIteration iw h).handler).1,
        (handle rest (handleIteration iw h).handler).2)

/-- The handler state after the given iterations. -/
def handlerAfter : List IterWorld → notifHandler → notifHandler
  | [], h => h
  | iw :: rest, h => handlerAfter rest (handleIteration iw h).handler

/-- The responses sent in a trace, in order. -/
def responses (tr : List NotifEvent) : List ScmpNotifResp :=
  tr.filterMap (fun e => match e.call with
    | NotifCall.NotifRespond resp => some resp
    | _ => none)

/-- The number of runs of `handleReq` in a trace. -/
def handlerRuns (tr : List NotifEvent) : Nat :=
  (tr.filter (fun e => match e.call with
    | NotifCall.handleReq _ => true
    | _ => false)).length

/-- The descriptors closed in a trace of the loop, in order. -/
def closes (tr : List NotifEvent) : List Int :=
  tr.filterMap (fun e => match e.call with
    | NotifCall.close fd => some fd
    | _ => none)

/-- The invariant of `socketInfo.status`: every stored state is `Bypassed` or
`SwitchBacked`. -/
def StatusInv (h : notifHandler) : Prop :=
  ∀ key st, h.status key = some st →
    st.state = socketState.Bypassed ∨ st.state = socketState.SwitchBacked

/-- An iteration world in which the receive fails: the seccomp descriptor has
been closed by the other side. -/
def closedWorld : IterWorld :=
  { NotifReceive := none
    NotifIDValid := false
    NotifRespond := false
    GetName := none
    readProcMem := none
    duplicateSocketOnHost := none
    configureSocket := false
    recordSocketOption := false
    Bind := false
    ioctlNotifAddFd := false }

/-- An iteration world that delivers a bind of 0.0.0.0:5201 on descriptor 3 by
process 100, with request id 42, in which every call succeeds. -/
def bindIterWorld : IterWorld :=
  { NotifReceive := some { ID := 42, Pid := 100, Data := { Args := fun i => [3, 4096, 16].getD i 0 } }
    NotifIDValid := true
    NotifRespond := true
    GetName := some "bind"
    readProcMem := some [2, 0, 20, 81, 0, 0, 0, 0, 0, 0, 0, 0, 0, 0, 0, 0]
    duplicateSocketOnHost := some (7, 8)
    configureSocket := true
    recordSocketOption := true
    Bind := true
    ioctlNotifAddFd := true }

/-- An iteration world that delivers a connect to 10.0.0.1:80 on descriptor 3 by
process 100, with request id 41, in which every call succeeds. -/
def connectIterWorld : IterWorld :=
  { bindIterWorld with
    NotifReceive := some { ID := 41, Pid := 100, Data := { Args := fun i => [3, 4096, 16].getD i 0 } }
    GetName := some "connect"
    readProcMem := some [2, 0, 0, 80, 10, 0, 0, 1, 0, 0, 0, 0, 0, 0, 0, 0] }

/-- The world `connectIterWorld` whose connect carries the address length
2^64 - 1 in Args[2]. -/
def hugeLenIterWorld : IterWorld :=
  { connectIterWorld with
    NotifReceive := some
      { ID := 41, Pid := 100, Data := { Args := fun i => [3, 4096, 18446744073709551615].getD i 0 } } }

end Dispatcher

/-! ## Example inputs -/

/-- A world in which every outside call succeeds; addresses decode to
127.0.0.1:5201 and the host socket gets descriptor 7. -/
def okWorld : World :=
  { readSockaddrFromProcess := fun _ _ _ _ => some ⟨2, 5201, [127, 0, 0, 1], 0⟩
    readProcMem := fun _ _ _ _ => ([1, 0, 0, 0], true)
    writeProcMem := fun _ _ _ _ => true
    etcdGet := fun _ _ => none
    socket := fun _ _ _ _ => some 7
    setsockopt := fun _ _ _ => true
    fcntl := fun _ _ _ => true
    bind := fun _ _ _ => true
    ioctlNotifAddFd := fun _ _ _ => true
    ipString := fun _ => "ip"
    sockaddrString := fun _ => "addr"
    toBytes := fun _ => none
    Atoi := fun _ => none
    ParseIP := fun _ => []
    ETCD_MULTINODE_PREFIX := "" }

/-- A handler with forward table 5201 to 8080, no handler-IP filter, both modes
off and an empty non-bypassable set. -/
def fwdHandler : notifHandler :=
  { ip := ""
    forwardingPorts := fun p => if p = 5201 then some ⟨8080, 5201⟩ else none
    containerInterfaces := fun _ => none
    stateID := "c1"
    multinodeEnable := false
    c2cConnectionsEnable := false
    nonBypassable := fun _ => false }

/-- A notification context with the given argument words, request id 42 and a
response that carries the continue flag. -/
def mkContext (args : List Nat) : context :=
  { notifFd := 5
    req := { ID := 42, Pid := 100, Data := { Args := fun i => args.getD i 0 } }
    resp := { ID := 42, Error := 0, Val := 0, Flags := 1 } }

/-- A fresh record of process 100, descriptor 3, for a TCP socket over IPv4. -/
def freshRecord : socketStatus := newSocketStatus 100 3 2 1 0 false

/-- A record with one recorded setsockopt (SO_REUSEADDR = 1) and one recorded
fcntl (F_SETFL, O_NONBLOCK). -/
def replayRecord : socketStatus :=
  { freshRecord with
    socketOptions := [⟨1, 2, [1, 0, 0, 0], 4⟩]
    fcntlOptions := [⟨4, 2048⟩] }

/-- A world in which addresses decode to 10.4.0.2:80, every host call succeeds
and the registry lookup completes without error and returns no key-value pair. -/
def peerWorld : World :=
  { okWorld with
    readSockaddrFromProcess := fun _ _ _ _ => some ⟨2, 80, [10, 4, 0, 2], 0⟩
    etcdGet := fun _ _ => some []
    ipString := fun _ => "10.4.0.2"
    sockaddrString := fun _ => "10.4.0.2:80" }

/-- A handler whose non-bypassable set holds 10.4.0.2, with an empty forward
table, no handler-IP filter and both modes off. -/
def skipHandler : notifHandler :=
  { ip := ""
    forwardingPorts := fun _ => none
    containerInterfaces := fun _ => none
    stateID := "c1"
    multinodeEnable := false
    c2cConnectionsEnable := false
    nonBypassable := fun ip => ip == [10, 4, 0, 2] }

/-- The handler `skipHandler` with multi-node mode on. -/
def registryHandler : notifHandler :=
  { skipHandler with multinodeEnable := true }

/-- The world `peerWorld` with a failing registry lookup. -/
def lookupFailedWorld : World :=
  { peerWorld with etcdGet := fun _ _ => none }

/-- A handler with c2c mode on whose container-interface map holds 10.4.0.2:80,
owned by container c2, with host port 8080; no handler-IP filter, multi-node mode
off, empty forward table and empty non-bypassable set. -/
def c2cHandler : notifHandler :=
  { ip := ""
    forwardingPorts := fun _ => none
    containerInterfaces := fun k => if k = "10.4.0.2:80" then some ⟨"c2", 8080⟩ else none
    stateID := "c1"
    multinodeEnable := false
    c2cConnectionsEnable := true
    nonBypassable := fun _ => false }

/-- The handler `c2cHandler` with multi-node mode on. -/
def c2cLookupFailedHandler : notifHandler :=
  { c2cHandler with multinodeEnable := true }

/-- The handler `c2cHandler` with a handler-IP filter for another address. -/
def c2cFilteredHandler : notifHandler :=
  { c2cHandler with ip := "192.168.0.1" }

/-- The world `okWorld` with addresses decoding to 0.0.0.0:5201. -/
def bindWorld : World :=
  { okWorld with readSockaddrFromProcess := fun _ _ _ _ => some ⟨2, 5201, [0, 0, 0, 0], 0⟩ }

/-- The world `okWorld` with every write to the target memory failing. -/
def writeFailWorld : World :=
  { okWorld with writeProcMem := fun _ _ _ _ => false }

/-- The world `lookupFailedWorld` in which the first write to the target memory
of a run succeeds and every later one fails. -/
def secondWriteFailWorld : World :=
  { lookupFailedWorld with writeProcMem := fun tr _ _ _ => (memWrites tr).isEmpty }

/-- The world `okWorld` with a failing add-fd. -/
def addFdFailWorld : World :=
  { okWorld with ioctlNotifAddFd := fun _ _ _ => false }

/-- A record of process 100, descriptor 3, with the captured address
10.4.0.2:80. -/
def capturedRecord : socketStatus :=
  { freshRecord with addr := some ⟨2, 80, [10, 4, 0, 2], 0⟩ }

/-- The world `okWorld` in which an address serialises to the 16 bytes of a
`sockaddr_in` for 10.4.0.2:80 and every write to the target memory fails. -/
def peerNameWriteFailWorld : World :=
  { writeFailWorld with
    toBytes := fun _ => some [2, 0, 0, 80, 10, 4, 0, 2, 0, 0, 0, 0, 0, 0, 0, 0] }

/-- The world `peerNameWriteFailWorld` with every write succeeding. -/
def peerNameWorld : World :=
  { peerNameWriteFailWorld with writeProcMem := fun _ _ _ _ => true }

/-- The record `freshRecord` with the `ignoreBind` flag set. -/
def ignoreBindRecord : socketStatus := { freshRecord with ignoreBind := true }

/-- The handler `fwdHandler` whose non-bypassable set holds 127.0.0.1. -/
def fwdSkipHandler : notifHandler :=
  { fwdHandler with nonBypassable := fun ip => ip == [127, 0, 0, 1] }

/-- The world `okWorld` in which a read of the target memory returns as many
bytes as were asked for, so none for length 0. -/
def exactReadWorld : World :=
  { okWorld with readProcMem := fun _ _ _ len => (List.replicate len 1, true) }

/-- The world `okWorld` in which every read of the target memory fails and returns
the nil slice. -/
def readFailWorld : World :=
  { okWorld with readProcMem := fun _ _ _ _ => ([], false) }

/-- The outcome `o` with the `ignoreBind` field of its record set to `b`. -/
def Outcome.setIgnoreBind (b : Bool) (o : Outcome) : Outcome :=
  { o with ss := { o.ss with ignoreBind := b } }

/-! ## Lemmas on the option replay -/

theorem replayPost_cons_ok (c : Call) (calls : List Call) (res : ConfigResult)
    (evs : List Event) (h : ReplayPost calls res evs) (hc : c.isReplay = true) :
    ReplayPost (c :: calls) res (⟨c, true⟩ :: evs) := by
  obtain ⟨hp, hr, hn, he, hpa⟩ := h
  refine ⟨?_, ?_, ?_, ?_, ?_⟩
  · simpa [List.cons_prefix_cons] using hp
  · intro e he1
    rcases List.mem_cons.1 he1 with rfl | h1
    · exact hc
    · exact hr e h1
  · intro hres
    obtain ⟨h1, h2⟩ := hn hres
    refine ⟨by simp [h1], ?_⟩
    intro e he1
    rcases List.mem_cons.1 he1 with rfl | h3
    · rfl
    · exact h2 e h3
  · intro hres
    obtain ⟨pre, e, h1, h2, h3⟩ := he hres
    refine ⟨⟨c, true⟩ :: pre, e, by simp [h1], h2, ?_⟩
    intro x hx
    rcases List.mem_cons.1 hx with rfl | h4
    · rfl
    · exact h3 x h4
  · intro hres e he1
    rcases List.mem_cons.1 he1 with rfl | h3
    · rfl
    · exact hpa hres e h3

theorem replayPost_fail (c : Call) (calls : List Call) (hc : c.isReplay = true) :
    ReplayPost (c :: calls) ConfigResult.error [⟨c, false⟩] := by
  refine ⟨?_, ?_, ?_, ?_, ?_⟩
  · simp [List.cons_prefix_cons]
  · intro e he
    rcases List.mem_singleton.1 he with rfl
    exact hc
  · intro h
    cases h
  · intro _
    exact ⟨[], ⟨c, false⟩, by simp, rfl, by simp⟩
  · intro h
    cases h

theorem replayFcntlOptions_spec (w : World) (sockfd : Int) :
    ∀ (opts : List fcntlOption) (tr : List Event),
      ∃ evs, (replayFcntlOptions w sockfd opts tr).2 = tr ++ evs ∧
        (replayFcntlOptions w sockfd opts tr).1 ≠ ConfigResult.panic ∧
        ReplayPost (opts.map (fcntlOptionCall sockfd)) (replayFcntlOptions w sockfd opts tr).1 evs
  | [], tr => by
    refine ⟨[], by simp [replayFcntlOptions], by simp [replayFcntlOptions], ?_⟩
    simp [replayFcntlOptions, ReplayPost]
  | f :: rest, tr => by
    cases hok : w.fcntl tr sockfd f with
    | false =>
      refine ⟨[⟨Call.fcntl sockfd f.cmd f.value, false⟩], ?_, ?_, ?_⟩
      · simp [replayFcntlOptions, hok]
      · simp [replayFcntlOptions, hok]
      · simpa [replayFcntlOptions, hok, fcntlOptionCall] using
          replayPost_fail (Call.fcntl sockfd f.cmd f.value) _ rfl
    | true =>
      obtain ⟨evs, h1, h2, h3⟩ := replayFcntlOptions_spec w sockfd rest
        (tr ++ [⟨Call.fcntl sockfd f.cmd f.value, true⟩])
      refine ⟨⟨Call.fcntl sockfd f.cmd f.value, true⟩ :: evs, ?_, ?_, ?_⟩
      · simp [replayFcntlOptions, hok, h1]
      · simpa [replayFcntlOptions, hok] using h2
      · simpa [replayFcntlOptions, hok, fcntlOptionCall] using
          replayPost_cons_ok (Call.fcntl sockfd f.cmd f.value) _ _ _ h3 rfl

theorem replaySocketOptions_spec (w : World) (sockfd : Int) :
    ∀ (opts : List socketOption) (tr : List Event),
      ∃ evs, (replaySocketOptions w sockfd opts tr).2 = tr ++ evs ∧
        ((replaySocketOptions w sockfd opts tr).1 = ConfigResult.panic →
          ∃ o ∈ opts, o.optval = []) ∧
        ((∀ o ∈ opts, o.optval ≠ []) →
          ReplayPost (opts.map (socketOptionCall sockfd))
            (replaySocketOptions w sockfd opts tr).1 evs) ∧
        (∀ e ∈ evs, e.call.isReplay = true) ∧
        ((replaySocketOptions w sockfd opts tr).1 = ConfigResult.error →
          ∃ e ∈ evs, e.ok = false)
  | [], tr => by
    refine ⟨[], by simp [replaySocketOptions], by simp [replaySocketOptions], ?_, by simp,
      by simp [replaySocketOptions]⟩
    simp [replaySocketOptions, ReplayPost]
  | o :: rest, tr => by
    by_cases hlen : o.optval.length = 0
    · refine ⟨[], by simp [replaySocketOptions, hlen], ?_, ?_, by simp,
        by simp [replaySocketOptions, hlen]⟩
      · intro _
        exact ⟨o, by simp, List.length_eq_zero.1 hlen⟩
      · intro hne
        exact absurd (List.length_eq_zero.1 hlen) (hne o (by simp))
    · cases hok : w.setsockopt tr sockfd o with
      | false =>
        refine ⟨[⟨socketOptionCall sockfd o, false⟩], ?_, ?_, ?_, ?_, ?_⟩
        · simp [replaySocketOptions, hlen, hok, socketOptionCall]
        · simp [replaySocketOptions, hlen, hok]
        · intro _
          simpa [replaySocketOptions, hlen, hok] using
            replayPost_fail (socketOptionCall sockfd o) _ rfl
        · intro e he
          rcases List.mem_singleton.1 he with rfl
          rfl
        · intro _
          exact ⟨_, List.mem_singleton.2 rfl, rfl⟩
      | true =>
        obtain ⟨evs, h1, h2, h3, h4, h5⟩ := replaySocketOptions_spec w sockfd rest
          (tr ++ [⟨socketOptionCall sockfd o, true⟩])
        have hdef : replaySocketOptions w sockfd (o :: rest) tr =
            replaySocketOptions w sockfd rest (tr ++ [⟨socketOptionCall sockfd o, true⟩]) := by
          simp [replaySocketOptions, hlen, hok, socketOptionCall]
        refine ⟨⟨socketOptionCall sockfd o, true⟩ :: evs, ?_, ?_, ?_, ?_, ?_⟩
        · simp [hdef, h1]
        · intro hp
          obtain ⟨x, hx, hx2⟩ := h2 (by simpa [hdef] using hp)
          exact ⟨x, List.mem_cons_of_mem _ hx, hx2⟩
        · intro hne
          have := h3 (fun x hx => hne x (List.mem_cons_of_mem _ hx))
          simpa [hdef] using replayPost_cons_ok (socketOptionCall sockfd o) _ _ _ this rfl
        · intro e he
          rcases List.mem_cons.1 he with rfl | h6
          · rfl
          · exact h4 e h6
        · intro he
          obtain ⟨e, he1, he2⟩ := h5 (by simpa [hdef] using he)
          exact ⟨e, List.mem_cons_of_mem _ he1, he2⟩

theorem replayPost_append_nil (calls1 calls2 : List Call) (res : ConfigResult)
    (evs1 evs2 : List Event) (h1 : ReplayPost calls1 ConfigResult.nil evs1)
    (h2 : ReplayPost calls2 res evs2) :
    ReplayPost (calls1 ++ calls2) res (evs1 ++ evs2) := by
  obtain ⟨_, hr1, hn1, _, _⟩ := h1
  obtain ⟨hm1, hok1⟩ := hn1 rfl
  obtain ⟨hp2, hr2, hn2, he2, hpa2⟩ := h2
  refine ⟨?_, ?_, ?_, ?_, ?_⟩
  · rw [List.map_append, hm1]
    exact (List.prefix_append_right_inj calls1).2 hp2
  · intro e he
    rcases List.mem_append.1 he with h | h
    · exact hr1 e h
    · exact hr2 e h
  · intro hres
    obtain ⟨h3, h4⟩ := hn2 hres
    refine ⟨by rw [List.map_append, hm1, h3], ?_⟩
    intro e he
    rcases List.mem_append.1 he with h | h
    · exact hok1 e h
    · exact h4 e h
  · intro hres
    obtain ⟨pre, e, h3, h4, h5⟩ := he2 hres
    refine ⟨evs1 ++ pre, e, by simp [h3], h4, ?_⟩
    intro x hx
    rcases List.mem_append.1 hx with h | h
    · exact hok1 x h
    · exact h5 x h
  · intro hres e he
    rcases List.mem_append.1 he with h | h
    · exact hok1 e h
    · exact hpa2 hres e h

theorem replayPost_error_extend (calls1 calls2 : List Call) (evs : List Event)
    (h : ReplayPost calls1 ConfigResult.error evs) :
    ReplayPost (calls1 ++ calls2) ConfigResult.error evs := by
  obtain ⟨hp, hr, _, he, _⟩ := h
  refine ⟨hp.trans (List.prefix_append _ _), hr, ?_, he, ?_⟩
  · intro h
    cases h
  · intro h
    cases h

/-- Characterisation of `configureSocket`: it appends only setsockopt and fcntl
events; an error result comes with a failed event, a panic with an empty recorded
value; when every recorded value is non-empty the appended events satisfy
`ReplayPost` for the whole replay sequence and there is no panic. -/
theorem configureSocket_spec (w : World) (ss : socketStatus) (sockfd : Int) (tr : List Event) :
    ∃ evs, (configureSocket w ss sockfd tr).2 = tr ++ evs ∧
      (∀ e ∈ evs, e.call.isReplay = true) ∧
      ((configureSocket w ss sockfd tr).1 = ConfigResult.error → ∃ e ∈ evs, e.ok = false) ∧
      ((configureSocket w ss sockfd tr).1 = ConfigResult.panic →
        ∃ o ∈ ss.socketOptions, o.optval = []) ∧
      ((∀ o ∈ ss.socketOptions, o.optval ≠ []) →
        ReplayPost (replayCalls ss sockfd) (configureSocket w ss sockfd tr).1 evs ∧
        (configureSocket w ss sockfd tr).1 ≠ ConfigResult.panic) := by
  obtain ⟨evs1, h1, hpan1, hpost1, hrep1, herr1⟩ :=
    replaySocketOptions_spec w sockfd ss.socketOptions tr
  cases hres : (replaySocketOptions w sockfd ss.socketOptions tr).1 with
  | nil =>
    have hpair : replaySocketOptions w sockfd ss.socketOptions tr
        = (ConfigResult.nil, tr ++ evs1) := by
      rw [← h1, ← hres]
    obtain ⟨evs2, h2, hnp2, hpost2⟩ := replayFcntlOptions_spec w sockfd ss.fcntlOptions (tr ++ evs1)
    have hcfg : configureSocket w ss sockfd tr
        = replayFcntlOptions w sockfd ss.fcntlOptions (tr ++ evs1) := by
      simp [configureSocket, hpair]
    refine ⟨evs1 ++ evs2, ?_, ?_, ?_, ?_, ?_⟩
    · rw [hcfg, h2, List.append_assoc]
    · intro e he
      rcases List.mem_append.1 he with h | h
      · exact hrep1 e h
      · exact hpost2.2.1 e h
    · intro he
      rw [hcfg] at he
      obtain ⟨pre, e, h3, h4, _⟩ := hpost2.2.2.2.1 he
      exact ⟨e, by simp [h3], h4⟩
    · intro hp
      rw [hcfg] at hp
      exact absurd hp hnp2
    · intro hne
      have hp1 := hpost1 hne
      rw [hres] at hp1
      rw [hcfg]
      exact ⟨replayPost_append_nil _ _ _ _ _ hp1 hpost2, hnp2⟩
  | error =>
    have hpair : replaySocketOptions w sockfd ss.socketOptions tr
        = (ConfigResult.error, tr ++ evs1) := by
      rw [← h1, ← hres]
    have hcfg : configureSocket w ss sockfd tr = (ConfigResult.error, tr ++ evs1) := by
      simp [configureSocket, hpair]
    refine ⟨evs1, by rw [hcfg], hrep1, ?_, ?_, ?_⟩
    · intro _
      exact herr1 hres
    · intro hp
      rw [hcfg] at hp
      cases hp
    · intro hne
      have hp1 := hpost1 hne
      rw [hres] at hp1
      rw [hcfg]
      exact ⟨replayPost_error_extend _ _ _ hp1, by simp⟩
  | panic =>
    have hpair : replaySocketOptions w sockfd ss.socketOptions tr
        = (ConfigResult.panic, tr ++ evs1) := by
      rw [← h1, ← hres]
    have hcfg : configureSocket w ss sockfd tr = (ConfigResult.panic, tr ++ evs1) := by
      simp [configureSocket, hpair]
    refine ⟨evs1, by rw [hcfg], hrep1, ?_, ?_, ?_⟩
    · intro he
      rw [hcfg] at he
      cases he
    · intro _
      exact hpan1 hres
    · intro hne
      obtain ⟨o, ho, ho2⟩ := hpan1 hres
      exact absurd ho2 (hne o ho)

/-! ## Lemmas on the install phase -/

theorem addFds_nil : addFds [] = [] := rfl

theorem memWrites_nil : memWrites [] = [] := rfl

theorem socketCalls_nil : socketCalls [] = [] := rfl

theorem bindCalls_nil : bindCalls [] = [] := rfl

theorem addFds_append (a b : List Event) : addFds (a ++ b) = addFds a ++ addFds b := by
  simp [addFds, List.filterMap_append]

theorem addFds_cons (e : Event) (t : List Event) :
    addFds (e :: t) = e.call.addFdArg.toList ++ addFds t := by
  cases h : e.call.addFdArg <;> simp [addFds, List.filterMap_cons, h]

theorem memWrites_append (a b : List Event) :
    memWrites (a ++ b) = memWrites a ++ memWrites b := by
  simp [memWrites, List.filterMap_append]

theorem memWrites_cons (e : Event) (t : List Event) :
    memWrites (e :: t) = e.call.memWriteArg.toList ++ memWrites t := by
  cases h : e.call.memWriteArg <;> simp [memWrites, List.filterMap_cons, h]

theorem socketCalls_append (a b : List Event) :
    socketCalls (a ++ b) = socketCalls a ++ socketCalls b := by
  simp [socketCalls, List.filterMap_append]

theorem socketCalls_cons (e : Event) (t : List Event) :
    socketCalls (e :: t) = e.call.socketArg.toList ++ socketCalls t := by
  cases h : e.call.socketArg <;> simp [socketCalls, List.filterMap_cons, h]

theorem bindCalls_append (a b : List Event) :
    bindCalls (a ++ b) = bindCalls a ++ bindCalls b := by
  simp [bindCalls, List.filterMap_append]

theorem bindCalls_cons (e : Event) (t : List Event) :
    bindCalls (e :: t) = e.call.bindArg.toList ++ bindCalls t := by
  cases h : e.call.bindArg <;> simp [bindCalls, List.filterMap_cons, h]

theorem addFdArg_of_isReplay (c : Call) (h : c.isReplay = true) : c.addFdArg = none := by
  cases c <;> first | rfl | cases h

theorem memWriteArg_of_isReplay (c : Call) (h : c.isReplay = true) : c.memWriteArg = none := by
  cases c <;> first | rfl | cases h

theorem socketArg_of_isReplay (c : Call) (h : c.isReplay = true) : c.socketArg = none := by
  cases c <;> first | rfl | cases h

theorem bindArg_of_isReplay (c : Call) (h : c.isReplay = true) : c.bindArg = none := by
  cases c <;> first | rfl | cases h

theorem addFds_replay (evs : List Event) (h : ∀ e ∈ evs, e.call.isReplay = true) :
    addFds evs = [] := by
  induction evs with
  | nil => rfl
  | cons e rest ih =>
    have h1 := addFdArg_of_isReplay e.call (h e (List.mem_cons_self _ _))
    have h2 := ih (fun x hx => h x (List.mem_cons_of_mem _ hx))
    unfold addFds at h2 ⊢
    rw [List.filterMap_cons, h1]
    exact h2

theorem memWrites_replay (evs : List Event) (h : ∀ e ∈ evs, e.call.isReplay = true) :
    memWrites evs = [] := by
  induction evs with
  | nil => rfl
  | cons e rest ih =>
    have h1 := memWriteArg_of_isReplay e.call (h e (List.mem_cons_self _ _))
    have h2 := ih (fun x hx => h x (List.mem_cons_of_mem _ hx))
    unfold memWrites at h2 ⊢
    rw [List.filterMap_cons, h1]
    exact h2

theorem socketCalls_replay (evs : List Event) (h : ∀ e ∈ evs, e.call.isReplay = true) :
    socketCalls evs = [] := by
  induction evs with
  | nil => rfl
  | cons e rest ih =>
    have h1 := socketArg_of_isReplay e.call (h e (List.mem_cons_self _ _))
    have h2 := ih (fun x hx => h x (List.mem_cons_of_mem _ hx))
    unfold socketCalls at h2 ⊢
    rw [List.filterMap_cons, h1]
    exact h2

theorem bindCalls_replay (evs : List Event) (h : ∀ e ∈ evs, e.call.isReplay = true) :
    bindCalls evs = [] := by
  induction evs with
  | nil => rfl
  | cons e rest ih =>
    have h1 := bindArg_of_isReplay e.call (h e (List.mem_cons_self _ _))
    have h2 := ih (fun x hx => h x (List.mem_cons_of_mem _ hx))
    unfold bindCalls at h2 ⊢
    rw [List.filterMap_cons, h1]
    exact h2

/-- When every call of `connectInstall` succeeded and it did not panic, the host
socket was created, the options were replayed, the add-fd was issued, and the
outcome is that of the rewrite phase followed by the deferred close. -/
theorem connectInstall_all_ok (w : World) (ctx : context) (ss : socketStatus)
    (destAddr : sockaddr) (loop iface other : Bool) (fwdPort : ForwardPortMapping)
    (newDestAddr : List Nat) (tr : List Event)
    (hok : ∀ e ∈ (connectInstall w ctx ss destAddr loop iface other fwdPort newDestAddr tr).trace,
      e.ok = true)
    (hnp : (connectInstall w ctx ss destAddr loop iface other fwdPort newDestAddr tr).panicked
      = false) :
    ∃ fd evs, (∀ e ∈ evs, e.call.isReplay = true) ∧
      connectInstall w ctx ss destAddr loop iface other fwdPort newDestAddr tr =
        deferClose fd (connectRewrite w ctx ss destAddr loop iface other fwdPort newDestAddr
          (tr ++ [⟨Call.socket ss.sockDomain ss.sockType ss.sockProto, true⟩] ++ evs ++
            [⟨Call.ioctlNotifAddFd ctx.notifFd (mkAddFd ctx ss fd), true⟩])) := by
  cases hs : w.socket tr ss.sockDomain ss.sockType ss.sockProto with
  | none =>
    have := hok ⟨Call.socket ss.sockDomain ss.sockType ss.sockProto, false⟩
      (by simp [connectInstall, hs])
    cases this
  | some fd =>
    obtain ⟨evs, h1, hrep, herr, _, _⟩ := configureSocket_spec w ss fd
      (tr ++ [⟨Call.socket ss.sockDomain ss.sockType ss.sockProto, true⟩])
    rcases hcs : configureSocket w ss fd
      (tr ++ [⟨Call.socket ss.sockDomain ss.sockType ss.sockProto, true⟩]) with ⟨res, tr1⟩
    rw [hcs] at h1 herr
    simp only at h1 herr
    subst h1
    cases res with
    | panic =>
      simp [connectInstall, hs, hcs, deferClose] at hnp
    | error =>
      obtain ⟨e, he1, he2⟩ := herr rfl
      have := hok e (by simp [connectInstall, hs, hcs, deferClose, he1])
      rw [he2] at this
      cases this
    | nil =>
      cases hadd : w.ioctlNotifAddFd
        (tr ++ [⟨Call.socket ss.sockDomain ss.sockType ss.sockProto, true⟩] ++ evs)
        ctx.notifFd (mkAddFd ctx ss fd) with
      | false =>
        have hadd1 := hadd
        simp only [List.append_assoc, List.singleton_append] at hadd1
        have := hok ⟨Call.ioctlNotifAddFd ctx.notifFd (mkAddFd ctx ss fd), false⟩
          (by simp [connectInstall, hs, hcs, deferClose, hadd1])
        cases this
      | true =>
        have hadd1 := hadd
        simp only [List.append_assoc, List.singleton_append] at hadd1
        refine ⟨fd, evs, hrep, ?_⟩
        simp [connectInstall, hs, hcs, hadd1]

/-! ## Recording handlers: setsockopt and fcntl -/

/-- Claim C7: for a record whose recorded setsockopt values are all non-empty and
for any outcome of the host calls, `configureSocket` appends to the trace events
whose calls form a prefix of the replay sequence (every recorded socketOption in
insertion order, then every recorded fcntlOption in insertion order, each with
its recorded fields); if no issued call fails the whole sequence is issued exactly
once and nil is returned; if some issued call fails, that call is the last one
issued, every earlier one succeeded, and an error is returned. -/
theorem configureSocket_replays_in_order (w : World) (ss : socketStatus) (sockfd : Int)
    (tr : List Event) (hne : ∀ o ∈ ss.socketOptions, o.optval ≠ []) :
    ∃ evs, (configureSocket w ss sockfd tr).2 = tr ++ evs ∧
      evs.map Event.call <+: replayCalls ss sockfd ∧
      ((∀ e ∈ evs, e.ok = true) →
        evs.map Event.call = replayCalls ss sockfd ∧
        (configureSocket w ss sockfd tr).1 = ConfigResult.nil) ∧
      ((∃ e ∈ evs, e.ok = false) →
        (configureSocket w ss sockfd tr).1 = ConfigResult.error ∧
        ∃ pre e, evs = pre ++ [e] ∧ e.ok = false ∧ ∀ x ∈ pre, x.ok = true) := by
  obtain ⟨evs, h1, _, _, _, h5⟩ := configureSocket_spec w ss sockfd tr
  obtain ⟨⟨hp, _, hn, he, hpa⟩, hnp⟩ := h5 hne
  refine ⟨evs, h1, hp, ?_, ?_⟩
  · intro hall
    cases hres : (configureSocket w ss sockfd tr).1 with
    | nil => exact ⟨(hn hres).1, rfl⟩
    | error =>
      obtain ⟨pre, e, h3, h4, _⟩ := he hres
      have := hall e (by simp [h3])
      rw [h4] at this
      cases this
    | panic => exact absurd hres hnp
  · rintro ⟨e, hmem, hfalse⟩
    cases hres : (configureSocket w ss sockfd tr).1 with
    | nil =>
      have := (hn hres).2 e hmem
      rw [hfalse] at this
      cases this
    | error => exact ⟨rfl, he hres⟩
    | panic => exact absurd hres hnp

/-- Witness of C7: a record with one recorded setsockopt and one recorded fcntl;
in a world where every host call succeeds both are replayed in order on the
host socket 7. -/
theorem configureSocket_replays_in_order_witness :
    (∀ o ∈ replayRecord.socketOptions, o.optval ≠ []) ∧
    ∃ evs, (configureSocket okWorld replayRecord 7 []).2 = [] ++ evs ∧
      evs.map Event.call <+: replayCalls replayRecord 7 ∧
      ((∀ e ∈ evs, e.ok = true) →
        evs.map Event.call = replayCalls replayRecord 7 ∧
        (configureSocket okWorld replayRecord 7 []).1 = ConfigResult.nil) ∧
      ((∃ e ∈ evs, e.ok = false) →
        (configureSocket okWorld replayRecord 7 []).1 = ConfigResult.error ∧
        ∃ pre e, evs = pre ++ [e] ∧ e.ok = false ∧ ∀ x ∈ pre, x.ok = true) :=
  ⟨by decide, configureSocket_replays_in_order okWorld replayRecord 7 [] (by decide)⟩

/-- Claim C8, the code at the failing input: an fcntl notification with command
`F_SETFD` (Args[1] = 2) and value `FD_CLOEXEC` (Args[2] = 1) leaves the fcntl
options of a fresh record empty, whereas the same notification with command
`F_SETFL` (Args[1] = 4) records the entry. -/
theorem handleSysFcntl_setfd_not_recorded :
    (handleSysFcntl (mkContext [3, 2, 1]) freshRecord).ss.fcntlOptions = [] ∧
    (handleSysFcntl (mkContext [3, 4, 1]) freshRecord).ss.fcntlOptions = [⟨4, 1⟩] := by
  decide

/-- Claim C9: when reading `optlen = Args[4]` bytes at `Args[3]` succeeds with
bytes `b`, `handleSysSetsockopt` appends exactly the entry with level `Args[1]`,
optname `Args[2]`, optval `b`, optlen `Args[4]` at the end of the socket options,
and leaves the state, the captured address and the fcntl options unchanged. -/
theorem handleSysSetsockopt_appends (w : World) (pid : Int) (ctx : context) (ss : socketStatus)
    (b : List Nat)
    (hread : w.readProcMem [] pid (ctx.req.Data.Args 3) (ctx.req.Data.Args 4) = (b, true)) :
    (handleSysSetsockopt w pid ctx ss).ss.socketOptions =
        ss.socketOptions ++ [{ level := ctx.req.Data.Args 1, optname := ctx.req.Data.Args 2,
                               optval := b, optlen := ctx.req.Data.Args 4 }] ∧
      (handleSysSetsockopt w pid ctx ss).ss.state = ss.state ∧
      (handleSysSetsockopt w pid ctx ss).ss.addr = ss.addr ∧
      (handleSysSetsockopt w pid ctx ss).ss.fcntlOptions = ss.fcntlOptions := by
  simp [handleSysSetsockopt, hread]

/-- Witness of C9: setsockopt(3, SOL_SOCKET = 1, SO_REUSEADDR = 2, 0x2000, 4) on a
fresh record, the read returning the bytes 1 0 0 0. -/
theorem handleSysSetsockopt_appends_witness :
    okWorld.readProcMem [] 100 ((mkContext [3, 1, 2, 8192, 4]).req.Data.Args 3)
        ((mkContext [3, 1, 2, 8192, 4]).req.Data.Args 4) = ([1, 0, 0, 0], true) ∧
    ((handleSysSetsockopt okWorld 100 (mkContext [3, 1, 2, 8192, 4]) freshRecord).ss.socketOptions =
        freshRecord.socketOptions ++
          [{ level := (mkContext [3, 1, 2, 8192, 4]).req.Data.Args 1,
             optname := (mkContext [3, 1, 2, 8192, 4]).req.Data.Args 2,
             optval := [1, 0, 0, 0],
             optlen := (mkContext [3, 1, 2, 8192, 4]).req.Data.Args 4 }] ∧
      (handleSysSetsockopt okWorld 100 (mkContext [3, 1, 2, 8192, 4]) freshRecord).ss.state =
        freshRecord.state ∧
      (handleSysSetsockopt okWorld 100 (mkContext [3, 1, 2, 8192, 4]) freshRecord).ss.addr =
        freshRecord.addr ∧
      (handleSysSetsockopt okWorld 100 (mkContext [3, 1, 2, 8192, 4]) freshRecord).ss.fcntlOptions =
        freshRecord.fcntlOptions) :=
  ⟨rfl, handleSysSetsockopt_appends okWorld 100 (mkContext [3, 1, 2, 8192, 4]) freshRecord
    [1, 0, 0, 0] rfl⟩

/-! ## connect -/

/-- Claim C1: a record with ignoreBind = false, a handler without handler-IP
filter and with multi-node and c2c modes off, a connect whose decoded destination
is a loopback IPv4 or IPv6 address and whose port is a key of the forward-port
table with host port h, 0 <= h < 65536.  If every outside call of the run
succeeded (host socket creation, option replay, add-fd, memory write) and the
run did not panic, then `handleSysConnect` issues exactly one add-fd, whose newfd
is the low 32 bits of Args[0] (Args[0] itself when it fits a descriptor number),
performs exactly one memory write, the two big-endian bytes of h at Args[1]+2,
leaves the record in state Bypassed and leaves the response, hence its continue
flag, as it was. -/
theorem handleSysConnect_loopback_bypass (w : World) (handler : notifHandler) (ctx : context)
    (ss : socketStatus) (dest : sockaddr) (fp : ForwardPortMapping)
    (hign : ss.ignoreBind = false)
    (hip : handler.ip = "")
    (hmn : handler.multinodeEnable = false)
    (hc2c : handler.c2cConnectionsEnable = false)
    (hread : w.readSockaddrFromProcess [] ss.pid (ctx.req.Data.Args 1) (ctx.req.Data.Args 2)
      = some dest)
    (hfam : dest.Family = AF_INET ∨ dest.Family = AF_INET6)
    (hloop : IsLoopback dest.IP = true)
    (hfwd : handler.forwardingPorts (dest.Port : Int) = some fp)
    (hrange : 0 ≤ fp.HostPort ∧ fp.HostPort < 65536)
    (hok : ∀ e ∈ (handleSysConnect w handler ctx ss).trace, e.ok = true)
    (hnp : (handleSysConnect w handler ctx ss).panicked = false) :
    (∃ a, addFds (handleSysConnect w handler ctx ss).trace = [a] ∧
      a.newfd = ctx.req.Data.Args 0 % 4294967296 ∧
      (ctx.req.Data.Args 0 < 4294967296 → a.newfd = ctx.req.Data.Args 0)) ∧
    memWrites (handleSysConnect w handler ctx ss).trace =
      [(ss.pid, uint64add (ctx.req.Data.Args 1) 2,
        [fp.HostPort.toNat / 256, fp.HostPort.toNat % 256])] ∧
    (handleSysConnect w handler ctx ss).ss.state = socketState.Bypassed ∧
    (handleSysConnect w handler ctx ss).resp = ctx.resp ∧
    ((handleSysConnect w handler ctx ss).resp.Flags &&& SeccompUserNotifFlagContinue
      = ctx.resp.Flags &&& SeccompUserNotifFlagContinue) := by
  have hrules : connectForwardRules w handler { ss with addr := some dest } dest
      = (true, false, fp) := by
    simp [connectForwardRules, hign, hfwd, hloop]
  have hpeer : ∀ nd tr, connectPeerRules w handler dest nd fp tr = PeerResult.go nd fp false tr := by
    intro nd tr
    simp [connectPeerRules, hmn, hc2c]
  obtain ⟨nd, hnd⟩ : ∃ nd, hostLoopbackFor dest.Family = some nd := by
    rcases hfam with h | h <;> simp [hostLoopbackFor, h, AF_INET, AF_INET6]
  have hdef : handleSysConnect w handler ctx ss =
      connectInstall w ctx { ss with addr := some dest } dest true false false fp nd
        [⟨Call.readSockaddrFromProcess ss.pid (ctx.req.Data.Args 1) (ctx.req.Data.Args 2),
          true⟩] := by
    simp [handleSysConnect, hread, hip, hnd, hrules, hpeer]
  rw [hdef] at hok hnp ⊢
  obtain ⟨fd, evs, hrep, hinst⟩ := connectInstall_all_ok _ _ _ _ _ _ _ _ _ _ hok hnp
  generalize htr : ([⟨Call.readSockaddrFromProcess ss.pid (ctx.req.Data.Args 1)
      (ctx.req.Data.Args 2), true⟩] ++ [(⟨Call.socket _ _ _, true⟩ : Event)] ++ evs ++
      [(⟨Call.ioctlNotifAddFd ctx.notifFd (mkAddFd ctx { ss with addr := some dest } fd), true⟩ :
        Event)]) = tr1 at hinst
  rw [hinst] at hok ⊢
  have hport : bigEndianPutUint16 (uint16 fp.HostPort)
      = [fp.HostPort.toNat / 256, fp.HostPort.toNat % 256] := by
    have h1 : fp.HostPort % 65536 = fp.HostPort := Int.emod_eq_of_lt hrange.1 hrange.2
    have h2 : fp.HostPort.toNat < 65536 := by omega
    simp only [bigEndianPutUint16, uint16, h1]
    congr 1
    omega
  have ha : addFds tr1 = [mkAddFd ctx { ss with addr := some dest } fd] := by
    subst htr
    simp [addFds_append, addFds_cons, addFds_nil, addFds_replay evs hrep, Call.addFdArg]
  have hm : memWrites tr1 = [] := by
    subst htr
    simp [memWrites_append, memWrites_cons, memWrites_nil, memWrites_replay evs hrep,
      Call.memWriteArg]
  cases hwr : w.writeProcMem tr1 ss.pid (uint64add (ctx.req.Data.Args 1) 2)
      (bigEndianPutUint16 (uint16 fp.HostPort)) with
  | false =>
    have := hok ⟨Call.writeProcMem ss.pid (uint64add (ctx.req.Data.Args 1) 2)
      (bigEndianPutUint16 (uint16 fp.HostPort)), false⟩
      (by simp [deferClose, connectRewrite, hwr])
    cases this
  | true =>
    refine ⟨⟨mkAddFd ctx { ss with addr := some dest } fd, ?_, rfl, ?_⟩, ?_, ?_, ?_, ?_⟩
    · simp [deferClose, connectRewrite, connectRewriteIP, hwr, addFds_append, addFds_cons,
        addFds_nil, ha, Call.addFdArg]
    · intro hlt
      simp [mkAddFd, Nat.mod_eq_of_lt hlt]
    · have hwr2 := hwr
      rw [hport] at hwr2
      simp [deferClose, connectRewrite, connectRewriteIP, hwr2, memWrites_append, memWrites_cons,
        memWrites_nil, hm, Call.memWriteArg, hport]
    · simp [deferClose, connectRewrite, connectRewriteIP, hwr]
    · simp [deferClose, connectRewrite, connectRewriteIP, hwr]
    · simp [deferClose, connectRewrite, connectRewriteIP, hwr]

/-- Witness of C1: connect to 127.0.0.1:5201 with forward table 5201 to 8080 in a
world where every call succeeds; the port bytes 31, 144 (8080) are written at
4096 + 2 and the record ends Bypassed. -/
theorem handleSysConnect_loopback_bypass_witness :
    memWrites (handleSysConnect okWorld fwdHandler (mkContext [3, 4096, 16]) freshRecord).trace =
      [(100, 4098, [31, 144])] ∧
    (handleSysConnect okWorld fwdHandler (mkContext [3, 4096, 16]) freshRecord).ss.state =
      socketState.Bypassed :=
  have h := handleSysConnect_loopback_bypass okWorld fwdHandler (mkContext [3, 4096, 16])
    freshRecord ⟨2, 5201, [127, 0, 0, 1], 0⟩ ⟨8080, 5201⟩ rfl rfl rfl rfl rfl (Or.inl rfl)
    (by decide) (by decide) (by decide) (by decide) (by decide)
  ⟨h.2.1, h.2.2.1⟩

/-- The loopback and interface flags are both off when neither rule of the policy
table matches the destination. -/
theorem connectForwardRules_none (w : World) (handler : notifHandler) (ss : socketStatus)
    (dest : sockaddr)
    (hnoloop : ¬ ((handler.forwardingPorts (dest.Port : Int)).isSome = true ∧
      IsLoopback dest.IP = true))
    (hnoif : ¬ ((handler.forwardingPorts (dest.Port : Int)).isSome = true ∧
      ∃ ci, handler.containerInterfaces (w.sockaddrString dest) = some ci ∧
        ci.containerID = handler.stateID)) :
    ∃ fp0, connectForwardRules w handler ss dest = (false, false, fp0) := by
  cases hib : ss.ignoreBind with
  | true => exact ⟨⟨0, 0⟩, by simp [connectForwardRules, hib]⟩
  | false =>
    cases hf : handler.forwardingPorts (dest.Port : Int) with
    | none => exact ⟨⟨0, 0⟩, by simp [connectForwardRules, hib, hf]⟩
    | some fp =>
      have hl : IsLoopback dest.IP = false := by
        cases h : IsLoopback dest.IP with
        | false => rfl
        | true => exact absurd ⟨by simp [hf], h⟩ hnoloop
      cases hci : handler.containerInterfaces (w.sockaddrString dest) with
      | none => exact ⟨fp, by simp [connectForwardRules, hib, hf, hl, hci]⟩
      | some ci =>
        have hne : ci.containerID ≠ handler.stateID :=
          fun h => hnoif ⟨by simp [hf], ci, hci, h⟩
        exact ⟨fp, by simp [connectForwardRules, hib, hf, hl, hci, hne]⟩

/-- Claim C2: a connect whose decoded destination is an IPv4 or IPv6 address in
the non-bypassable set, matched by none of the loopback, interface and c2c peer
rules, with the multi-node registry not consulted (mode off or destination not
private) and the handler-IP filter unset or equal to the destination:
`handleSysConnect` leaves the record NotBypassable and its only outside call is
the read of the sockaddr, so no host socket is created, no add-fd is issued and
nothing is written to the target memory. -/
theorem handleSysConnect_non_bypassable (w : World) (handler : notifHandler) (ctx : context)
    (ss : socketStatus) (dest : sockaddr)
    (hread : w.readSockaddrFromProcess [] ss.pid (ctx.req.Data.Args 1) (ctx.req.Data.Args 2)
      = some dest)
    (hfam : dest.Family = AF_INET ∨ dest.Family = AF_INET6)
    (hfilter : handler.ip = "" ∨ w.ipString dest.IP = handler.ip)
    (hnb : handler.nonBypassable dest.IP = true)
    (hmn : handler.multinodeEnable = false ∨ IsPrivate dest.IP = false)
    (hnoloop : ¬ ((handler.forwardingPorts (dest.Port : Int)).isSome = true ∧
      IsLoopback dest.IP = true))
    (hnoif : ¬ ((handler.forwardingPorts (dest.Port : Int)).isSome = true ∧
      ∃ ci, handler.containerInterfaces (w.sockaddrString dest) = some ci ∧
        ci.containerID = handler.stateID))
    (hnopeer : ¬ (handler.c2cConnectionsEnable = true ∧
      (handler.containerInterfaces (w.sockaddrString dest)).isSome = true)) :
    (handleSysConnect w handler ctx ss).ss.state = socketState.NotBypassable ∧
    (handleSysConnect w handler ctx ss).trace =
      [⟨Call.readSockaddrFromProcess ss.pid (ctx.req.Data.Args 1) (ctx.req.Data.Args 2), true⟩] ∧
    socketCalls (handleSysConnect w handler ctx ss).trace = [] ∧
    addFds (handleSysConnect w handler ctx ss).trace = [] ∧
    memWrites (handleSysConnect w handler ctx ss).trace = [] := by
  obtain ⟨fp0, hrules⟩ := connectForwardRules_none w handler { ss with addr := some dest } dest
    hnoloop hnoif
  have hmn1 : (handler.multinodeEnable && IsPrivate dest.IP) = false := by
    rcases hmn with h | h <;> simp [h]
  have hpeer : ∀ nd tr, connectPeerRules w handler dest nd fp0 tr = PeerResult.go nd fp0 false tr := by
    intro nd tr
    cases hc : handler.c2cConnectionsEnable with
    | false => simp [connectPeerRules, hmn1, hc]
    | true =>
      cases hci : handler.containerInterfaces (w.sockaddrString dest) with
      | none => simp [connectPeerRules, hmn1, hc, hci]
      | some ci => exact absurd ⟨hc, by simp [hci]⟩ hnopeer
  obtain ⟨nd, hnd⟩ : ∃ nd, hostLoopbackFor dest.Family = some nd := by
    rcases hfam with h | h <;> simp [hostLoopbackFor, h, AF_INET, AF_INET6]
  have hflt : ¬ (handler.ip ≠ "" ∧ w.ipString dest.IP ≠ handler.ip) := by
    rintro ⟨h1, h2⟩
    rcases hfilter with h | h
    · exact h1 h
    · exact h2 h
  have hdef : handleSysConnect w handler ctx ss =
      ⟨{ ss with addr := some dest, state := socketState.NotBypassable }, ctx.resp,
        [⟨Call.readSockaddrFromProcess ss.pid (ctx.req.Data.Args 1) (ctx.req.Data.Args 2), true⟩],
        false⟩ := by
    simp only [handleSysConnect, hread, hnd, hrules, hpeer, hnb, if_neg hflt]
    simp
  rw [hdef]
  refine ⟨rfl, rfl, ?_, ?_, ?_⟩
  · simp [socketCalls_cons, socketCalls_nil, Call.socketArg]
  · simp [addFds_cons, addFds_nil, Call.addFdArg]
  · simp [memWrites_cons, memWrites_nil, Call.memWriteArg]

/-- Witness of C2: connect to 10.4.0.2:80, an address of the non-bypassable set,
with an empty forward table and both modes off. -/
theorem handleSysConnect_non_bypassable_witness :
    (handleSysConnect peerWorld skipHandler (mkContext [3, 4096, 16]) freshRecord).ss.state =
      socketState.NotBypassable ∧
    socketCalls (handleSysConnect peerWorld skipHandler (mkContext [3, 4096, 16])
      freshRecord).trace = [] :=
  have h := handleSysConnect_non_bypassable peerWorld skipHandler (mkContext [3, 4096, 16])
    freshRecord ⟨2, 80, [10, 4, 0, 2], 0⟩ rfl (Or.inl rfl) (Or.inl rfl) (by decide)
    (Or.inl rfl) (by decide) (by decide) (by decide)
  ⟨h.1, h.2.2.1⟩

/-- Claim C3 as stated fails: multi-node mode on, destination 10.4.0.2:80 private
and in the non-bypassable set, no forward-table entry and no container-interface
entry, the registry lookup completes without error and returns zero key-value
pairs; the record ends in state Error, not NotBypassable. -/
theorem handleSysConnect_registry_miss_counterexample :
    registryHandler.multinodeEnable = true ∧
    IsPrivate [10, 4, 0, 2] = true ∧
    registryHandler.nonBypassable [10, 4, 0, 2] = true ∧
    peerWorld.readSockaddrFromProcess [] 100 4096 16 = some ⟨2, 80, [10, 4, 0, 2], 0⟩ ∧
    peerWorld.etcdGet [⟨Call.readSockaddrFromProcess 100 4096 16, true⟩]
      (peerWorld.ETCD_MULTINODE_PREFIX ++ peerWorld.sockaddrString ⟨2, 80, [10, 4, 0, 2], 0⟩)
      = some [] ∧
    (handleSysConnect peerWorld registryHandler (mkContext [3, 4096, 16]) freshRecord).ss.state
      = socketState.Error ∧
    (handleSysConnect peerWorld registryHandler (mkContext [3, 4096, 16]) freshRecord).ss.state
      ≠ socketState.NotBypassable := by
  decide

/-- Claim C3, amended: with multi-node mode on and a private destination, when
the registry lookup completes without error and returns zero key-value pairs,
`handleSysConnect` leaves the record in state Error (in state NotBypassable when
the handler-IP filter has already rejected the destination, before any lookup),
creates no host socket, issues no add-fd and writes nothing to the target
memory. -/
theorem handleSysConnect_registry_miss (w : World) (handler : notifHandler) (ctx : context)
    (ss : socketStatus) (dest : sockaddr)
    (hread : w.readSockaddrFromProcess [] ss.pid (ctx.req.Data.Args 1) (ctx.req.Data.Args 2)
      = some dest)
    (hmn : handler.multinodeEnable = true)
    (hpriv : IsPrivate dest.IP = true)
    (hget : w.etcdGet
      [⟨Call.readSockaddrFromProcess ss.pid (ctx.req.Data.Args 1) (ctx.req.Data.Args 2), true⟩]
      (w.ETCD_MULTINODE_PREFIX ++ w.sockaddrString dest) = some []) :
    (handleSysConnect w handler ctx ss).ss.state =
      (if handler.ip ≠ "" ∧ w.ipString dest.IP ≠ handler.ip then socketState.NotBypassable
       else socketState.Error) ∧
    socketCalls (handleSysConnect w handler ctx ss).trace = [] ∧
    addFds (handleSysConnect w handler ctx ss).trace = [] ∧
    memWrites (handleSysConnect w handler ctx ss).trace = [] := by
  by_cases hflt : handler.ip ≠ "" ∧ w.ipString dest.IP ≠ handler.ip
  · have hdef : handleSysConnect w handler ctx ss =
        ⟨{ ss with addr := some dest, state := socketState.NotBypassable }, ctx.resp,
          [⟨Call.readSockaddrFromProcess ss.pid (ctx.req.Data.Args 1) (ctx.req.Data.Args 2),
            true⟩], false⟩ := by
      simp only [handleSysConnect, hread, if_pos hflt]
    rw [hdef, if_pos hflt]
    refine ⟨rfl, ?_, ?_, ?_⟩
    · simp [socketCalls_cons, socketCalls_nil, Call.socketArg]
    · simp [addFds_cons, addFds_nil, Call.addFdArg]
    · simp [memWrites_cons, memWrites_nil, Call.memWriteArg]
  · rw [if_neg hflt]
    cases hnd : hostLoopbackFor dest.Family with
    | none =>
      have hdef : handleSysConnect w handler ctx ss =
          ⟨{ ss with addr := some dest, state := socketState.Error }, ctx.resp,
            [⟨Call.readSockaddrFromProcess ss.pid (ctx.req.Data.Args 1) (ctx.req.Data.Args 2),
              true⟩], false⟩ := by
        simp only [handleSysConnect, hread, if_neg hflt, hnd]
      rw [hdef]
      refine ⟨rfl, ?_, ?_, ?_⟩
      · simp [socketCalls_cons, socketCalls_nil, Call.socketArg]
      · simp [addFds_cons, addFds_nil, Call.addFdArg]
      · simp [memWrites_cons, memWrites_nil, Call.memWriteArg]
    | some nd =>
      have hpeer : ∀ fp0, connectPeerRules w handler dest nd fp0
          [⟨Call.readSockaddrFromProcess ss.pid (ctx.req.Data.Args 1) (ctx.req.Data.Args 2),
            true⟩] =
          PeerResult.abort
            ([⟨Call.readSockaddrFromProcess ss.pid (ctx.req.Data.Args 1) (ctx.req.Data.Args 2),
              true⟩] ++ [⟨Call.etcdGet (w.ETCD_MULTINODE_PREFIX ++ w.sockaddrString dest), true⟩]) := by
        intro fp0
        simp only [connectPeerRules, hmn, hpriv, hget, Bool.and_self, if_true]
      have hdef : handleSysConnect w handler ctx ss =
          ⟨{ ss with addr := some dest, state := socketState.Error }, ctx.resp,
            [⟨Call.readSockaddrFromProcess ss.pid (ctx.req.Data.Args 1) (ctx.req.Data.Args 2),
              true⟩] ++ [⟨Call.etcdGet (w.ETCD_MULTINODE_PREFIX ++ w.sockaddrString dest), true⟩],
            false⟩ := by
        simp only [handleSysConnect, hread, if_neg hflt, hnd, hpeer]
      rw [hdef]
      refine ⟨rfl, ?_, ?_, ?_⟩
      · simp [socketCalls_cons, socketCalls_nil, Call.socketArg]
      · simp [addFds_cons, addFds_nil, Call.addFdArg]
      · simp [memWrites_cons, memWrites_nil, Call.memWriteArg]

/-- Witness of C3 amended: connect to 10.4.0.2:80 with multi-node mode on and an
empty registry answer; the record ends in state Error and no host socket is
created. -/
theorem handleSysConnect_registry_miss_witness :
    (handleSysConnect peerWorld registryHandler (mkContext [3, 4096, 16]) freshRecord).ss.state
      = socketState.Error ∧
    socketCalls (handleSysConnect peerWorld registryHandler (mkContext [3, 4096, 16])
      freshRecord).trace = [] :=
  have h := handleSysConnect_registry_miss peerWorld registryHandler (mkContext [3, 4096, 16])
    freshRecord ⟨2, 80, [10, 4, 0, 2], 0⟩ rfl rfl (by decide) rfl
  ⟨h.1, h.2.1⟩

/-- Claim C4 as stated fails at two inputs, in a world where every host call and
memory write succeeds, c2c mode is on and the destination 10.4.0.2:80 is a key of
the container-interface map with host port 8080.  First, multi-node mode on, the
destination private and the registry lookup failing: the c2c branch is skipped,
nothing is written and the record ends Bypassed.  Second, a handler-IP filter
different from the destination: nothing is written and the record ends
NotBypassable. -/
theorem handleSysConnect_c2c_counterexample :
    (c2cLookupFailedHandler.c2cConnectionsEnable = true ∧
      c2cLookupFailedHandler.containerInterfaces
        (lookupFailedWorld.sockaddrString ⟨2, 80, [10, 4, 0, 2], 0⟩) = some ⟨"c2", 8080⟩ ∧
      lookupFailedWorld.etcdGet [⟨Call.readSockaddrFromProcess 100 4096 16, true⟩]
        (lookupFailedWorld.ETCD_MULTINODE_PREFIX ++
          lookupFailedWorld.sockaddrString ⟨2, 80, [10, 4, 0, 2], 0⟩) = none ∧
      (∀ e ∈ (handleSysConnect lookupFailedWorld c2cLookupFailedHandler (mkContext [3, 4096, 16])
          freshRecord).trace, e.call.memWriteArg.isSome = true → e.ok = true) ∧
      memWrites (handleSysConnect lookupFailedWorld c2cLookupFailedHandler
        (mkContext [3, 4096, 16]) freshRecord).trace = [] ∧
      (handleSysConnect lookupFailedWorld c2cLookupFailedHandler (mkContext [3, 4096, 16])
        freshRecord).ss.state = socketState.Bypassed) ∧
    (c2cFilteredHandler.c2cConnectionsEnable = true ∧
      c2cFilteredHandler.multinodeEnable = false ∧
      c2cFilteredHandler.containerInterfaces
        (lookupFailedWorld.sockaddrString ⟨2, 80, [10, 4, 0, 2], 0⟩) = some ⟨"c2", 8080⟩ ∧
      memWrites (handleSysConnect lookupFailedWorld c2cFilteredHandler
        (mkContext [3, 4096, 16]) freshRecord).trace = [] ∧
      (handleSysConnect lookupFailedWorld c2cFilteredHandler (mkContext [3, 4096, 16])
        freshRecord).ss.state = socketState.NotBypassable) := by
  decide

theorem hostLoopbackFor_inet : hostLoopbackFor AF_INET = some [127, 0, 0, 1] := by decide

theorem hostLoopbackFor_inet6 : hostLoopbackFor AF_INET6 = some IPv6loopback := by decide

/-- Claim C4, amended: c2c mode on, the decoded destination an IPv4 or IPv6
address whose printed addr:port is a key of the container-interface map (any
container id) with host port h, the multi-node branch not taken (mode off or
destination not private) and the handler-IP filter unset or equal to the
destination.  If every outside call of the run succeeded and the run did not
panic, `handleSysConnect` writes to the target memory exactly, in this order,
the two big-endian bytes of h at Args[1]+2 and then the host loopback at the IP
offset of the family (127.0.0.1 at Args[1]+4 for IPv4, the 16 bytes of ::1 at
Args[1]+8 for IPv6), and leaves the record Bypassed. -/
theorem handleSysConnect_c2c_bypass (w : World) (handler : notifHandler) (ctx : context)
    (ss : socketStatus) (dest : sockaddr) (ci : containerInterface)
    (hread : w.readSockaddrFromProcess [] ss.pid (ctx.req.Data.Args 1) (ctx.req.Data.Args 2)
      = some dest)
    (hfam : dest.Family = AF_INET ∨ dest.Family = AF_INET6)
    (hfilter : handler.ip = "" ∨ w.ipString dest.IP = handler.ip)
    (hc2c : handler.c2cConnectionsEnable = true)
    (hci : handler.containerInterfaces (w.sockaddrString dest) = some ci)
    (hmn : handler.multinodeEnable = false ∨ IsPrivate dest.IP = false)
    (hok : ∀ e ∈ (handleSysConnect w handler ctx ss).trace, e.ok = true)
    (hnp : (handleSysConnect w handler ctx ss).panicked = false) :
    memWrites (handleSysConnect w handler ctx ss).trace =
      [(ss.pid, uint64add (ctx.req.Data.Args 1) 2, bigEndianPutUint16 (uint16 ci.hostPort)),
       (ss.pid, uint64add (ctx.req.Data.Args 1) (if dest.Family = AF_INET then 4 else 8),
        if dest.Family = AF_INET then [127, 0, 0, 1] else IPv6loopback)] ∧
    (handleSysConnect w handler ctx ss).ss.state = socketState.Bypassed := by
  rcases hr : connectForwardRules w handler { ss with addr := some dest } dest with ⟨l, i, fp0⟩
  have hmn1 : (handler.multinodeEnable && IsPrivate dest.IP) = false := by
    rcases hmn with h | h <;> simp [h]
  have hpeer : ∀ nd tr, connectPeerRules w handler dest nd fp0 tr =
      PeerResult.go nd { fp0 with HostPort := ci.hostPort } true tr := by
    intro nd tr
    simp [connectPeerRules, hmn1, hc2c, hci]
  have hflt : ¬ (handler.ip ≠ "" ∧ w.ipString dest.IP ≠ handler.ip) := by
    rintro ⟨h1, h2⟩
    rcases hfilter with h | h
    · exact h1 h
    · exact h2 h
  obtain ⟨nd, hnd, hnd4, hnd6⟩ : ∃ nd, hostLoopbackFor dest.Family = some nd ∧
      (dest.Family = AF_INET → nd = [127, 0, 0, 1]) ∧
      (dest.Family = AF_INET6 → nd = IPv6loopback) := by
    rcases hfam with h | h
    · exact ⟨_, by rw [h, hostLoopbackFor_inet], fun _ => rfl,
        fun h6 => by rw [h] at h6; exact absurd h6 (by decide)⟩
    · exact ⟨_, by rw [h, hostLoopbackFor_inet6],
        fun h4 => by rw [h] at h4; exact absurd h4 (by decide), fun _ => rfl⟩
  have hdef : handleSysConnect w handler ctx ss =
      connectInstall w ctx { ss with addr := some dest } dest l i true
        { fp0 with HostPort := ci.hostPort } nd
        [⟨Call.readSockaddrFromProcess ss.pid (ctx.req.Data.Args 1) (ctx.req.Data.Args 2),
          true⟩] := by
    simp only [handleSysConnect, hread, if_neg hflt, hnd, hr, hpeer]
    simp
  rw [hdef] at hok hnp ⊢
  obtain ⟨fd, evs, hrep, hinst⟩ := connectInstall_all_ok _ _ _ _ _ _ _ _ _ _ hok hnp
  generalize htr : ([⟨Call.readSockaddrFromProcess ss.pid (ctx.req.Data.Args 1)
      (ctx.req.Data.Args 2), true⟩] ++ [(⟨Call.socket _ _ _, true⟩ : Event)] ++ evs ++
      [(⟨Call.ioctlNotifAddFd ctx.notifFd (mkAddFd ctx { ss with addr := some dest } fd), true⟩ :
        Event)]) = tr1 at hinst
  rw [hinst] at hok hnp ⊢
  have hm : memWrites tr1 = [] := by
    subst htr
    simp [memWrites_append, memWrites_cons, memWrites_nil, memWrites_replay evs hrep,
      Call.memWriteArg]
  cases hwr : w.writeProcMem tr1 ss.pid (uint64add (ctx.req.Data.Args 1) 2)
      (bigEndianPutUint16 (uint16 ci.hostPort)) with
  | false =>
    have := hok ⟨Call.writeProcMem ss.pid (uint64add (ctx.req.Data.Args 1) 2)
      (bigEndianPutUint16 (uint16 ci.hostPort)), false⟩
      (by simp [deferClose, connectRewrite, hwr])
    cases this
  | true =>
    generalize htr2 : tr1 ++ [(⟨Call.writeProcMem ss.pid (uint64add (ctx.req.Data.Args 1) 2)
      (bigEndianPutUint16 (uint16 ci.hostPort)), true⟩ : Event)] = tr2
    have hrw : connectRewrite w ctx { ss with addr := some dest } dest l i true
        { fp0 with HostPort := ci.hostPort } nd tr1 =
        connectRewriteIP w ctx { ss with addr := some dest } dest i true nd tr2 := by
      simp [connectRewrite, hwr, htr2]
    rw [hrw] at hok hnp ⊢
    have hm2 : memWrites tr2 =
        [(ss.pid, uint64add (ctx.req.Data.Args 1) 2, bigEndianPutUint16 (uint16 ci.hostPort))] := by
      subst htr2
      simp [memWrites_append, memWrites_cons, memWrites_nil, hm, Call.memWriteArg]
    rcases hfam with h4 | h6
    · have hnd1 := hnd4 h4
      subst hnd1
      have hto4 : To4 [127, 0, 0, 1] = [127, 0, 0, 1] := by decide
      cases hwr2 : w.writeProcMem tr2 ss.pid (uint64add (ctx.req.Data.Args 1) 4)
          [127, 0, 0, 1] with
      | false =>
        have := hok ⟨Call.writeProcMem ss.pid (uint64add (ctx.req.Data.Args 1) 4)
          [127, 0, 0, 1], false⟩
          (by simp [deferClose, connectRewriteIP, h4, hto4, hwr2])
        cases this
      | true =>
        constructor
        · simp [deferClose, connectRewriteIP, h4, hto4, hwr2, memWrites_append, memWrites_cons,
            memWrites_nil, hm2, Call.memWriteArg]
        · simp [deferClose, connectRewriteIP, h4, hto4, hwr2]
    · have hnd1 := hnd6 h6
      subst hnd1
      have hto16 : To16 IPv6loopback = IPv6loopback := by decide
      have hne : ¬ (AF_INET6 = AF_INET) := by decide
      have hlen : IPv6loopback.length = 16 := by decide
      have htake : List.take 16 IPv6loopback = IPv6loopback := by decide
      cases hwr2 : w.writeProcMem tr2 ss.pid (uint64add (ctx.req.Data.Args 1) 8)
          IPv6loopback with
      | false =>
        have := hok ⟨Call.writeProcMem ss.pid (uint64add (ctx.req.Data.Args 1) 8)
          IPv6loopback, false⟩
          (by simp [deferClose, connectRewriteIP, hne, h6, hto16, hlen, htake, hwr2])
        cases this
      | true =>
        constructor
        · simp [deferClose, connectRewriteIP, hne, h6, hto16, hlen, htake, hwr2,
            memWrites_append, memWrites_cons, memWrites_nil, hm2, Call.memWriteArg]
        · simp [deferClose, connectRewriteIP, hne, h6, hto16, hlen, htake, hwr2]

/-- Witness of C4 amended: connect to 10.4.0.2:80 with c2c mode on, multi-node
mode off and the container-interface map holding 10.4.0.2:80 with host port 8080;
the port 8080 and then 127.0.0.1 are written. -/
theorem handleSysConnect_c2c_bypass_witness :
    memWrites (handleSysConnect lookupFailedWorld c2cHandler (mkContext [3, 4096, 16])
      freshRecord).trace = [(100, 4098, [31, 144]), (100, 4100, [127, 0, 0, 1])] ∧
    (handleSysConnect lookupFailedWorld c2cHandler (mkContext [3, 4096, 16])
      freshRecord).ss.state = socketState.Bypassed :=
  handleSysConnect_c2c_bypass lookupFailedWorld c2cHandler (mkContext [3, 4096, 16])
    freshRecord ⟨2, 80, [10, 4, 0, 2], 0⟩ ⟨"c2", 8080⟩ rfl (Or.inl rfl) (Or.inl rfl) rfl
    (by decide) (Or.inl rfl) (by decide) (by decide)

/-! ## bind -/

theorem clearContinue_mask : (4294967295 ^^^ SeccompUserNotifFlagContinue) = 4294967294 := by
  decide

theorem mask_testBit : ∀ i, i < 32 → i ≠ 0 → Nat.testBit 4294967294 i = true := by
  decide

/-- Bits of the response flags after `clearContinue`: bit 0, the continue flag, is
clear; every other bit of the 32-bit field is unchanged; the other fields of the
response are unchanged. -/
theorem clearContinue_bits (resp : ScmpNotifResp) :
    (clearContinue resp).Flags.testBit 0 = false ∧
    (∀ i, i ≠ 0 → i < 32 → (clearContinue resp).Flags.testBit i = resp.Flags.testBit i) ∧
    (clearContinue resp).ID = resp.ID ∧ (clearContinue resp).Error = resp.Error ∧
    (clearContinue resp).Val = resp.Val := by
  refine ⟨?_, ?_, rfl, rfl, rfl⟩
  · simp only [clearContinue, clearContinue_mask, Nat.testBit_and]
    have : Nat.testBit 4294967294 0 = false := by decide
    rw [this, Bool.and_false]
  · intro i hi hlt
    simp only [clearContinue, clearContinue_mask, Nat.testBit_and]
    rw [mask_testBit i hlt hi, Bool.and_true]

/-- When every call of `bindInstall` succeeded and it did not panic, the host
socket was created, the options were replayed, the socket was bound in-process
to the address built from the decoded one, the add-fd was issued, the record is
Bypassed and the continue flag is cleared. -/
theorem bindInstall_all_ok (w : World) (ctx : context) (ss : socketStatus) (sa : sockaddr)
    (fwdPort : ForwardPortMapping) (tr : List Event)
    (hok : ∀ e ∈ (bindInstall w ctx ss sa fwdPort tr).trace, e.ok = true)
    (hnp : (bindInstall w ctx ss sa fwdPort tr).panicked = false) :
    ∃ fd evs ba, (∀ e ∈ evs, e.call.isReplay = true) ∧
      w.socket tr ss.sockDomain ss.sockType ss.sockProto = some fd ∧
      bindSockaddr sa fwdPort = some ba ∧
      bindInstall w ctx ss sa fwdPort tr =
        ⟨{ ss with state := socketState.Bypassed }, clearContinue ctx.resp,
          tr ++ [⟨Call.socket ss.sockDomain ss.sockType ss.sockProto, true⟩] ++ evs ++
            [⟨Call.bind fd ba, true⟩] ++
            [⟨Call.ioctlNotifAddFd ctx.notifFd (mkAddFd ctx ss fd), true⟩] ++
            [⟨Call.close fd, true⟩], false⟩ := by
  cases hs : w.socket tr ss.sockDomain ss.sockType ss.sockProto with
  | none =>
    have := hok ⟨Call.socket ss.sockDomain ss.sockType ss.sockProto, false⟩
      (by simp [bindInstall, hs])
    cases this
  | some fd =>
    obtain ⟨evs, h1, hrep, herr, _, _⟩ := configureSocket_spec w ss fd
      (tr ++ [⟨Call.socket ss.sockDomain ss.sockType ss.sockProto, true⟩])
    rcases hcs : configureSocket w ss fd
      (tr ++ [⟨Call.socket ss.sockDomain ss.sockType ss.sockProto, true⟩]) with ⟨res, tr1⟩
    rw [hcs] at h1 herr
    simp only at h1 herr
    cases res with
    | panic =>
      simp [bindInstall, hs, hcs, deferClose] at hnp
    | error =>
      obtain ⟨e, he1, he2⟩ := herr rfl
      have := hok e (by simp [bindInstall, hs, hcs, deferClose, h1, he1])
      rw [he2] at this
      cases this
    | nil =>
      cases hba : bindSockaddr sa fwdPort with
      | none =>
        simp [bindInstall, hs, hcs, deferClose, hba] at hnp
      | some ba =>
        cases hb : w.bind tr1 fd ba with
        | false =>
          have := hok ⟨Call.bind fd ba, false⟩
            (by simp [bindInstall, hs, hcs, deferClose, hba, hb])
          cases this
        | true =>
          cases hadd : w.ioctlNotifAddFd (tr1 ++ [⟨Call.bind fd ba, true⟩]) ctx.notifFd
              (mkAddFd ctx ss fd) with
          | false =>
            have := hok ⟨Call.ioctlNotifAddFd ctx.notifFd (mkAddFd ctx ss fd), false⟩
              (by simp [bindInstall, hs, hcs, deferClose, hba, hb, hadd])
            cases this
          | true =>
            refine ⟨fd, evs, ba, hrep, rfl, rfl, ?_⟩
            have hstep : bindInstall w ctx ss sa fwdPort tr =
                ⟨{ ss with state := socketState.Bypassed }, clearContinue ctx.resp,
                  tr1 ++ [⟨Call.bind fd ba, true⟩] ++
                    [⟨Call.ioctlNotifAddFd ctx.notifFd (mkAddFd ctx ss fd), true⟩] ++
                    [⟨Call.close fd, true⟩], false⟩ := by
              simp [bindInstall, hs, hcs, deferClose, hba, hb, hadd]
            rw [hstep, h1]

/-- Claim C5: a record with ignoreBind = false and a bind whose decoded address is
an IPv4 address (4 address bytes) or an IPv6 address (16 address bytes) with a
port that is a key of the forward-port table, mapped to host port h.  If every
outside call of the run succeeded (host socket creation, option replay, the
in-process bind, add-fd) and the run did not panic, then `handleSysBind` binds
the host socket it created, once, to the same family and the same ip with port h
(for IPv6 also the same scope id), issues one add-fd with that socket as source
and newfd the low 32 bits of Args[0] (Args[0] itself when it fits a descriptor
number), leaves the record Bypassed, and clears the continue flag of the response
while every other bit and field of the response is unchanged. -/
theorem handleSysBind_bypass (w : World) (pid : Int) (handler : notifHandler) (ctx : context)
    (ss : socketStatus) (sa : sockaddr) (fp : ForwardPortMapping)
    (hign : ss.ignoreBind = false)
    (hread : w.readSockaddrFromProcess [] pid (ctx.req.Data.Args 1) (ctx.req.Data.Args 2)
      = some sa)
    (hfam : (sa.Family = AF_INET ∧ sa.IP.length = 4) ∨ (sa.Family = AF_INET6 ∧ sa.IP.length = 16))
    (hfwd : handler.forwardingPorts (sa.Port : Int) = some fp)
    (hok : ∀ e ∈ (handleSysBind w pid handler ctx ss).trace, e.ok = true)
    (hnp : (handleSysBind w pid handler ctx ss).panicked = false) :
    ∃ fd,
      w.socket [⟨Call.readSockaddrFromProcess pid (ctx.req.Data.Args 1) (ctx.req.Data.Args 2),
        true⟩] ss.sockDomain ss.sockType ss.sockProto = some fd ∧
      bindCalls (handleSysBind w pid handler ctx ss).trace =
        [(fd, if sa.Family = AF_INET then syscallSockaddr.SockaddrInet4 fp.HostPort sa.IP
              else syscallSockaddr.SockaddrInet6 fp.HostPort sa.ScopeID sa.IP)] ∧
      (∃ a, addFds (handleSysBind w pid handler ctx ss).trace = [a] ∧
        a.srcfd = uint32 fd ∧
        a.newfd = ctx.req.Data.Args 0 % 4294967296 ∧
        (ctx.req.Data.Args 0 < 4294967296 → a.newfd = ctx.req.Data.Args 0)) ∧
      (handleSysBind w pid handler ctx ss).ss.state = socketState.Bypassed ∧
      (handleSysBind w pid handler ctx ss).resp.Flags.testBit 0 = false ∧
      (∀ i, i ≠ 0 → i < 32 →
        (handleSysBind w pid handler ctx ss).resp.Flags.testBit i = ctx.resp.Flags.testBit i) ∧
      (handleSysBind w pid handler ctx ss).resp.ID = ctx.resp.ID ∧
      (handleSysBind w pid handler ctx ss).resp.Error = ctx.resp.Error ∧
      (handleSysBind w pid handler ctx ss).resp.Val = ctx.resp.Val := by
  have hdef : handleSysBind w pid handler ctx ss =
      bindInstall w ctx { ss with addr := some sa } sa fp
        [⟨Call.readSockaddrFromProcess pid (ctx.req.Data.Args 1) (ctx.req.Data.Args 2),
          true⟩] := by
    simp [handleSysBind, hign, hread, hfwd]
  rw [hdef] at hok hnp ⊢
  obtain ⟨fd, evs, ba, hrep, hs, hba, hinst⟩ := bindInstall_all_ok _ _ _ _ _ _ hok hnp
  have hbaeq : ba = (if sa.Family = AF_INET then syscallSockaddr.SockaddrInet4 fp.HostPort sa.IP
      else syscallSockaddr.SockaddrInet6 fp.HostPort sa.ScopeID sa.IP) := by
    rcases hfam with ⟨h4, hl⟩ | ⟨h6, hl⟩
    · have ht : List.take 4 sa.IP = sa.IP := List.take_of_length_le (by omega)
      simp [bindSockaddr, h4, hl, ht] at hba
      simp [h4, hba]
    · have hne : ¬ (AF_INET6 = AF_INET) := by decide
      have ht : List.take 16 sa.IP = sa.IP := List.take_of_length_le (by omega)
      simp [bindSockaddr, h6, hne, hl, ht] at hba
      simp [h6, hne, hba]
  obtain ⟨hb0, hbi, hid, herr, hval⟩ := clearContinue_bits ctx.resp
  rw [hinst]
  refine ⟨fd, hs, ?_, ⟨mkAddFd ctx { ss with addr := some sa } fd, ?_, rfl, rfl, ?_⟩, rfl,
    hb0, hbi, hid, herr, hval⟩
  · simp [bindCalls_append, bindCalls_cons, bindCalls_nil, bindCalls_replay evs hrep,
      Call.bindArg, hbaeq]
  · simp [addFds_append, addFds_cons, addFds_nil, addFds_replay evs hrep, Call.addFdArg]
  · intro hlt
    simp [mkAddFd, Nat.mod_eq_of_lt hlt]

/-- Witness of C5: bind to 0.0.0.0:5201 with forward table 5201 to 8080; the host
socket 7 is bound to 0.0.0.0:8080 and the continue flag is cleared. -/
theorem handleSysBind_bypass_witness :
    bindCalls (handleSysBind bindWorld 100 fwdHandler (mkContext [3, 4096, 16]) freshRecord).trace
      = [(7, syscallSockaddr.SockaddrInet4 8080 [0, 0, 0, 0])] ∧
    (handleSysBind bindWorld 100 fwdHandler (mkContext [3, 4096, 16]) freshRecord).resp.Flags = 0 :=
  have h := handleSysBind_bypass bindWorld 100 fwdHandler (mkContext [3, 4096, 16]) freshRecord
    ⟨2, 5201, [0, 0, 0, 0], 0⟩ ⟨8080, 5201⟩ rfl rfl (Or.inl ⟨rfl, rfl⟩) (by decide)
    (by decide) (by decide)
  ⟨by
    obtain ⟨fd, hfd, hb, _⟩ := h
    have h7 : fd = 7 := by
      have : (some (7 : Int)) = some fd := hfd
      exact (Option.some.inj this).symm
    rw [hb, h7]
    rfl, by decide⟩

/-- Claim C6: if the ignoreBind flag of the record is set, or the port of the
decoded address is not a key of the forward-port table, `handleSysBind` leaves
the record NotBypassable, creates no host socket, issues no add-fd and leaves the
response unchanged; when ignoreBind is set it makes no outside call at all, so
the sockaddr is not read and the captured address is unchanged. -/
theorem handleSysBind_not_bypassable (w : World) (pid : Int) (handler : notifHandler)
    (ctx : context) (ss : socketStatus)
    (h : ss.ignoreBind = true ∨
      ∃ sa, w.readSockaddrFromProcess [] pid (ctx.req.Data.Args 1) (ctx.req.Data.Args 2)
          = some sa ∧ handler.forwardingPorts (sa.Port : Int) = none) :
    (handleSysBind w pid handler ctx ss).ss.state = socketState.NotBypassable ∧
    socketCalls (handleSysBind w pid handler ctx ss).trace = [] ∧
    addFds (handleSysBind w pid handler ctx ss).trace = [] ∧
    bindCalls (handleSysBind w pid handler ctx ss).trace = [] ∧
    (handleSysBind w pid handler ctx ss).resp = ctx.resp ∧
    (ss.ignoreBind = true →
      (handleSysBind w pid handler ctx ss).trace = [] ∧
      (handleSysBind w pid handler ctx ss).ss.addr = ss.addr) := by
  cases hib : ss.ignoreBind with
  | true =>
    have hdef : handleSysBind w pid handler ctx ss =
        ⟨{ ss with state := socketState.NotBypassable }, ctx.resp, [], false⟩ := by
      simp [handleSysBind, hib]
    rw [hdef]
    exact ⟨rfl, rfl, rfl, rfl, rfl, fun _ => ⟨rfl, rfl⟩⟩
  | false =>
    rcases h with h | ⟨sa, hread, hfwd⟩
    · rw [hib] at h
      cases h
    · have hdef : handleSysBind w pid handler ctx ss =
          ⟨{ ss with addr := some sa, state := socketState.NotBypassable }, ctx.resp,
            [⟨Call.readSockaddrFromProcess pid (ctx.req.Data.Args 1) (ctx.req.Data.Args 2),
              true⟩], false⟩ := by
        simp [handleSysBind, hib, hread, hfwd]
      rw [hdef]
      refine ⟨rfl, ?_, ?_, ?_, rfl, ?_⟩
      · simp [socketCalls_cons, socketCalls_nil, Call.socketArg]
      · simp [addFds_cons, addFds_nil, Call.addFdArg]
      · simp [bindCalls_cons, bindCalls_nil, Call.bindArg]
      · intro h
        cases h

/-- Witness of C6: bind on a record created with ignoreBind = true; the record
becomes NotBypassable and the response keeps its flags. -/
theorem handleSysBind_not_bypassable_witness :
    (handleSysBind bindWorld 100 fwdHandler (mkContext [3, 4096, 16])
      (newSocketStatus 100 3 2 1 0 true)).ss.state = socketState.NotBypassable ∧
    (handleSysBind bindWorld 100 fwdHandler (mkContext [3, 4096, 16])
      (newSocketStatus 100 3 2 1 0 true)).resp = (mkContext [3, 4096, 16]).resp :=
  have h := handleSysBind_not_bypassable bindWorld 100 fwdHandler (mkContext [3, 4096, 16])
    (newSocketStatus 100 3 2 1 0 true) (Or.inl rfl)
  ⟨h.1, h.2.2.2.2.1⟩

/-! ## State transitions -/

theorem connectRewriteIP_state (w : World) (ctx : context) (ss : socketStatus) (destAddr : sockaddr)
    (iface other : Bool) (newDestAddr : List Nat) (tr : List Event) :
    StateStep ss.state
      (connectRewriteIP w ctx ss destAddr iface other newDestAddr tr).ss.state := by
  simp only [connectRewriteIP]
  split_ifs <;> simp [StateStep]

theorem connectRewrite_state (w : World) (ctx : context) (ss : socketStatus) (destAddr : sockaddr)
    (loop iface other : Bool) (fwdPort : ForwardPortMapping) (newDestAddr : List Nat)
    (tr : List Event) :
    StateStep ss.state
      (connectRewrite w ctx ss destAddr loop iface other fwdPort newDestAddr tr).ss.state := by
  simp only [connectRewrite]
  split_ifs
  all_goals first
    | exact connectRewriteIP_state _ _ _ _ _ _ _ _
    | simp [StateStep]

theorem connectInstall_state (w : World) (ctx : context) (ss : socketStatus) (destAddr : sockaddr)
    (loop iface other : Bool) (fwdPort : ForwardPortMapping) (newDestAddr : List Nat)
    (tr : List Event) :
    StateStep ss.state
      (connectInstall w ctx ss destAddr loop iface other fwdPort newDestAddr tr).ss.state := by
  cases hs : w.socket tr ss.sockDomain ss.sockType ss.sockProto with
  | none => simp [connectInstall, hs, StateStep]
  | some fd =>
    rcases hcs : configureSocket w ss fd
      (tr ++ [⟨Call.socket ss.sockDomain ss.sockType ss.sockProto, true⟩]) with ⟨res, tr1⟩
    cases res with
    | panic => simp [connectInstall, hs, hcs, deferClose, StateStep]
    | error => simp [connectInstall, hs, hcs, deferClose, StateStep]
    | nil =>
      cases hadd : w.ioctlNotifAddFd tr1 ctx.notifFd (mkAddFd ctx ss fd) with
      | false => simp [connectInstall, hs, hcs, deferClose, hadd, StateStep]
      | true =>
        have := connectRewrite_state w ctx ss destAddr loop iface other fwdPort newDestAddr
          (tr1 ++ [⟨Call.ioctlNotifAddFd ctx.notifFd (mkAddFd ctx ss fd), true⟩])
        simpa [connectInstall, hs, hcs, deferClose, hadd] using this

theorem handleSysConnect_state (w : World) (handler : notifHandler) (ctx : context)
    (ss : socketStatus) :
    StateStep ss.state (handleSysConnect w handler ctx ss).ss.state := by
  cases hread : w.readSockaddrFromProcess [] ss.pid (ctx.req.Data.Args 1)
      (ctx.req.Data.Args 2) with
  | none => simp [handleSysConnect, hread, StateStep]
  | some dest =>
    by_cases hflt : handler.ip ≠ "" ∧ w.ipString dest.IP ≠ handler.ip
    · simp only [handleSysConnect, hread, if_pos hflt]
      simp [StateStep]
    · cases hnd : hostLoopbackFor dest.Family with
      | none =>
        simp only [handleSysConnect, hread, if_neg hflt, hnd]
        simp [StateStep]
      | some nd =>
        cases hp : connectPeerRules w handler dest nd
            (connectForwardRules w handler { ss with addr := some dest } dest).2.2
            [⟨Call.readSockaddrFromProcess ss.pid (ctx.req.Data.Args 1) (ctx.req.Data.Args 2),
              true⟩] with
        | abort tr1 =>
          simp only [handleSysConnect, hread, if_neg hflt, hnd, hp]
          simp [StateStep]
        | go nd1 fp other tr1 =>
          simp only [handleSysConnect, hread, if_neg hflt, hnd, hp]
          split_ifs
          · simp [StateStep]
          · exact connectInstall_state w ctx { ss with addr := some dest } dest _ _ _ _ _ _

theorem bindInstall_state (w : World) (ctx : context) (ss : socketStatus) (sa : sockaddr)
    (fwdPort : ForwardPortMapping) (tr : List Event) :
    StateStep ss.state (bindInstall w ctx ss sa fwdPort tr).ss.state := by
  cases hs : w.socket tr ss.sockDomain ss.sockType ss.sockProto with
  | none => simp [bindInstall, hs, StateStep]
  | some fd =>
    rcases hcs : configureSocket w ss fd
      (tr ++ [⟨Call.socket ss.sockDomain ss.sockType ss.sockProto, true⟩]) with ⟨res, tr1⟩
    cases res with
    | panic => simp [bindInstall, hs, hcs, deferClose, StateStep]
    | error => simp [bindInstall, hs, hcs, deferClose, StateStep]
    | nil =>
      cases hba : bindSockaddr sa fwdPort with
      | none => simp [bindInstall, hs, hcs, deferClose, hba, StateStep]
      | some ba =>
        cases hb : w.bind tr1 fd ba with
        | false => simp [bindInstall, hs, hcs, deferClose, hba, hb, StateStep]
        | true =>
          cases hadd : w.ioctlNotifAddFd (tr1 ++ [⟨Call.bind fd ba, true⟩]) ctx.notifFd
              (mkAddFd ctx ss fd) with
          | false => simp [bindInstall, hs, hcs, deferClose, hba, hb, hadd, StateStep]
          | true => simp [bindInstall, hs, hcs, deferClose, hba, hb, hadd, StateStep]

theorem handleSysBind_state (w : World) (pid : Int) (handler : notifHandler) (ctx : context)
    (ss : socketStatus) :
    StateStep ss.state (handleSysBind w pid handler ctx ss).ss.state := by
  cases hib : ss.ignoreBind with
  | true => simp [handleSysBind, hib, StateStep]
  | false =>
    cases hread : w.readSockaddrFromProcess [] pid (ctx.req.Data.Args 1)
        (ctx.req.Data.Args 2) with
    | none => simp [handleSysBind, hib, hread, StateStep]
    | some sa =>
      cases hf : handler.forwardingPorts (sa.Port : Int) with
      | none => simp [handleSysBind, hib, hread, hf, StateStep]
      | some fp =>
        have := bindInstall_state w ctx { ss with addr := some sa } sa fp
          [⟨Call.readSockaddrFromProcess pid (ctx.req.Data.Args 1) (ctx.req.Data.Args 2), true⟩]
        simpa [handleSysBind, hib, hread, hf] using this

theorem handleSysSetsockopt_state (w : World) (pid : Int) (ctx : context) (ss : socketStatus) :
    (handleSysSetsockopt w pid ctx ss).ss.state = ss.state := rfl

theorem handleSysFcntl_state (ctx : context) (ss : socketStatus) :
    (handleSysFcntl ctx ss).ss.state = ss.state := by
  simp only [handleSysFcntl]
  split_ifs <;> rfl

theorem handleSysGetpeername_state (w : World) (ctx : context) (ss : socketStatus) :
    (handleSysGetpeername w ctx ss).ss.state = ss.state := by
  cases ha : ss.addr with
  | none => simp [handleSysGetpeername, ha]
  | some addr =>
    cases hb : w.toBytes addr with
    | none => simp [handleSysGetpeername, ha, hb]
    | some buf =>
      simp only [handleSysGetpeername, ha, hb]
      split_ifs <;> rfl

theorem step_state (s : Step) (ss : socketStatus) : StateStep ss.state (s.apply ss).ss.state := by
  cases s with
  | setsockopt w pid ctx => exact Or.inl (handleSysSetsockopt_state w pid ctx ss)
  | fcntl ctx => exact Or.inl (handleSysFcntl_state ctx ss)
  | connect w handler ctx => exact handleSysConnect_state w handler ctx ss
  | bind w pid handler ctx => exact handleSysBind_state w pid handler ctx ss
  | getpeername w ctx => exact Or.inl (handleSysGetpeername_state w ctx ss)

theorem stateStep_ne (old new : socketState) (h : StateStep old new)
    (hold : old ≠ socketState.NotBypassed) : new ≠ socketState.NotBypassed := by
  rcases h with h | h | h | h
  · rw [h]
    exact hold
  · rw [h]
    decide
  · rw [h]
    decide
  · rw [h]
    decide

theorem runSteps_ne (steps : List Step) :
    ∀ ss : socketStatus, ss.state ≠ socketState.NotBypassed →
      (runSteps steps ss).state ≠ socketState.NotBypassed := by
  induction steps with
  | nil =>
    intro ss h
    exact h
  | cons s rest ih =>
    intro ss h
    have h1 := stateStep_ne _ _ (step_state s ss) h
    unfold runSteps
    split_ifs
    · exact h1
    · exact ih _ h1

/-- Claim C10 as stated fails: a record created by `newSocketStatus` with
ignoreBind set is taken to Bypassed by a connect, and a following bind on the
same record moves it out of Bypassed, to NotBypassable. -/
theorem bypassed_record_leaves_Bypassed_counterexample :
    (newSocketStatus 100 3 2 1 0 true).state = socketState.NotBypassed ∧
    (handleSysConnect okWorld fwdHandler (mkContext [3, 4096, 16])
      (newSocketStatus 100 3 2 1 0 true)).ss.state = socketState.Bypassed ∧
    (handleSysBind okWorld 100 fwdHandler (mkContext [3, 4096, 16])
      (handleSysConnect okWorld fwdHandler (mkContext [3, 4096, 16])
        (newSocketStatus 100 3 2 1 0 true)).ss).ss.state = socketState.NotBypassable ∧
    (runSteps [Step.connect okWorld fwdHandler (mkContext [3, 4096, 16]),
        Step.bind okWorld 100 fwdHandler (mkContext [3, 4096, 16])]
      (newSocketStatus 100 3 2 1 0 true)).state = socketState.NotBypassable := by
  decide

/-- Claim C10, amended: a record created by `newSocketStatus` starts in
NotBypassed; every handler step (setsockopt, fcntl, connect, bind, getpeername,
under any outcome of the memory accesses and host calls) either leaves the state
of the record unchanged or sets it to one of Bypassed, NotBypassable, Error, so no
step ever moves a record into NotBypassed; the setsockopt, fcntl and getpeername
steps never change the state; and along any sequence of steps a record that has
left NotBypassed never returns to it. -/
theorem handler_steps_never_enter_NotBypassed :
    (∀ (pid sockfd sockDomain sockType sockProto : Int) (ignoreBind : Bool),
      (newSocketStatus pid sockfd sockDomain sockType sockProto ignoreBind).state
        = socketState.NotBypassed) ∧
    (∀ (s : Step) (ss : socketStatus),
      (s.apply ss).ss.state = ss.state ∨ (s.apply ss).ss.state = socketState.Bypassed ∨
      (s.apply ss).ss.state = socketState.NotBypassable ∨
      (s.apply ss).ss.state = socketState.Error) ∧
    (∀ (w : World) (pid : Int) (ctx : context) (ss : socketStatus),
      (handleSysSetsockopt w pid ctx ss).ss.state = ss.state) ∧
    (∀ (ctx : context) (ss : socketStatus), (handleSysFcntl ctx ss).ss.state = ss.state) ∧
    (∀ (w : World) (ctx : context) (ss : socketStatus),
      (handleSysGetpeername w ctx ss).ss.state = ss.state) ∧
    (∀ (steps : List Step) (ss : socketStatus), ss.state ≠ socketState.NotBypassed →
      (runSteps steps ss).state ≠ socketState.NotBypassed) :=
  ⟨fun _ _ _ _ _ _ => rfl, step_state, handleSysSetsockopt_state, handleSysFcntl_state,
    handleSysGetpeername_state, runSteps_ne⟩

/-! ## Session handler: parseStateFds and closeStateFds -/

theorem findSeccompFd_found (l : List String) :
    ∀ (i : Nat) (idx : Int) (err : Bool), idx ≠ -1 →
      findSeccompFd l i idx err = (idx, err || decide (SeccompFdName ∈ l)) := by
  induction l with
  | nil =>
    intro i idx err _
    simp [findSeccompFd]
  | cons name rest ih =>
    intro i idx err hidx
    by_cases hn : name = SeccompFdName
    · simp [findSeccompFd, hn, hidx, ih (i + 1) idx true hidx]
    · have hn2 : ¬ (SeccompFdName = name) := fun h => hn h.symm
      simp [findSeccompFd, hn, hn2, ih (i + 1) idx err hidx]

theorem findSeccompFd_search (l : List String) :
    ∀ (i : Nat) (err : Bool),
      findSeccompFd l i (-1) err =
        if SeccompFdName ∈ l then
          (((i + l.indexOf SeccompFdName : Nat) : Int),
            err || decide (2 ≤ l.count SeccompFdName))
        else (-1, err) := by
  induction l with
  | nil =>
    intro i err
    simp [findSeccompFd]
  | cons name rest ih =>
    intro i err
    by_cases hn : name = SeccompFdName
    · have hne : ((i : Nat) : Int) ≠ -1 := by omega
      subst hn
      rw [findSeccompFd]
      simp only [true_and, if_true]
      rw [findSeccompFd_found rest (i + 1) (i : Int) err hne]
      simp [List.indexOf_cons, List.count_cons, List.count_pos_iff, Nat.succ_le_iff]
    · have hn2 : ¬ (SeccompFdName = name) := fun h => hn h.symm
      have hb : (name == SeccompFdName) = false := by simpa using hn
      rw [findSeccompFd]
      simp only [hn, false_and, if_false]
      rw [ih (i + 1) err]
      by_cases hm : SeccompFdName ∈ rest
      · simp [hm, List.indexOf_cons, List.count_cons, hb, hn2, Nat.add_assoc, Nat.add_comm 1]
      · simp [hm, hn2]

theorem closeOthersFrom_past (l : List Int) :
    ∀ (i : Nat) (idx : Int), idx < (i : Int) → closeOthersFrom l i idx = l := by
  induction l with
  | nil =>
    intro i idx _
    rfl
  | cons fd rest ih =>
    intro i idx h
    have h1 : ¬ ((i : Int) = idx) := by omega
    have h2 : idx < ((i + 1 : Nat) : Int) := by omega
    simp [closeOthersFrom, h1, ih (i + 1) idx h2]

theorem closeOthersFrom_eraseIdx (l : List Int) :
    ∀ (i k : Nat), closeOthersFrom l i ((i + k : Nat) : Int) = l.eraseIdx k := by
  induction l with
  | nil =>
    intro i k
    rfl
  | cons fd rest ih =>
    intro i k
    cases k with
    | zero =>
      have h : ((i : Nat) : Int) < ((i + 1 : Nat) : Int) := by omega
      rw [Nat.add_zero, closeOthersFrom, if_pos rfl, closeOthersFrom_past rest (i + 1) _ h]
      rfl
    | succ k =>
      have h1 : ¬ ((i : Int) = ((i + (k + 1) : Nat) : Int)) := by omega
      have h2 : ((i + (k + 1) : Nat) : Int) = ((i + 1 + k : Nat) : Int) := by omega
      rw [closeOthersFrom, if_neg h1, h2, ih (i + 1) k]
      rfl

/-- Closed form of `parseStateFds`: it succeeds exactly when the name occurs once
and its index is within `recvFds`; then it returns the descriptor at that index
and closes all the others in index order; otherwise it closes nothing. -/
theorem parseStateFds_eq (stateFds : List String) (recvFds : List Int) :
    parseStateFds stateFds recvFds =
      if stateFds.count SeccompFdName = 1 ∧ stateFds.indexOf SeccompFdName < recvFds.length then
        ⟨uintptr (recvFds.getD (stateFds.indexOf SeccompFdName) 0), false,
          recvFds.eraseIdx (stateFds.indexOf SeccompFdName)⟩
      else ⟨0, true, []⟩ := by
  unfold parseStateFds
  simp only [findSeccompFd_search stateFds 0 false]
  by_cases hm : SeccompFdName ∈ stateFds
  · have hpos : 0 < stateFds.count SeccompFdName := List.count_pos_iff.2 hm
    simp only [hm, if_true, Nat.zero_add, Bool.false_or]
    by_cases h2 : 2 ≤ stateFds.count SeccompFdName
    · have hc : ¬ (stateFds.count SeccompFdName = 1) := by omega
      simp [h2, hc]
    · have hc : stateFds.count SeccompFdName = 1 := by omega
      have hne : ¬ (((stateFds.indexOf SeccompFdName : Nat) : Int) = -1) := by omega
      by_cases hlt : stateFds.indexOf SeccompFdName < recvFds.length
      · have hge : ¬ ((((stateFds.indexOf SeccompFdName : Nat) : Int) ≥ (recvFds.length : Int)) ∨
            ((stateFds.indexOf SeccompFdName : Nat) : Int) < 0) := by omega
        have herase := closeOthersFrom_eraseIdx recvFds 0 (stateFds.indexOf SeccompFdName)
        rw [Nat.zero_add] at herase
        simp only [hne, hc, h2, decide_False, Bool.false_eq_true, or_self, if_false, hge, hlt,
          and_self, if_true, Int.toNat_ofNat, herase]
        simp
      · have hge : ((((stateFds.indexOf SeccompFdName : Nat) : Int) ≥ (recvFds.length : Int)) ∨
            ((stateFds.indexOf SeccompFdName : Nat) : Int) < 0) := by omega
        simp only [hne, hc, h2, decide_False, Bool.false_eq_true, or_self, if_false, hge, hlt,
          and_false, if_true]
        simp
  · have hc : stateFds.count SeccompFdName = 0 := List.count_eq_zero.2 hm
    simp [hm, hc]

/-- Claim C17: `parseStateFds` returns without error if and only if the name
"seccompFd" occurs exactly once in `stateFds` and its index is smaller than the
length of `recvFds`; in that case the returned descriptor is the entry of
`recvFds` at that index (converted to `uintptr`, the entry itself when it is not
negative); in every other case (name absent, name present more than once, index
out of range) an error is returned. -/
theorem parseStateFds_ok_iff (stateFds : List String) (recvFds : List Int) :
    ((parseStateFds stateFds recvFds).err = false ↔
      (stateFds.count SeccompFdName = 1 ∧ stateFds.indexOf SeccompFdName < recvFds.length)) ∧
    ((parseStateFds stateFds recvFds).err = false →
      (parseStateFds stateFds recvFds).fd =
          uintptr (recvFds.getD (stateFds.indexOf SeccompFdName) 0) ∧
      (0 ≤ recvFds.getD (stateFds.indexOf SeccompFdName) 0 →
        recvFds.getD (stateFds.indexOf SeccompFdName) 0 < 18446744073709551616 →
        ((parseStateFds stateFds recvFds).fd : Int) =
          recvFds.getD (stateFds.indexOf SeccompFdName) 0)) ∧
    ((parseStateFds stateFds recvFds).err = true ↔
      (stateFds.count SeccompFdName = 0 ∨ 2 ≤ stateFds.count SeccompFdName ∨
        recvFds.length ≤ stateFds.indexOf SeccompFdName)) := by
  rw [parseStateFds_eq]
  by_cases h : stateFds.count SeccompFdName = 1 ∧ stateFds.indexOf SeccompFdName < recvFds.length
  · rw [if_pos h]
    refine ⟨by simp [h], ?_, ?_⟩
    · intro _
      refine ⟨rfl, ?_⟩
      intro h0 hlt
      show ((uintptr _ : Nat) : Int) = _
      unfold uintptr
      rw [Int.emod_eq_of_lt h0 hlt, Int.toNat_of_nonneg h0]
    · constructor
      · intro hf
        cases hf
      · intro hc
        omega
  · rw [if_neg h]
    refine ⟨by simp [h], ?_, ?_⟩
    · intro hf
      cases hf
    · constructor
      · intro _
        by_cases hc : stateFds.count SeccompFdName = 1
        · right
          right
          have := fun hlt => h ⟨hc, hlt⟩
          omega
        · omega
      · intro _
        rfl

/-- Claim C18: when `parseStateFds` succeeds, with the seccomp descriptor at index
idx, the descriptors it closes are exactly the entries of `recvFds` at every
index other than idx, each once and in index order (the list with position idx
erased), so the entry at idx is not closed; when it returns an error it closes
no descriptor. -/
theorem parseStateFds_closes (stateFds : List String) (recvFds : List Int) :
    ((parseStateFds stateFds recvFds).err = false →
      (parseStateFds stateFds recvFds).closed =
        recvFds.eraseIdx (stateFds.indexOf SeccompFdName) ∧
      (parseStateFds stateFds recvFds).closed.length + 1 = recvFds.length) ∧
    ((parseStateFds stateFds recvFds).err = true →
      (parseStateFds stateFds recvFds).closed = []) := by
  rw [parseStateFds_eq]
  by_cases h : stateFds.count SeccompFdName = 1 ∧ stateFds.indexOf SeccompFdName < recvFds.length
  · rw [if_pos h]
    refine ⟨fun _ => ⟨rfl, ?_⟩, fun hf => by cases hf⟩
    show (recvFds.eraseIdx _).length + 1 = _
    rw [List.length_eraseIdx, if_pos h.2]
    omega
  · rw [if_neg h]
    exact ⟨fun hf => (by cases hf), fun _ => rfl⟩

/-- Claim C19, the code at the failing input: for the received descriptors 7 and 9
`closeStateFds` closes the descriptor numbers 0 and 1, the loop indices, and
neither 7 nor 9. -/
theorem closeStateFds_closes_indices :
    closeStateFds [7, 9] = [0, 1] ∧ closeStateFds [7, 9] ≠ [7, 9] := by
  decide

/-! ## Paths of the install phase -/

theorem replaySocketOptions_evs (w : World) (sockfd : Int) :
    ∀ (opts : List socketOption) (tr : List Event),
      ∃ evs, (replaySocketOptions w sockfd opts tr).2 = tr ++ evs ∧
        (∀ e ∈ evs, e.call.isReplay = true) ∧
        ((replaySocketOptions w sockfd opts tr).1 = ConfigResult.error →
          ∃ e ∈ evs, e.ok = false) ∧
        ((replaySocketOptions w sockfd opts tr).1 ≠ ConfigResult.error →
          ∀ e ∈ evs, e.ok = true)
  | [], tr => ⟨[], by simp [replaySocketOptions], by simp, by simp [replaySocketOptions],
      by simp⟩
  | o :: rest, tr => by
    by_cases hlen : o.optval.length = 0
    · exact ⟨[], by simp [replaySocketOptions, hlen], by simp,
        by simp [replaySocketOptions, hlen], by simp⟩
    · cases hok : w.setsockopt tr sockfd o with
      | false =>
        refine ⟨[⟨socketOptionCall sockfd o, false⟩], ?_, ?_, ?_, ?_⟩
        · simp [replaySocketOptions, hlen, hok, socketOptionCall]
        · intro e he
          rcases List.mem_singleton.1 he with rfl
          rfl
        · intro _
          exact ⟨_, List.mem_singleton.2 rfl, rfl⟩
        · simp [replaySocketOptions, hlen, hok]
      | true =>
        obtain ⟨evs, h1, h2, h3, h4⟩ := replaySocketOptions_evs w sockfd rest
          (tr ++ [⟨socketOptionCall sockfd o, true⟩])
        have hdef : replaySocketOptions w sockfd (o :: rest) tr =
            replaySocketOptions w sockfd rest (tr ++ [⟨socketOptionCall sockfd o, true⟩]) := by
          simp [replaySocketOptions, hlen, hok, socketOptionCall]
        refine ⟨⟨socketOptionCall sockfd o, true⟩ :: evs, ?_, ?_, ?_, ?_⟩
        · simp [hdef, h1]
        · intro e he
          rcases List.mem_cons.1 he with rfl | h6
          · rfl
          · exact h2 e h6
        · intro he
          obtain ⟨e, he1, he2⟩ := h3 (by simpa [hdef] using he)
          exact ⟨e, List.mem_cons_of_mem _ he1, he2⟩
        · intro hne e he
          rcases List.mem_cons.1 he with rfl | h6
          · rfl
          · exact h4 (by simpa [hdef] using hne) e h6

theorem replayFcntlOptions_evs (w : World) (sockfd : Int) :
    ∀ (opts : List fcntlOption) (tr : List Event),
      ∃ evs, (replayFcntlOptions w sockfd opts tr).2 = tr ++ evs ∧
        (∀ e ∈ evs, e.call.isReplay = true) ∧
        (replayFcntlOptions w sockfd opts tr).1 ≠ ConfigResult.panic ∧
        ((replayFcntlOptions w sockfd opts tr).1 = ConfigResult.error →
          ∃ e ∈ evs, e.ok = false) ∧
        ((replayFcntlOptions w sockfd opts tr).1 ≠ ConfigResult.error →
          ∀ e ∈ evs, e.ok = true)
  | [], tr => ⟨[], by simp [replayFcntlOptions], by simp, by simp [replayFcntlOptions],
      by simp [replayFcntlOptions], by simp⟩
  | f :: rest, tr => by
    cases hok : w.fcntl tr sockfd f with
    | false =>
      refine ⟨[⟨fcntlOptionCall sockfd f, false⟩], ?_, ?_, ?_, ?_, ?_⟩
      · simp [replayFcntlOptions, hok, fcntlOptionCall]
      · intro e he
        rcases List.mem_singleton.1 he with rfl
        rfl
      · simp [replayFcntlOptions, hok]
      · intro _
        exact ⟨_, List.mem_singleton.2 rfl, rfl⟩
      · simp [replayFcntlOptions, hok]
    | true =>
      obtain ⟨evs, h1, h2, hnp, h3, h4⟩ := replayFcntlOptions_evs w sockfd rest
        (tr ++ [⟨fcntlOptionCall sockfd f, true⟩])
      have hdef : replayFcntlOptions w sockfd (f :: rest) tr =
          replayFcntlOptions w sockfd rest (tr ++ [⟨fcntlOptionCall sockfd f, true⟩]) := by
        simp [replayFcntlOptions, hok, fcntlOptionCall]
      refine ⟨⟨fcntlOptionCall sockfd f, true⟩ :: evs, ?_, ?_, ?_, ?_, ?_⟩
      · simp [hdef, h1]
      · intro e he
        rcases List.mem_cons.1 he with rfl | h6
        · rfl
        · exact h2 e h6
      · simpa [hdef] using hnp
      · intro he
        obtain ⟨e, he1, he2⟩ := h3 (by simpa [hdef] using he)
        exact ⟨e, List.mem_cons_of_mem _ he1, he2⟩
      · intro hne e he
        rcases List.mem_cons.1 he with rfl | h6
        · rfl
        · exact h4 (by simpa [hdef] using hne) e h6

/-- The events appended by `configureSocket`: only setsockopt and fcntl calls; a
failed one exactly when an error is returned. -/
theorem configureSocket_evs (w : World) (ss : socketStatus) (sockfd : Int) (tr : List Event) :
    ∃ evs, (configureSocket w ss sockfd tr).2 = tr ++ evs ∧
      (∀ e ∈ evs, e.call.isReplay = true) ∧
      ((configureSocket w ss sockfd tr).1 = ConfigResult.error → ∃ e ∈ evs, e.ok = false) ∧
      ((configureSocket w ss sockfd tr).1 ≠ ConfigResult.error → ∀ e ∈ evs, e.ok = true) := by
  obtain ⟨evs1, h1, hrep1, herr1, hok1⟩ := replaySocketOptions_evs w sockfd ss.socketOptions tr
  cases hres : (replaySocketOptions w sockfd ss.socketOptions tr).1 with
  | nil =>
    have hpair : replaySocketOptions w sockfd ss.socketOptions tr
        = (ConfigResult.nil, tr ++ evs1) := by
      rw [← h1, ← hres]
    obtain ⟨evs2, h2, hrep2, _, herr2, hok2⟩ :=
      replayFcntlOptions_evs w sockfd ss.fcntlOptions (tr ++ evs1)
    have hcfg : configureSocket w ss sockfd tr
        = replayFcntlOptions w sockfd ss.fcntlOptions (tr ++ evs1) := by
      simp [configureSocket, hpair]
    have hall1 : ∀ e ∈ evs1, e.ok = true := hok1 (by rw [hres]; simp)
    refine ⟨evs1 ++ evs2, ?_, ?_, ?_, ?_⟩
    · rw [hcfg, h2, List.append_assoc]
    · intro e he
      rcases List.mem_append.1 he with h | h
      · exact hrep1 e h
      · exact hrep2 e h
    · intro he
      rw [hcfg] at he
      obtain ⟨e, he1, he2⟩ := herr2 he
      exact ⟨e, List.mem_append_right _ he1, he2⟩
    · intro hne e he
      rw [hcfg] at hne
      rcases List.mem_append.1 he with h | h
      · exact hall1 e h
      · exact hok2 hne e h
  | error =>
    have hpair : replaySocketOptions w sockfd ss.socketOptions tr
        = (ConfigResult.error, tr ++ evs1) := by
      rw [← h1, ← hres]
    have hcfg : configureSocket w ss sockfd tr = (ConfigResult.error, tr ++ evs1) := by
      simp [configureSocket, hpair]
    refine ⟨evs1, by rw [hcfg], hrep1, fun _ => herr1 hres, ?_⟩
    intro hne
    rw [hcfg] at hne
    exact absurd rfl hne
  | panic =>
    have hpair : replaySocketOptions w sockfd ss.socketOptions tr
        = (ConfigResult.panic, tr ++ evs1) := by
      rw [← h1, ← hres]
    have hcfg : configureSocket w ss sockfd tr = (ConfigResult.panic, tr ++ evs1) := by
      simp [configureSocket, hpair]
    refine ⟨evs1, by rw [hcfg], hrep1, ?_, fun _ => hok1 (by rw [hres]; simp)⟩
    intro he
    rw [hcfg] at he
    cases he

theorem connectRewriteIP_shape (w : World) (ctx : context) (ss : socketStatus)
    (destAddr : sockaddr) (iface other : Bool) (newDestAddr : List Nat) (tr : List Event) :
    ∃ wevs, (connectRewriteIP w ctx ss destAddr iface other newDestAddr tr).trace = tr ++ wevs ∧
      RewriteShape ss (connectRewriteIP w ctx ss destAddr iface other newDestAddr tr) wevs := by
  simp only [connectRewriteIP]
  split_ifs with h1 h2 h3 h4 h5 h6 h7
  · exact ⟨[], by simp, by simp [RewriteShape]⟩
  · exact ⟨[⟨Call.writeProcMem ss.pid (uint64add (ctx.req.Data.Args 1) 4)
        ((To4 newDestAddr).take 4), true⟩], by simp [h4], by simp [RewriteShape, Call.memWriteArg]⟩
  · exact ⟨[⟨Call.writeProcMem ss.pid (uint64add (ctx.req.Data.Args 1) 4)
        ((To4 newDestAddr).take 4), false⟩], by simp [h4],
      by simp [RewriteShape, Call.memWriteArg]⟩
  · exact ⟨[], by simp, by simp [RewriteShape]⟩
  · exact ⟨[⟨Call.writeProcMem ss.pid (uint64add (ctx.req.Data.Args 1) 8)
        ((To16 newDestAddr).take 16), true⟩], by simp [h7],
      by simp [RewriteShape, Call.memWriteArg]⟩
  · exact ⟨[⟨Call.writeProcMem ss.pid (uint64add (ctx.req.Data.Args 1) 8)
        ((To16 newDestAddr).take 16), false⟩], by simp [h7],
      by simp [RewriteShape, Call.memWriteArg]⟩
  · exact ⟨[], by simp, by simp [RewriteShape]⟩
  · exact ⟨[], by simp, by simp [RewriteShape]⟩

theorem rewriteShape_cons_ok (ss0 : socketStatus) (o : Outcome) (c : Call) (wevs : List Event)
    (hc : c.memWriteArg.isSome = true) (h : RewriteShape ss0 o wevs) :
    RewriteShape ss0 o (⟨c, true⟩ :: wevs) := by
  obtain ⟨h1, h2, h3⟩ := h
  have hall : ∀ (P : Prop), (∀ e ∈ wevs, e.ok = true) →
      ∀ e ∈ (⟨c, true⟩ : Event) :: wevs, e.ok = true := by
    intro _ hw e he
    rcases List.mem_cons.1 he with rfl | h4
    · rfl
    · exact hw e h4
  refine ⟨?_, ?_, ?_⟩
  · intro e he
    rcases List.mem_cons.1 he with rfl | h4
    · exact hc
    · exact h1 e h4
  · rcases h2 with ⟨a, b, c1⟩ | ⟨a, b⟩ | ⟨a, b, c1⟩
    · exact Or.inl ⟨a, b, hall True c1⟩
    · exact Or.inr (Or.inl ⟨a, b⟩)
    · exact Or.inr (Or.inr ⟨a, b, hall True c1⟩)
  · rintro ⟨e, he, hf⟩
    rcases List.mem_cons.1 he with rfl | h4
    · cases hf
    · exact h3 ⟨e, h4, hf⟩

theorem connectRewrite_shape (w : World) (ctx : context) (ss : socketStatus)
    (destAddr : sockaddr) (loop iface other : Bool) (fwdPort : ForwardPortMapping)
    (newDestAddr : List Nat) (tr : List Event) :
    ∃ wevs,
      (connectRewrite w ctx ss destAddr loop iface other fwdPort newDestAddr tr).trace
        = tr ++ wevs ∧
      RewriteShape ss
        (connectRewrite w ctx ss destAddr loop iface other fwdPort newDestAddr tr) wevs := by
  by_cases hfl : (loop || iface || other) = true
  · cases hwr : w.writeProcMem tr ss.pid (uint64add (ctx.req.Data.Args 1) 2)
        (bigEndianPutUint16 (uint16 fwdPort.HostPort)) with
    | false =>
      refine ⟨[⟨Call.writeProcMem ss.pid (uint64add (ctx.req.Data.Args 1) 2)
        (bigEndianPutUint16 (uint16 fwdPort.HostPort)), false⟩], ?_, ?_⟩
      · simp only [connectRewrite, if_pos hfl, hwr]
        simp
      · simp only [connectRewrite, if_pos hfl, hwr]
        simp [RewriteShape, Call.memWriteArg]
    | true =>
      obtain ⟨wevs, h1, h2⟩ := connectRewriteIP_shape w ctx ss destAddr iface other newDestAddr
        (tr ++ [⟨Call.writeProcMem ss.pid (uint64add (ctx.req.Data.Args 1) 2)
          (bigEndianPutUint16 (uint16 fwdPort.HostPort)), true⟩])
      have hdef : connectRewrite w ctx ss destAddr loop iface other fwdPort newDestAddr tr =
          connectRewriteIP w ctx ss destAddr iface other newDestAddr
            (tr ++ [⟨Call.writeProcMem ss.pid (uint64add (ctx.req.Data.Args 1) 2)
              (bigEndianPutUint16 (uint16 fwdPort.HostPort)), true⟩]) := by
        simp only [connectRewrite, if_pos hfl, hwr]
        simp
      rw [hdef]
      refine ⟨⟨Call.writeProcMem ss.pid (uint64add (ctx.req.Data.Args 1) 2)
        (bigEndianPutUint16 (uint16 fwdPort.HostPort)), true⟩ :: wevs, ?_, ?_⟩
      · rw [h1, List.append_assoc]
        rfl
      · exact rewriteShape_cons_ok _ _ _ _ rfl h2
  · have hdef : connectRewrite w ctx ss destAddr loop iface other fwdPort newDestAddr tr =
        connectRewriteIP w ctx ss destAddr iface other newDestAddr tr := by
      simp only [connectRewrite, if_neg hfl]
    rw [hdef]
    exact connectRewriteIP_shape w ctx ss destAddr iface other newDestAddr tr

/-- Every run of the install phase of connect follows one of the paths of
`InstallShape`. -/
theorem connectInstall_shape (w : World) (ctx : context) (ss : socketStatus)
    (destAddr : sockaddr) (loop iface other : Bool) (fwdPort : ForwardPortMapping)
    (newDestAddr : List Nat) (tr : List Event) :
    InstallShape w ctx ss tr
      (connectInstall w ctx ss destAddr loop iface other fwdPort newDestAddr tr) := by
  cases hs : w.socket tr ss.sockDomain ss.sockType ss.sockProto with
  | none =>
    left
    simp [connectInstall, hs]
  | some fd =>
    right
    obtain ⟨evs, h1, hrep, herr, hokk⟩ := configureSocket_evs w ss fd
      (tr ++ [⟨Call.socket ss.sockDomain ss.sockType ss.sockProto, true⟩])
    rcases hcs : configureSocket w ss fd
      (tr ++ [⟨Call.socket ss.sockDomain ss.sockType ss.sockProto, true⟩]) with ⟨res, tr1⟩
    rw [hcs] at h1 herr hokk
    simp only at h1 herr hokk
    cases res with
    | panic =>
      refine ⟨fd, evs, [], hs, hrep, ?_, Or.inl ⟨rfl, ?_, ?_, hokk (by simp)⟩⟩
      · simp [connectInstall, hs, hcs, deferClose, h1]
      · simp [connectInstall, hs, hcs, deferClose]
      · simp [connectInstall, hs, hcs, deferClose]
    | error =>
      refine ⟨fd, evs, [], hs, hrep, ?_, Or.inr (Or.inl ⟨rfl, ?_, ?_, herr rfl⟩)⟩
      · simp [connectInstall, hs, hcs, deferClose, h1]
      · simp [connectInstall, hs, hcs, deferClose]
      · simp [connectInstall, hs, hcs, deferClose]
    | nil =>
      have hall := hokk (by simp)
      cases hadd : w.ioctlNotifAddFd tr1 ctx.notifFd (mkAddFd ctx ss fd) with
      | false =>
        have hdef : connectInstall w ctx ss destAddr loop iface other fwdPort newDestAddr tr =
            ⟨{ ss with state := socketState.NotBypassable }, ctx.resp,
              tr1 ++ [⟨Call.ioctlNotifAddFd ctx.notifFd (mkAddFd ctx ss fd), false⟩] ++
                [⟨Call.close fd, true⟩], false⟩ := by
          simp [connectInstall, hs, hcs, deferClose, hadd]
        rw [hdef]
        refine ⟨fd, evs, [⟨Call.ioctlNotifAddFd ctx.notifFd (mkAddFd ctx ss fd), false⟩], hs,
          hrep, ?_, Or.inr (Or.inr (Or.inl ⟨rfl, rfl, rfl, hall⟩))⟩
        rw [h1]
      | true =>
        obtain ⟨wevs, hw1, hw2⟩ := connectRewrite_shape w ctx ss destAddr loop iface other
          fwdPort newDestAddr
          (tr1 ++ [⟨Call.ioctlNotifAddFd ctx.notifFd (mkAddFd ctx ss fd), true⟩])
        have hdef : connectInstall w ctx ss destAddr loop iface other fwdPort newDestAddr tr =
            deferClose fd (connectRewrite w ctx ss destAddr loop iface other fwdPort newDestAddr
              (tr1 ++ [⟨Call.ioctlNotifAddFd ctx.notifFd (mkAddFd ctx ss fd), true⟩])) := by
          simp [connectInstall, hs, hcs, hadd]
        rw [hdef]
        refine ⟨fd, evs, ⟨Call.ioctlNotifAddFd ctx.notifFd (mkAddFd ctx ss fd), true⟩ :: wevs,
          hs, hrep, ?_, Or.inr (Or.inr (Or.inr ⟨wevs, rfl, hall, ?_⟩))⟩
        · have hclose : ∀ o : Outcome,
              (deferClose fd o).trace = o.trace ++ [⟨Call.close fd, true⟩] := fun _ => rfl
          rw [hclose, hw1, h1]
          simp
        · exact hw2

theorem policy_observations (tr : List Event) (h : ∀ e ∈ tr, e.call.isPolicy = true) :
    addFds tr = [] ∧ memWrites tr = [] ∧ socketCalls tr = [] ∧ bindCalls tr = [] ∧
    closeCalls tr = [] ∧ installedFds tr = [] ∧ okWrites tr = [] := by
  have key : ∀ e ∈ tr, e.call.addFdArg = none ∧ e.call.memWriteArg = none ∧
      e.call.socketArg = none ∧ e.call.bindArg = none ∧ e.call.closeArg = none := by
    intro e he
    have := h e he
    rcases e with ⟨c, ok⟩
    cases c <;> first | exact ⟨rfl, rfl, rfl, rfl, rfl⟩ | cases this
  refine ⟨?_, ?_, ?_, ?_, ?_, ?_, ?_⟩
  · exact List.filterMap_eq_nil_iff.2 (fun e he => (key e he).1)
  · exact List.filterMap_eq_nil_iff.2 (fun e he => (key e he).2.1)
  · exact List.filterMap_eq_nil_iff.2 (fun e he => (key e he).2.2.1)
  · exact List.filterMap_eq_nil_iff.2 (fun e he => (key e he).2.2.2.1)
  · exact List.filterMap_eq_nil_iff.2 (fun e he => (key e he).2.2.2.2)
  · refine List.filterMap_eq_nil_iff.2 (fun e he => ?_)
    simp [(key e he).1]
  · refine List.filterMap_eq_nil_iff.2 (fun e he => ?_)
    simp [(key e he).2.1]

theorem connectPeerRules_trace (w : World) (handler : notifHandler) (dest : sockaddr)
    (nd : List Nat) (fp0 : ForwardPortMapping) (tr : List Event) :
    (connectPeerRules w handler dest nd fp0 tr).trace = tr ∨
    ∃ ok, (connectPeerRules w handler dest nd fp0 tr).trace =
      tr ++ [⟨Call.etcdGet (w.ETCD_MULTINODE_PREFIX ++ w.sockaddrString dest), ok⟩] := by
  by_cases hm : (handler.multinodeEnable && IsPrivate dest.IP) = true
  · right
    cases hg : w.etcdGet tr (w.ETCD_MULTINODE_PREFIX ++ w.sockaddrString dest) with
    | none =>
      refine ⟨false, ?_⟩
      simp only [connectPeerRules, if_pos hm, hg, PeerResult.trace]
    | some kvs =>
      refine ⟨true, ?_⟩
      rcases kvs with _ | ⟨v, _ | ⟨v2, rest⟩⟩
      · simp only [connectPeerRules, if_pos hm, hg, PeerResult.trace]
      · rcases hsp : stringsSplitColon v with _ | ⟨a, _ | ⟨b, _ | ⟨c, r⟩⟩⟩
        · simp only [connectPeerRules, if_pos hm, hg, hsp, PeerResult.trace]
        · simp only [connectPeerRules, if_pos hm, hg, hsp, PeerResult.trace]
        · cases ha : w.Atoi b with
          | none => simp only [connectPeerRules, if_pos hm, hg, hsp, ha, PeerResult.trace]
          | some hostPort =>
            simp only [connectPeerRules, if_pos hm, hg, hsp, ha, PeerResult.trace]
        · simp only [connectPeerRules, if_pos hm, hg, hsp, PeerResult.trace]
      · simp only [connectPeerRules, if_pos hm, hg, PeerResult.trace]
  · left
    by_cases hc : handler.c2cConnectionsEnable = true
    · cases hci : handler.containerInterfaces (w.sockaddrString dest) with
      | none => simp only [connectPeerRules, if_neg hm, if_pos hc, hci, PeerResult.trace]
      | some ci => simp only [connectPeerRules, if_neg hm, if_pos hc, hci, PeerResult.trace]
    · simp only [connectPeerRules, if_neg hm, if_neg hc, PeerResult.trace]

theorem connectPeerRules_policy (w : World) (handler : notifHandler) (dest : sockaddr)
    (nd : List Nat) (fp0 : ForwardPortMapping) (tr : List Event)
    (h : ∀ e ∈ tr, e.call.isPolicy = true) :
    ∀ e ∈ (connectPeerRules w handler dest nd fp0 tr).trace, e.call.isPolicy = true := by
  rcases connectPeerRules_trace w handler dest nd fp0 tr with h1 | ⟨ok, h1⟩
  · rw [h1]
    exact h
  · rw [h1]
    intro e he
    rcases List.mem_append.1 he with h2 | h2
    · exact h e h2
    · rcases List.mem_singleton.1 h2 with rfl
      rfl

/-- Every run of `handleSysConnect` either stops in the policy phase, having made
only policy calls, without panic and with the state unchanged, NotBypassable or
Error, or continues with the install phase on the record with the captured
address, after a trace of policy calls. -/
theorem handleSysConnect_shape (w : World) (handler : notifHandler) (ctx : context)
    (ss : socketStatus) :
    ((∀ e ∈ (handleSysConnect w handler ctx ss).trace, e.call.isPolicy = true) ∧
      (handleSysConnect w handler ctx ss).panicked = false ∧
      ((handleSysConnect w handler ctx ss).ss.state = ss.state ∨
        (handleSysConnect w handler ctx ss).ss.state = socketState.NotBypassable ∨
        (handleSysConnect w handler ctx ss).ss.state = socketState.Error)) ∨
    (∃ dest tr, (∀ e ∈ tr, e.call.isPolicy = true) ∧
      InstallShape w ctx { ss with addr := some dest } tr (handleSysConnect w handler ctx ss)) := by
  cases hread : w.readSockaddrFromProcess [] ss.pid (ctx.req.Data.Args 1)
      (ctx.req.Data.Args 2) with
  | none =>
    left
    simp [handleSysConnect, hread, Call.isPolicy]
  | some dest =>
    by_cases hflt : handler.ip ≠ "" ∧ w.ipString dest.IP ≠ handler.ip
    · left
      simp only [handleSysConnect, hread, if_pos hflt]
      simp [Call.isPolicy]
    · cases hnd : hostLoopbackFor dest.Family with
      | none =>
        left
        simp only [handleSysConnect, hread, if_neg hflt, hnd]
        simp [Call.isPolicy]
      | some nd =>
        have hpol0 := connectPeerRules_policy w handler dest nd
          (connectForwardRules w handler { ss with addr := some dest } dest).2.2
          [⟨Call.readSockaddrFromProcess ss.pid (ctx.req.Data.Args 1) (ctx.req.Data.Args 2),
            true⟩] (by simp [Call.isPolicy])
        cases hp : connectPeerRules w handler dest nd
            (connectForwardRules w handler { ss with addr := some dest } dest).2.2
            [⟨Call.readSockaddrFromProcess ss.pid (ctx.req.Data.Args 1) (ctx.req.Data.Args 2),
              true⟩] with
        | abort tr1 =>
          have hpol : ∀ e ∈ tr1, e.call.isPolicy = true := by
            rw [hp] at hpol0
            exact hpol0
          left
          have hdef : handleSysConnect w handler ctx ss =
              ⟨{ ss with addr := some dest, state := socketState.Error }, ctx.resp, tr1,
                false⟩ := by
            simp only [handleSysConnect, hread, if_neg hflt, hnd, hp]
          rw [hdef]
          exact ⟨hpol, rfl, Or.inr (Or.inr rfl)⟩
        | go nd1 fp other tr1 =>
          have hpol : ∀ e ∈ tr1, e.call.isPolicy = true := by
            rw [hp] at hpol0
            exact hpol0
          by_cases hskip : (!(connectForwardRules w handler { ss with addr := some dest } dest).1
              && !(connectForwardRules w handler { ss with addr := some dest } dest).2.1
              && !other && handler.nonBypassable dest.IP) = true
          · left
            have hdef : handleSysConnect w handler ctx ss =
                ⟨{ ss with addr := some dest, state := socketState.NotBypassable }, ctx.resp,
                  tr1, false⟩ := by
              simp only [handleSysConnect, hread, if_neg hflt, hnd, hp, if_pos hskip]
            rw [hdef]
            exact ⟨hpol, rfl, Or.inr (Or.inl rfl)⟩
          · right
            have hdef : handleSysConnect w handler ctx ss =
                connectInstall w ctx { ss with addr := some dest } dest
                  (connectForwardRules w handler { ss with addr := some dest } dest).1
                  (connectForwardRules w handler { ss with addr := some dest } dest).2.1
                  other fp nd1 tr1 := by
              simp only [handleSysConnect, hread, if_neg hflt, hnd, hp, if_neg hskip]
            rw [hdef]
            exact ⟨dest, tr1, hpol, connectInstall_shape w ctx _ dest _ _ _ _ _ _⟩

/-- Every run of the install phase of bind follows one of the paths of
`BindShape`. -/
theorem bindInstall_shape (w : World) (ctx : context) (ss : socketStatus) (sa : sockaddr)
    (fwdPort : ForwardPortMapping) (tr : List Event) :
    BindShape w ctx ss tr (bindInstall w ctx ss sa fwdPort tr) := by
  cases hs : w.socket tr ss.sockDomain ss.sockType ss.sockProto with
  | none =>
    left
    simp [bindInstall, hs]
  | some fd =>
    right
    obtain ⟨evs, h1, hrep, herr, hokk⟩ := configureSocket_evs w ss fd
      (tr ++ [⟨Call.socket ss.sockDomain ss.sockType ss.sockProto, true⟩])
    rcases hcs : configureSocket w ss fd
      (tr ++ [⟨Call.socket ss.sockDomain ss.sockType ss.sockProto, true⟩]) with ⟨res, tr1⟩
    rw [hcs] at h1 herr hokk
    simp only at h1 herr hokk
    cases res with
    | panic =>
      refine ⟨fd, evs, [], hs, hrep, ?_, Or.inl ⟨rfl, ?_, ?_, hokk (by simp)⟩⟩
      · simp [bindInstall, hs, hcs, deferClose, h1]
      · simp [bindInstall, hs, hcs, deferClose]
      · simp [bindInstall, hs, hcs, deferClose]
    | error =>
      refine ⟨fd, evs, [], hs, hrep, ?_, Or.inr (Or.inl ⟨rfl, ?_, ?_, herr rfl⟩)⟩
      · simp [bindInstall, hs, hcs, deferClose, h1]
      · simp [bindInstall, hs, hcs, deferClose]
      · simp [bindInstall, hs, hcs, deferClose]
    | nil =>
      have hall := hokk (by simp)
      cases hba : bindSockaddr sa fwdPort with
      | none =>
        have hdef : bindInstall w ctx ss sa fwdPort tr =
            ⟨ss, ctx.resp, tr1 ++ [⟨Call.close fd, true⟩], true⟩ := by
          simp [bindInstall, hs, hcs, deferClose, hba]
        rw [hdef]
        refine ⟨fd, evs, [], hs, hrep, ?_, Or.inl ⟨rfl, rfl, rfl, hall⟩⟩
        rw [h1]
        simp
      | some ba =>
        cases hb : w.bind tr1 fd ba with
        | false =>
          have hdef : bindInstall w ctx ss sa fwdPort tr =
              ⟨{ ss with state := socketState.NotBypassable }, ctx.resp,
                tr1 ++ [⟨Call.bind fd ba, false⟩] ++ [⟨Call.close fd, true⟩], false⟩ := by
            simp [bindInstall, hs, hcs, deferClose, hba, hb]
          rw [hdef]
          refine ⟨fd, evs, [⟨Call.bind fd ba, false⟩], hs, hrep, ?_,
            Or.inr (Or.inr (Or.inl ⟨ba, rfl, rfl, rfl, hall⟩))⟩
          rw [h1]
        | true =>
          cases hadd : w.ioctlNotifAddFd (tr1 ++ [⟨Call.bind fd ba, true⟩]) ctx.notifFd
              (mkAddFd ctx ss fd) with
          | false =>
            have hdef : bindInstall w ctx ss sa fwdPort tr =
                ⟨{ ss with state := socketState.NotBypassable }, ctx.resp,
                  tr1 ++ [⟨Call.bind fd ba, true⟩] ++
                    [⟨Call.ioctlNotifAddFd ctx.notifFd (mkAddFd ctx ss fd), false⟩] ++
                    [⟨Call.close fd, true⟩], false⟩ := by
              simp [bindInstall, hs, hcs, deferClose, hba, hb, hadd]
            rw [hdef]
            refine ⟨fd, evs, [⟨Call.bind fd ba, true⟩,
              ⟨Call.ioctlNotifAddFd ctx.notifFd (mkAddFd ctx ss fd), false⟩], hs, hrep, ?_,
              Or.inr (Or.inr (Or.inr (Or.inl ⟨ba, rfl, rfl, rfl, hall⟩)))⟩
            rw [h1]
            simp
          | true =>
            have hdef : bindInstall w ctx ss sa fwdPort tr =
                ⟨{ ss with state := socketState.Bypassed }, clearContinue ctx.resp,
                  tr1 ++ [⟨Call.bind fd ba, true⟩] ++
                    [⟨Call.ioctlNotifAddFd ctx.notifFd (mkAddFd ctx ss fd), true⟩] ++
                    [⟨Call.close fd, true⟩], false⟩ := by
              simp [bindInstall, hs, hcs, deferClose, hba, hb, hadd]
            rw [hdef]
            refine ⟨fd, evs, [⟨Call.bind fd ba, true⟩,
              ⟨Call.ioctlNotifAddFd ctx.notifFd (mkAddFd ctx ss fd), true⟩], hs, hrep, ?_,
              Or.inr (Or.inr (Or.inr (Or.inr ⟨ba, rfl, rfl, rfl, hall⟩)))⟩
            rw [h1]
            simp

/-- Every run of `handleSysBind` either stops in the policy phase, having made
only policy calls, without panic and with the state NotBypassable, or continues
with the install phase on the record with the captured address, after the read
of the sockaddr. -/
theorem handleSysBind_shape (w : World) (pid : Int) (handler : notifHandler) (ctx : context)
    (ss : socketStatus) :
    ((∀ e ∈ (handleSysBind w pid handler ctx ss).trace, e.call.isPolicy = true) ∧
      (handleSysBind w pid handler ctx ss).panicked = false ∧
      (handleSysBind w pid handler ctx ss).ss.state = socketState.NotBypassable) ∨
    (∃ sa tr, (∀ e ∈ tr, e.call.isPolicy = true) ∧
      BindShape w ctx { ss with addr := some sa } tr (handleSysBind w pid handler ctx ss)) := by
  by_cases hibt : ss.ignoreBind = true
  · left
    simp [handleSysBind, hibt]
  · have hib : ss.ignoreBind = false := by simpa using hibt
    cases hread : w.readSockaddrFromProcess [] pid (ctx.req.Data.Args 1)
        (ctx.req.Data.Args 2) with
    | none =>
      left
      simp [handleSysBind, hib, hread, Call.isPolicy]
    | some sa =>
      cases hf : handler.forwardingPorts (sa.Port : Int) with
      | none =>
        left
        simp [handleSysBind, hib, hread, hf, Call.isPolicy]
      | some fp =>
        right
        have hdef : handleSysBind w pid handler ctx ss =
            bindInstall w ctx { ss with addr := some sa } sa fp
              [⟨Call.readSockaddrFromProcess pid (ctx.req.Data.Args 1) (ctx.req.Data.Args 2),
                true⟩] := by
          simp [handleSysBind, hib, hread, hf]
        rw [hdef]
        refine ⟨sa, [⟨Call.readSockaddrFromProcess pid (ctx.req.Data.Args 1)
          (ctx.req.Data.Args 2), true⟩], ?_, bindInstall_shape w ctx _ sa fp _⟩
        intro e he
        rcases List.mem_singleton.1 he with rfl
        rfl

/-! ## Observations on traces of a given kind -/

theorem replay_observations (evs : List Event) (h : ∀ e ∈ evs, e.call.isReplay = true) :
    addFds evs = [] ∧ memWrites evs = [] ∧ socketCalls evs = [] ∧ bindCalls evs = [] ∧
    closeCalls evs = [] ∧ installedFds evs = [] ∧ okWrites evs = [] := by
  have key : ∀ e ∈ evs, e.call.addFdArg = none ∧ e.call.memWriteArg = none ∧
      e.call.socketArg = none ∧ e.call.bindArg = none ∧ e.call.closeArg = none := by
    intro e he
    have := h e he
    rcases e with ⟨c, ok⟩
    cases c <;> first | exact ⟨rfl, rfl, rfl, rfl, rfl⟩ | cases this
  refine ⟨?_, ?_, ?_, ?_, ?_, ?_, ?_⟩
  · exact List.filterMap_eq_nil_iff.2 (fun e he => (key e he).1)
  · exact List.filterMap_eq_nil_iff.2 (fun e he => (key e he).2.1)
  · exact List.filterMap_eq_nil_iff.2 (fun e he => (key e he).2.2.1)
  · exact List.filterMap_eq_nil_iff.2 (fun e he => (key e he).2.2.2.1)
  · exact List.filterMap_eq_nil_iff.2 (fun e he => (key e he).2.2.2.2)
  · refine List.filterMap_eq_nil_iff.2 (fun e he => ?_)
    simp [(key e he).1]
  · refine List.filterMap_eq_nil_iff.2 (fun e he => ?_)
    simp [(key e he).2.1]

theorem write_observations (wevs : List Event)
    (h : ∀ e ∈ wevs, e.call.memWriteArg.isSome = true) :
    addFds wevs = [] ∧ socketCalls wevs = [] ∧ bindCalls wevs = [] ∧ closeCalls wevs = [] ∧
    installedFds wevs = [] := by
  have key : ∀ e ∈ wevs, e.call.addFdArg = none ∧
      e.call.socketArg = none ∧ e.call.bindArg = none ∧ e.call.closeArg = none := by
    intro e he
    have := h e he
    rcases e with ⟨c, ok⟩
    cases c <;> first | exact ⟨rfl, rfl, rfl, rfl⟩ | cases this
  refine ⟨?_, ?_, ?_, ?_, ?_⟩
  · exact List.filterMap_eq_nil_iff.2 (fun e he => (key e he).1)
  · exact List.filterMap_eq_nil_iff.2 (fun e he => (key e he).2.1)
  · exact List.filterMap_eq_nil_iff.2 (fun e he => (key e he).2.2.1)
  · exact List.filterMap_eq_nil_iff.2 (fun e he => (key e he).2.2.2)
  · refine List.filterMap_eq_nil_iff.2 (fun e he => ?_)
    simp [(key e he).1]

theorem closeCalls_nil : closeCalls [] = [] := rfl

theorem closeCalls_append (a b : List Event) :
    closeCalls (a ++ b) = closeCalls a ++ closeCalls b := by
  simp [closeCalls, List.filterMap_append]

theorem closeCalls_cons (e : Event) (t : List Event) :
    closeCalls (e :: t) = e.call.closeArg.toList ++ closeCalls t := by
  cases h : e.call.closeArg <;> simp [closeCalls, List.filterMap_cons, h]

theorem installedFds_nil : installedFds [] = [] := rfl

theorem installedFds_append (a b : List Event) :
    installedFds (a ++ b) = installedFds a ++ installedFds b := by
  simp [installedFds, List.filterMap_append]

theorem installedFds_cons (e : Event) (t : List Event) :
    installedFds (e :: t) =
      (if e.ok = true then e.call.addFdArg else none).toList ++ installedFds t := by
  cases h : (if e.ok = true then e.call.addFdArg else none) <;>
    simp [installedFds, List.filterMap_cons, h]

theorem okWrites_nil : okWrites [] = [] := rfl

theorem okWrites_append (a b : List Event) :
    okWrites (a ++ b) = okWrites a ++ okWrites b := by
  simp [okWrites, List.filterMap_append]

theorem okWrites_cons (e : Event) (t : List Event) :
    okWrites (e :: t) =
      (if e.ok = true then e.call.memWriteArg else none).toList ++ okWrites t := by
  cases h : (if e.ok = true then e.call.memWriteArg else none) <;>
    simp [okWrites, List.filterMap_cons, h]

theorem policy_kind (c : Call) (h : c.isPolicy = true) :
    c.socketArg = none ∧ c.isReplay = false ∧ c.addFdArg = none ∧ c.memWriteArg = none ∧
    c.closeArg = none ∧ c.bindArg = none := by
  cases c <;> first | exact ⟨rfl, rfl, rfl, rfl, rfl, rfl⟩ | cases h

theorem write_kind (c : Call) (h : c.memWriteArg.isSome = true) :
    c.socketArg = none ∧ c.isReplay = false ∧ c.addFdArg = none ∧ c.isPolicy = false ∧
    c.closeArg = none ∧ c.bindArg = none := by
  cases c <;> first | exact ⟨rfl, rfl, rfl, rfl, rfl, rfl⟩ | cases h

theorem memWrites_ne_nil_of_mem (tr : List Event) (e : Event) (he : e ∈ tr)
    (hw : e.call.memWriteArg.isSome = true) : memWrites tr ≠ [] := by
  intro h
  have := List.filterMap_eq_nil_iff.1 h e he
  rw [this] at hw
  cases hw

/-- The outcomes of the install phase of connect, by class: stopped before or at
the add-fd with nothing written and nothing installed; Error after the add-fd;
Bypassed with every step succeeded; or a panic with the state untouched. -/
theorem install_classes (w : World) (ctx : context) (ss : socketStatus) (tr : List Event)
    (o : Outcome) (hsh : InstallShape w ctx ss tr o) (hpol : ∀ e ∈ tr, e.call.isPolicy = true) :
    (o.ss.state = socketState.NotBypassable ∧ o.panicked = false ∧ memWrites o.trace = [] ∧
      installedFds o.trace = [] ∧
      ∃ e ∈ o.trace, e.ok = false ∧ (e.call.socketArg.isSome = true ∨ e.call.isReplay = true ∨
        e.call.addFdArg.isSome = true)) ∨
    (o.ss.state = socketState.Error ∧ o.panicked = false ∧ (∃ a, installedFds o.trace = [a]) ∧
      ∀ e ∈ o.trace, e.ok = false → (e.call.isPolicy = true ∨ e.call.memWriteArg.isSome = true)) ∨
    (o.ss.state = socketState.Bypassed ∧ o.panicked = false ∧
      (∃ a, installedFds o.trace = [a]) ∧ ∀ e ∈ o.trace, e.ok = false → e.call.isPolicy = true) ∨
    (o.panicked = true ∧ o.ss.state = ss.state ∧
      ∀ e ∈ o.trace, e.ok = false → e.call.isPolicy = true) := by
  obtain ⟨_, hpm, _, _, _, hpi, _⟩ := policy_observations tr hpol
  rcases hsh with ⟨_, htr, hst, hnp⟩ | ⟨fd, evs, mid, _, hrep, htr, hcases⟩
  · left
    refine ⟨hst, hnp, ?_, ?_, ⟨Call.socket ss.sockDomain ss.sockType ss.sockProto, false⟩, ?_,
      rfl, Or.inl rfl⟩
    · rw [htr]
      simp [memWrites_append, memWrites_cons, memWrites_nil, hpm, Call.memWriteArg]
    · rw [htr]
      simp [installedFds_append, installedFds_cons, installedFds_nil, hpi, Call.addFdArg]
    · rw [htr]
      simp
  · obtain ⟨_, hrm, _, _, _, hri, _⟩ := replay_observations evs hrep
    have hmem : ∀ e ∈ o.trace, e ∈ tr ∨
        e = ⟨Call.socket ss.sockDomain ss.sockType ss.sockProto, true⟩ ∨ e ∈ evs ∨ e ∈ mid ∨
        e = ⟨Call.close fd, true⟩ := by
      intro e he
      rw [htr] at he
      simp only [List.mem_append, List.mem_singleton] at he
      tauto
    rcases hcases with ⟨hmid, hp, hst, hall⟩ | ⟨hmid, hnp, hst, e0, he0, hf0⟩ |
      ⟨hmid, hnp, hst, hall⟩ | ⟨wevs, hmid, hall, hw, hend, hfail⟩
    · right
      right
      right
      refine ⟨hp, hst, ?_⟩
      intro e he hf
      rcases hmem e he with h | h | h | h | h
      · exact hpol e h
      · rw [h] at hf
        cases hf
      · rw [hall e h] at hf
        cases hf
      · rw [hmid] at h
        cases h
      · rw [h] at hf
        cases hf
    · left
      refine ⟨hst, hnp, ?_, ?_, e0, ?_, hf0, Or.inr (Or.inl (hrep e0 he0))⟩
      · rw [htr, hmid]
        simp [memWrites_append, memWrites_cons, memWrites_nil, hpm, hrm, Call.memWriteArg]
      · rw [htr, hmid]
        simp [installedFds_append, installedFds_cons, installedFds_nil, hpi, hri, Call.addFdArg]
      · rw [htr]
        simp [he0]
    · left
      refine ⟨hst, hnp, ?_, ?_,
        ⟨Call.ioctlNotifAddFd ctx.notifFd (mkAddFd ctx ss fd), false⟩, ?_, rfl,
        Or.inr (Or.inr rfl)⟩
      · rw [htr, hmid]
        simp [memWrites_append, memWrites_cons, memWrites_nil, hpm, hrm, Call.memWriteArg]
      · rw [htr, hmid]
        simp [installedFds_append, installedFds_cons, installedFds_nil, hpi, hri, Call.addFdArg]
      · rw [htr, hmid]
        simp
    · obtain ⟨_, _, _, _, hwi⟩ := write_observations wevs hw
      have hinst : installedFds o.trace = [mkAddFd ctx ss fd] := by
        rw [htr, hmid]
        simp [installedFds_append, installedFds_cons, installedFds_nil, hpi, hri, hwi,
          Call.addFdArg]
      have hrest : ∀ e ∈ o.trace, e.ok = false → e ∉ wevs → e.call.isPolicy = true := by
        intro e he hf hnw
        rcases hmem e he with h | h | h | h | h
        · exact hpol e h
        · rw [h] at hf
          cases hf
        · rw [hall e h] at hf
          cases hf
        · rw [hmid] at h
          rcases List.mem_cons.1 h with h1 | h1
          · rw [h1] at hf
            cases hf
          · exact absurd h1 hnw
        · rw [h] at hf
          cases hf
      rcases hend with ⟨hst, hnp, hwok⟩ | ⟨hst, hnp⟩ | ⟨hp, hst, hwok⟩
      · right
        right
        left
        refine ⟨hst, hnp, ⟨_, hinst⟩, ?_⟩
        intro e he hf
        by_cases hin : e ∈ wevs
        · rw [hwok e hin] at hf
          cases hf
        · exact hrest e he hf hin
      · right
        left
        refine ⟨hst, hnp, ⟨_, hinst⟩, ?_⟩
        intro e he hf
        by_cases hin : e ∈ wevs
        · exact Or.inr (hw e hin)
        · exact Or.inl (hrest e he hf hin)
      · right
        right
        right
        refine ⟨hp, hst, ?_⟩
        intro e he hf
        by_cases hin : e ∈ wevs
        · rw [hwok e hin] at hf
          cases hf
        · exact hrest e he hf hin

/-! ## connect: failures -/

/-- Every run of `handleSysConnect` falls in one of five classes: stopped in the
policy phase; stopped before or at the add-fd; Error after the add-fd; Bypassed;
or a panic. -/
theorem handleSysConnect_classes (w : World) (handler : notifHandler) (ctx : context)
    (ss : socketStatus) :
    ((∀ e ∈ (handleSysConnect w handler ctx ss).trace, e.call.isPolicy = true) ∧
      (handleSysConnect w handler ctx ss).panicked = false ∧
      ((handleSysConnect w handler ctx ss).ss.state = ss.state ∨
        (handleSysConnect w handler ctx ss).ss.state = socketState.NotBypassable ∨
        (handleSysConnect w handler ctx ss).ss.state = socketState.Error)) ∨
    ((handleSysConnect w handler ctx ss).ss.state = socketState.NotBypassable ∧
      (handleSysConnect w handler ctx ss).panicked = false ∧
      memWrites (handleSysConnect w handler ctx ss).trace = [] ∧
      installedFds (handleSysConnect w handler ctx ss).trace = [] ∧
      ∃ e ∈ (handleSysConnect w handler ctx ss).trace, e.ok = false ∧
        (e.call.socketArg.isSome = true ∨ e.call.isReplay = true ∨
          e.call.addFdArg.isSome = true)) ∨
    ((handleSysConnect w handler ctx ss).ss.state = socketState.Error ∧
      (handleSysConnect w handler ctx ss).panicked = false ∧
      (∃ a, installedFds (handleSysConnect w handler ctx ss).trace = [a]) ∧
      ∀ e ∈ (handleSysConnect w handler ctx ss).trace, e.ok = false →
        (e.call.isPolicy = true ∨ e.call.memWriteArg.isSome = true)) ∨
    ((handleSysConnect w handler ctx ss).ss.state = socketState.Bypassed ∧
      (handleSysConnect w handler ctx ss).panicked = false ∧
      (∃ a, installedFds (handleSysConnect w handler ctx ss).trace = [a]) ∧
      ∀ e ∈ (handleSysConnect w handler ctx ss).trace, e.ok = false → e.call.isPolicy = true) ∨
    ((handleSysConnect w handler ctx ss).panicked = true ∧
      (handleSysConnect w handler ctx ss).ss.state = ss.state ∧
      ∀ e ∈ (handleSysConnect w handler ctx ss).trace, e.ok = false → e.call.isPolicy = true) := by
  rcases handleSysConnect_shape w handler ctx ss with h | ⟨dest, tr, hpol, hsh⟩
  · exact Or.inl h
  · right
    exact install_classes w ctx _ tr _ hsh hpol

/-- Claim C11 as stated fails at two inputs.  First, connect to 127.0.0.1:5201 with
forward table 5201 to 8080 where the add-fd succeeds and the write of the port
fails: the record ends in Error, not Bypassed, and the host socket is installed.
Second, a c2c connect where the write of the port succeeds and the write of the
IP fails: the record ends in Error, the port bytes in the target memory are
rewritten and the host socket is installed. -/
theorem handleSysConnect_error_after_install_counterexample :
    ((handleSysConnect writeFailWorld fwdHandler (mkContext [3, 4096, 16]) freshRecord).ss.state
        = socketState.Error ∧
      (handleSysConnect writeFailWorld fwdHandler (mkContext [3, 4096, 16]) freshRecord).panicked
        = false ∧
      installedFds (handleSysConnect writeFailWorld fwdHandler (mkContext [3, 4096, 16])
        freshRecord).trace = [⟨42, 1, 7, 3, 0⟩]) ∧
    ((handleSysConnect secondWriteFailWorld c2cHandler (mkContext [3, 4096, 16])
        freshRecord).ss.state = socketState.Error ∧
      okWrites (handleSysConnect secondWriteFailWorld c2cHandler (mkContext [3, 4096, 16])
        freshRecord).trace = [(100, 4098, [31, 144])] ∧
      installedFds (handleSysConnect secondWriteFailWorld c2cHandler (mkContext [3, 4096, 16])
        freshRecord).trace = [⟨42, 1, 7, 3, 0⟩]) := by
  decide

/-- A run of the rewrite of the IP, for an IPv4 or IPv6 destination, that returns
in Error has a failed write to the target memory. -/
theorem connectRewriteIP_error_write (w : World) (ctx : context) (ss : socketStatus)
    (destAddr : sockaddr) (iface other : Bool) (newDestAddr : List Nat) (tr : List Event)
    (hfam : destAddr.Family = AF_INET ∨ destAddr.Family = AF_INET6)
    (hnp : (connectRewriteIP w ctx ss destAddr iface other newDestAddr tr).panicked = false)
    (hst : (connectRewriteIP w ctx ss destAddr iface other newDestAddr tr).ss.state =
      socketState.Error) :
    ∃ e ∈ (connectRewriteIP w ctx ss destAddr iface other newDestAddr tr).trace,
      e.ok = false ∧ e.call.memWriteArg.isSome = true := by
  simp only [connectRewriteIP] at hnp hst ⊢
  split_ifs at hnp hst ⊢ with h1 h2 h3 h4 h5 h6 h7
  all_goals first
    | exact absurd hnp (by decide)
    | exact absurd hst (by decide)
    | exact ⟨_, List.mem_append_right _ (List.mem_singleton.2 rfl),
        Bool.eq_false_iff.2 h4, rfl⟩
    | exact ⟨_, List.mem_append_right _ (List.mem_singleton.2 rfl),
        Bool.eq_false_iff.2 h7, rfl⟩
    | exact absurd hfam (by
        rintro (h | h)
        · exact h2 h
        · exact h5 h)

/-- A run of the rewrite phase, for an IPv4 or IPv6 destination, that returns in
Error has a failed write to the target memory. -/
theorem connectRewrite_error_write (w : World) (ctx : context) (ss : socketStatus)
    (destAddr : sockaddr) (loop iface other : Bool) (fwdPort : ForwardPortMapping)
    (newDestAddr : List Nat) (tr : List Event)
    (hfam : destAddr.Family = AF_INET ∨ destAddr.Family = AF_INET6)
    (hnp : (connectRewrite w ctx ss destAddr loop iface other fwdPort newDestAddr tr).panicked =
      false)
    (hst : (connectRewrite w ctx ss destAddr loop iface other fwdPort newDestAddr tr).ss.state =
      socketState.Error) :
    ∃ e ∈ (connectRewrite w ctx ss destAddr loop iface other fwdPort newDestAddr tr).trace,
      e.ok = false ∧ e.call.memWriteArg.isSome = true := by
  by_cases hfl : (loop || iface || other) = true
  · cases hwr : w.writeProcMem tr ss.pid (uint64add (ctx.req.Data.Args 1) 2)
        (bigEndianPutUint16 (uint16 fwdPort.HostPort)) with
    | false =>
      have hdef : connectRewrite w ctx ss destAddr loop iface other fwdPort newDestAddr tr =
          ⟨{ ss with state := socketState.Error }, ctx.resp,
            tr ++ [⟨Call.writeProcMem ss.pid (uint64add (ctx.req.Data.Args 1) 2)
              (bigEndianPutUint16 (uint16 fwdPort.HostPort)), false⟩], false⟩ := by
        simp [connectRewrite, hfl, hwr]
      rw [hdef]
      exact ⟨_, List.mem_append_right _ (List.mem_singleton.2 rfl), rfl, rfl⟩
    | true =>
      have hdef : connectRewrite w ctx ss destAddr loop iface other fwdPort newDestAddr tr =
          connectRewriteIP w ctx ss destAddr iface other newDestAddr
            (tr ++ [⟨Call.writeProcMem ss.pid (uint64add (ctx.req.Data.Args 1) 2)
              (bigEndianPutUint16 (uint16 fwdPort.HostPort)), true⟩]) := by
        simp [connectRewrite, hfl, hwr]
      rw [hdef] at hnp hst ⊢
      exact connectRewriteIP_error_write w ctx ss destAddr iface other newDestAddr _ hfam hnp hst
  · have hdef : connectRewrite w ctx ss destAddr loop iface other fwdPort newDestAddr tr =
        connectRewriteIP w ctx ss destAddr iface other newDestAddr tr := by
      simp only [connectRewrite, if_neg hfl]
    rw [hdef] at hnp hst ⊢
    exact connectRewriteIP_error_write w ctx ss destAddr iface other newDestAddr _ hfam hnp hst

/-- A run of the install phase of connect, for an IPv4 or IPv6 destination, that
returns in Error has a failed write to the target memory. -/
theorem connectInstall_error_write (w : World) (ctx : context) (ss : socketStatus)
    (destAddr : sockaddr) (loop iface other : Bool) (fwdPort : ForwardPortMapping)
    (newDestAddr : List Nat) (tr : List Event)
    (hfam : destAddr.Family = AF_INET ∨ destAddr.Family = AF_INET6)
    (hnp : (connectInstall w ctx ss destAddr loop iface other fwdPort newDestAddr tr).panicked =
      false)
    (hst : (connectInstall w ctx ss destAddr loop iface other fwdPort newDestAddr tr).ss.state =
      socketState.Error) :
    ∃ e ∈ (connectInstall w ctx ss destAddr loop iface other fwdPort newDestAddr tr).trace,
      e.ok = false ∧ e.call.memWriteArg.isSome = true := by
  have hclose : ∀ (fd : Int) (o : Outcome), o.panicked = false → o.ss.state = socketState.Error →
      (o.panicked = false → o.ss.state = socketState.Error →
        ∃ e ∈ o.trace, e.ok = false ∧ e.call.memWriteArg.isSome = true) →
      ∃ e ∈ (deferClose fd o).trace, e.ok = false ∧ e.call.memWriteArg.isSome = true := by
    intro fd o h1 h2 h3
    obtain ⟨e, he, hok, hk⟩ := h3 h1 h2
    exact ⟨e, List.mem_append_left _ he, hok, hk⟩
  cases hs : w.socket tr ss.sockDomain ss.sockType ss.sockProto with
  | none =>
    simp only [connectInstall, hs] at hst
    cases hst
  | some fd =>
    simp only [connectInstall, hs] at hnp hst ⊢
    refine hclose fd _ hnp hst ?_
    generalize htr0 : tr ++ [⟨Call.socket ss.sockDomain ss.sockType ss.sockProto, true⟩] = tr0
    rcases hc : configureSocket w ss fd tr0 with ⟨res, tr1⟩
    cases res with
    | panic =>
      intro h1 _
      cases h1
    | error =>
      intro _ h2
      cases h2
    | nil =>
      simp only []
      cases hadd : w.ioctlNotifAddFd tr1 ctx.notifFd (mkAddFd ctx ss fd) with
      | false =>
        simp only [Bool.false_eq_true, if_false]
        intro _ h2
        cases h2
      | true =>
        simp only [if_true]
        exact connectRewrite_error_write w ctx ss destAddr loop iface other fwdPort
          newDestAddr _ hfam

/-- A run of `handleSysConnect` that returns in Error with a host socket installed
has a failed write to the target memory. -/
theorem handleSysConnect_error_write (w : World) (handler : notifHandler) (ctx : context)
    (ss : socketStatus)
    (hnp : (handleSysConnect w handler ctx ss).panicked = false)
    (hst : (handleSysConnect w handler ctx ss).ss.state = socketState.Error)
    (hinst : installedFds (handleSysConnect w handler ctx ss).trace ≠ []) :
    ∃ e ∈ (handleSysConnect w handler ctx ss).trace,
      e.ok = false ∧ e.call.memWriteArg.isSome = true := by
  have hpolicy : (∀ e ∈ (handleSysConnect w handler ctx ss).trace, e.call.isPolicy = true) →
      ∃ e ∈ (handleSysConnect w handler ctx ss).trace,
        e.ok = false ∧ e.call.memWriteArg.isSome = true := by
    intro hpol
    exact absurd (policy_observations _ hpol).2.2.2.2.2.1 hinst
  cases hread : w.readSockaddrFromProcess [] ss.pid (ctx.req.Data.Args 1)
      (ctx.req.Data.Args 2) with
  | none =>
    apply hpolicy
    simp [handleSysConnect, hread, Call.isPolicy]
  | some dest =>
    by_cases hflt : handler.ip ≠ "" ∧ w.ipString dest.IP ≠ handler.ip
    · apply hpolicy
      simp only [handleSysConnect, hread, if_pos hflt]
      simp [Call.isPolicy]
    · cases hnd : hostLoopbackFor dest.Family with
      | none =>
        apply hpolicy
        simp only [handleSysConnect, hread, if_neg hflt, hnd]
        simp [Call.isPolicy]
      | some nd =>
        have hfam : dest.Family = AF_INET ∨ dest.Family = AF_INET6 := by
          simp only [hostLoopbackFor] at hnd
          split_ifs at hnd with h1 h2
          · exact Or.inl h1
          · exact Or.inr h2
        have hpol0 := connectPeerRules_policy w handler dest nd
          (connectForwardRules w handler { ss with addr := some dest } dest).2.2
          [⟨Call.readSockaddrFromProcess ss.pid (ctx.req.Data.Args 1) (ctx.req.Data.Args 2),
            true⟩] (by simp [Call.isPolicy])
        cases hp : connectPeerRules w handler dest nd
            (connectForwardRules w handler { ss with addr := some dest } dest).2.2
            [⟨Call.readSockaddrFromProcess ss.pid (ctx.req.Data.Args 1) (ctx.req.Data.Args 2),
              true⟩] with
        | abort tr1 =>
          have hpol : ∀ e ∈ tr1, e.call.isPolicy = true := by
            rw [hp] at hpol0
            exact hpol0
          have hdef : handleSysConnect w handler ctx ss =
              ⟨{ ss with addr := some dest, state := socketState.Error }, ctx.resp, tr1,
                false⟩ := by
            simp only [handleSysConnect, hread, if_neg hflt, hnd, hp]
          apply hpolicy
          rw [hdef]
          exact hpol
        | go nd1 fp other tr1 =>
          have hpol : ∀ e ∈ tr1, e.call.isPolicy = true := by
            rw [hp] at hpol0
            exact hpol0
          by_cases hskip : (!(connectForwardRules w handler { ss with addr := some dest } dest).1
              && !(connectForwardRules w handler { ss with addr := some dest } dest).2.1
              && !other && handler.nonBypassable dest.IP) = true
          · have hdef : handleSysConnect w handler ctx ss =
                ⟨{ ss with addr := some dest, state := socketState.NotBypassable }, ctx.resp,
                  tr1, false⟩ := by
              simp only [handleSysConnect, hread, if_neg hflt, hnd, hp, if_pos hskip]
            apply hpolicy
            rw [hdef]
            exact hpol
          · have hdef : handleSysConnect w handler ctx ss =
                connectInstall w ctx { ss with addr := some dest } dest
                  (connectForwardRules w handler { ss with addr := some dest } dest).1
                  (connectForwardRules w handler { ss with addr := some dest } dest).2.1
                  other fp nd1 tr1 := by
              simp only [handleSysConnect, hread, if_neg hflt, hnd, hp, if_neg hskip]
            rw [hdef] at hnp hst ⊢
            exact connectInstall_error_write w ctx _ dest _ _ other fp nd1 tr1 hfam hnp hst

/-- Claim C11, amended: if `handleSysConnect` returns, without a run-time panic,
with the record in a state other than Bypassed, and no write to the target
memory has failed, then no write to the target memory has been attempted and
no add-fd has succeeded, so the intercepted call proceeds with its original
arguments on its original socket; this covers NotBypassable, the unchanged
state after a failed read of the sockaddr, and Error set in the policy phase.
When a write to the target memory has failed, the record is in Error and the
host socket is installed by the one add-fd that succeeded before the write. -/
theorem handleSysConnect_not_installed (w : World) (handler : notifHandler) (ctx : context)
    (ss : socketStatus)
    (hnp : (handleSysConnect w handler ctx ss).panicked = false)
    (hb : (handleSysConnect w handler ctx ss).ss.state ≠ socketState.Bypassed) :
    ((∀ e ∈ (handleSysConnect w handler ctx ss).trace,
        e.call.memWriteArg.isSome = true → e.ok = true) →
      memWrites (handleSysConnect w handler ctx ss).trace = [] ∧
      okWrites (handleSysConnect w handler ctx ss).trace = [] ∧
      installedFds (handleSysConnect w handler ctx ss).trace = []) ∧
    ((∃ e ∈ (handleSysConnect w handler ctx ss).trace,
        e.ok = false ∧ e.call.memWriteArg.isSome = true) →
      (handleSysConnect w handler ctx ss).ss.state = socketState.Error ∧
      ∃ a, installedFds (handleSysConnect w handler ctx ss).trace = [a]) := by
  have hok : ∀ tr : List Event, memWrites tr = [] → okWrites tr = [] := by
    intro tr h
    refine List.filterMap_eq_nil_iff.2 (fun e hmem => ?_)
    have := List.filterMap_eq_nil_iff.1 h e hmem
    simp [this]
  rcases handleSysConnect_classes w handler ctx ss with
    ⟨hpol, _, _⟩ | ⟨_, _, hm, hi, _⟩ | ⟨hst, _, ⟨a, ha⟩, _⟩ | ⟨hst, _⟩ | ⟨hp, _⟩
  · obtain ⟨_, hm, _, _, _, hi, _⟩ := policy_observations _ hpol
    refine ⟨fun _ => ⟨hm, hok _ hm, hi⟩, ?_⟩
    rintro ⟨e, he, _, hk⟩
    exact absurd hm (memWrites_ne_nil_of_mem _ e he hk)
  · refine ⟨fun _ => ⟨hm, hok _ hm, hi⟩, ?_⟩
    rintro ⟨e, he, _, hk⟩
    exact absurd hm (memWrites_ne_nil_of_mem _ e he hk)
  · refine ⟨fun hall => ?_, fun _ => ⟨hst, a, ha⟩⟩
    obtain ⟨e, he, hf, hk⟩ := handleSysConnect_error_write w handler ctx ss hnp hst
      (by rw [ha]; simp)
    rw [hall e he hk] at hf
    cases hf
  · exact absurd hst hb
  · rw [hp] at hnp
    cases hnp

/-- Witness of C11 amended: connect to 10.4.0.2:80 with multi-node mode on and a
registry answer without key-value pair; the record ends in Error in the policy
phase, no write has failed, nothing is written and nothing is installed. -/
theorem handleSysConnect_not_installed_witness :
    (handleSysConnect peerWorld registryHandler (mkContext [3, 4096, 16]) freshRecord).ss.state
      = socketState.Error ∧
    memWrites (handleSysConnect peerWorld registryHandler (mkContext [3, 4096, 16])
      freshRecord).trace = [] ∧
    installedFds (handleSysConnect peerWorld registryHandler (mkContext [3, 4096, 16])
      freshRecord).trace = [] :=
  have h := (handleSysConnect_not_installed peerWorld registryHandler (mkContext [3, 4096, 16])
    freshRecord (by decide) (by decide)).1 (by decide)
  ⟨by decide, h.1, h.2.2⟩

/-- Claim C12: for every run of `handleSysConnect`: if the host socket creation, a
call of the option replay or the add-fd fails, the record ends NotBypassable and
no write to the target memory is attempted; if a write to the target memory
fails (a rewrite of the destination port or IP, after a successful add-fd), the
record ends in Error, with the host socket installed; and if the record ends
Bypassed, every call of the install phase that was made succeeded, and, when
the record was not already Bypassed, the run did not panic and its add-fd
succeeded. -/
theorem handleSysConnect_failure_states (w : World) (handler : notifHandler) (ctx : context)
    (ss : socketStatus) :
    ((∃ e ∈ (handleSysConnect w handler ctx ss).trace, e.ok = false ∧
        (e.call.socketArg.isSome = true ∨ e.call.isReplay = true ∨
          e.call.addFdArg.isSome = true)) →
      (handleSysConnect w handler ctx ss).ss.state = socketState.NotBypassable ∧
      memWrites (handleSysConnect w handler ctx ss).trace = []) ∧
    ((∃ e ∈ (handleSysConnect w handler ctx ss).trace, e.ok = false ∧
        e.call.memWriteArg.isSome = true) →
      (handleSysConnect w handler ctx ss).ss.state = socketState.Error ∧
      ∃ a, installedFds (handleSysConnect w handler ctx ss).trace = [a]) ∧
    ((handleSysConnect w handler ctx ss).ss.state = socketState.Bypassed →
      (∀ e ∈ (handleSysConnect w handler ctx ss).trace, e.call.isPolicy = false → e.ok = true) ∧
      (ss.state ≠ socketState.Bypassed →
        (handleSysConnect w handler ctx ss).panicked = false ∧
        ∃ a, installedFds (handleSysConnect w handler ctx ss).trace = [a])) := by
  have hexcl : ∀ c : Call, c.isPolicy = true →
      ¬ (c.socketArg.isSome = true ∨ c.isReplay = true ∨ c.addFdArg.isSome = true) := by
    intro c hc
    obtain ⟨h1, h2, h3, _⟩ := policy_kind c hc
    simp [h1, h2, h3]
  have hexclw : ∀ c : Call, c.memWriteArg.isSome = true →
      ¬ (c.socketArg.isSome = true ∨ c.isReplay = true ∨ c.addFdArg.isSome = true) := by
    intro c hc
    obtain ⟨h1, h2, h3, _⟩ := write_kind c hc
    simp [h1, h2, h3]
  have hpw : ∀ c : Call, c.isPolicy = true → ¬ (c.memWriteArg.isSome = true) := by
    intro c hc
    obtain ⟨_, _, _, h4, _⟩ := policy_kind c hc
    simp [h4]
  have hbool : ∀ e : Event, (e.ok = false → e.call.isPolicy = true) →
      e.call.isPolicy = false → e.ok = true := by
    intro e h hp
    cases hok : e.ok with
    | true => rfl
    | false =>
      rw [h hok] at hp
      cases hp
  rcases handleSysConnect_classes w handler ctx ss with
    ⟨hpol, hnp, hst⟩ | ⟨hst, hnp, hm, hi, _⟩ | ⟨hst, hnp, hinst, hfail⟩ |
    ⟨hst, hnp, hinst, hfail⟩ | ⟨hp, hst, hfail⟩
  · refine ⟨?_, ?_, ?_⟩
    · rintro ⟨e, he, _, hk⟩
      exact absurd hk (hexcl _ (hpol e he))
    · rintro ⟨e, he, _, hk⟩
      exact absurd hk (hpw _ (hpol e he))
    · intro hby
      refine ⟨fun e he hp => ?_, fun hne => ?_⟩
      · rw [hpol e he] at hp
        cases hp
      · rcases hst with h | h | h
        · rw [h] at hby
          exact absurd hby hne
        · rw [h] at hby
          cases hby
        · rw [h] at hby
          cases hby
  · refine ⟨fun _ => ⟨hst, hm⟩, ?_, ?_⟩
    · rintro ⟨e, he, _, hk⟩
      exact absurd hm (memWrites_ne_nil_of_mem _ e he hk)
    · intro hby
      rw [hst] at hby
      cases hby
  · refine ⟨?_, fun _ => ⟨hst, hinst⟩, ?_⟩
    · rintro ⟨e, he, hf, hk⟩
      rcases hfail e he hf with h | h
      · exact absurd hk (hexcl _ h)
      · exact absurd hk (hexclw _ h)
    · intro hby
      rw [hst] at hby
      cases hby
  · refine ⟨?_, ?_, fun _ => ⟨fun e he hp => hbool e (hfail e he) hp, fun _ => ⟨hnp, hinst⟩⟩⟩
    · rintro ⟨e, he, hf, hk⟩
      exact absurd hk (hexcl _ (hfail e he hf))
    · rintro ⟨e, he, hf, hk⟩
      exact absurd hk (hpw _ (hfail e he hf))
  · refine ⟨?_, ?_, ?_⟩
    · rintro ⟨e, he, hf, hk⟩
      exact absurd hk (hexcl _ (hfail e he hf))
    · rintro ⟨e, he, hf, hk⟩
      exact absurd hk (hpw _ (hfail e he hf))
    · intro hby
      refine ⟨fun e he hpp => hbool e (hfail e he) hpp, fun hne => ?_⟩
      rw [hst] at hby
      exact absurd hby hne

/-! ## The add-fd request and the close of the host socket -/

theorem cloexec_mask (n : Nat) :
    (n &&& SOCK_CLOEXEC) % 4294967296 = if n.testBit 19 = true then SOCK_CLOEXEC else 0 := by
  have h : SOCK_CLOEXEC = 2 ^ 19 := by decide
  rw [h, Nat.and_two_pow]
  cases n.testBit 19 <;> simp

theorem mkAddFd_fields (ctx : context) (ss : socketStatus) (fd : Int) :
    (mkAddFd ctx ss fd).id = ctx.req.ID ∧
    (mkAddFd ctx ss fd).flags = SeccompAddFdFlagSetFd ∧
    (mkAddFd ctx ss fd).newfd = ctx.req.Data.Args 0 % 4294967296 ∧
    (ctx.req.Data.Args 0 < 4294967296 → (mkAddFd ctx ss fd).newfd = ctx.req.Data.Args 0) ∧
    (mkAddFd ctx ss fd).newfdFlags = intAnd ss.sockType SOCK_CLOEXEC % 4294967296 ∧
    ((mkAddFd ctx ss fd).newfdFlags = 0 ∨ (mkAddFd ctx ss fd).newfdFlags = SOCK_CLOEXEC) ∧
    ((mkAddFd ctx ss fd).newfdFlags = SOCK_CLOEXEC ↔ hasCloexecBit ss.sockType = true) := by
  have hm := cloexec_mask ((ss.sockType % 18446744073709551616).toNat)
  refine ⟨rfl, rfl, rfl, fun hlt => Nat.mod_eq_of_lt hlt, rfl, ?_, ?_⟩
  · show intAnd ss.sockType SOCK_CLOEXEC % 4294967296 = 0 ∨
      intAnd ss.sockType SOCK_CLOEXEC % 4294967296 = SOCK_CLOEXEC
    unfold intAnd
    rw [hm]
    split_ifs
    · exact Or.inr rfl
    · exact Or.inl rfl
  · show intAnd ss.sockType SOCK_CLOEXEC % 4294967296 = SOCK_CLOEXEC ↔ _
    unfold intAnd hasCloexecBit
    rw [hm]
    split_ifs with hb
    · simp [hb]
    · constructor
      · intro h0
        exact absurd h0.symm (by decide)
      · intro h1
        exact absurd h1 hb

theorem install_addFds (w : World) (ctx : context) (ss : socketStatus) (tr : List Event)
    (o : Outcome) (hsh : InstallShape w ctx ss tr o) (hpol : ∀ e ∈ tr, e.call.isPolicy = true) :
    addFds o.trace = [] ∨ ∃ fd, addFds o.trace = [mkAddFd ctx ss fd] := by
  obtain ⟨hpa, _⟩ := policy_observations tr hpol
  rcases hsh with ⟨_, htr, _, _⟩ | ⟨fd, evs, mid, _, hrep, htr, hcases⟩
  · left
    rw [htr]
    simp [addFds_append, addFds_cons, addFds_nil, hpa, Call.addFdArg]
  · obtain ⟨hra, _⟩ := replay_observations evs hrep
    rcases hcases with ⟨hmid, _⟩ | ⟨hmid, _⟩ | ⟨hmid, _⟩ | ⟨wevs, hmid, _, hw, _⟩
    · left
      rw [htr, hmid]
      simp [addFds_append, addFds_cons, addFds_nil, hpa, hra, Call.addFdArg]
    · left
      rw [htr, hmid]
      simp [addFds_append, addFds_cons, addFds_nil, hpa, hra, Call.addFdArg]
    · right
      refine ⟨fd, ?_⟩
      rw [htr, hmid]
      simp [addFds_append, addFds_cons, addFds_nil, hpa, hra, Call.addFdArg]
    · obtain ⟨hwa, _⟩ := write_observations wevs hw
      right
      refine ⟨fd, ?_⟩
      rw [htr, hmid]
      simp [addFds_append, addFds_cons, addFds_nil, hpa, hra, hwa, Call.addFdArg]

theorem bind_addFds (w : World) (ctx : context) (ss : socketStatus) (tr : List Event)
    (o : Outcome) (hsh : BindShape w ctx ss tr o) (hpol : ∀ e ∈ tr, e.call.isPolicy = true) :
    addFds o.trace = [] ∨ ∃ fd, addFds o.trace = [mkAddFd ctx ss fd] := by
  obtain ⟨hpa, _⟩ := policy_observations tr hpol
  rcases hsh with ⟨_, htr, _, _⟩ | ⟨fd, evs, mid, _, hrep, htr, hcases⟩
  · left
    rw [htr]
    simp [addFds_append, addFds_cons, addFds_nil, hpa, Call.addFdArg]
  · obtain ⟨hra, _⟩ := replay_observations evs hrep
    rcases hcases with ⟨hmid, _⟩ | ⟨hmid, _⟩ | ⟨ba, hmid, _⟩ | ⟨ba, hmid, _⟩ | ⟨ba, hmid, _⟩
    · left
      rw [htr, hmid]
      simp [addFds_append, addFds_cons, addFds_nil, hpa, hra, Call.addFdArg]
    · left
      rw [htr, hmid]
      simp [addFds_append, addFds_cons, addFds_nil, hpa, hra, Call.addFdArg]
    · left
      rw [htr, hmid]
      simp [addFds_append, addFds_cons, addFds_nil, hpa, hra, Call.addFdArg]
    · right
      refine ⟨fd, ?_⟩
      rw [htr, hmid]
      simp [addFds_append, addFds_cons, addFds_nil, hpa, hra, Call.addFdArg]
    · right
      refine ⟨fd, ?_⟩
      rw [htr, hmid]
      simp [addFds_append, addFds_cons, addFds_nil, hpa, hra, Call.addFdArg]

/-- Claim C14: every add-fd request issued by `handleSysConnect` or by
`handleSysBind` (each issues at most one) has id equal to the ID of the request,
flags equal to the SETFD flag, newfd equal to the low 32 bits of Args[0] (Args[0]
itself when it fits a descriptor number) and newfdFlags equal to the recorded
sockType AND `SOCK_CLOEXEC`; hence newfdFlags is 0 or `SOCK_CLOEXEC`, and it is
`SOCK_CLOEXEC` exactly when the recorded type carries the `SOCK_CLOEXEC` bit,
whatever its other bits. -/
theorem addFd_request_fields (w : World) (pid : Int) (handler : notifHandler) (ctx : context)
    (ss : socketStatus) :
    ((addFds (handleSysConnect w handler ctx ss).trace).length ≤ 1 ∧
      ∀ a ∈ addFds (handleSysConnect w handler ctx ss).trace,
        a.id = ctx.req.ID ∧ a.flags = SeccompAddFdFlagSetFd ∧
        a.newfd = ctx.req.Data.Args 0 % 4294967296 ∧
        (ctx.req.Data.Args 0 < 4294967296 → a.newfd = ctx.req.Data.Args 0) ∧
        a.newfdFlags = intAnd ss.sockType SOCK_CLOEXEC % 4294967296 ∧
        (a.newfdFlags = 0 ∨ a.newfdFlags = SOCK_CLOEXEC) ∧
        (a.newfdFlags = SOCK_CLOEXEC ↔ hasCloexecBit ss.sockType = true)) ∧
    ((addFds (handleSysBind w pid handler ctx ss).trace).length ≤ 1 ∧
      ∀ a ∈ addFds (handleSysBind w pid handler ctx ss).trace,
        a.id = ctx.req.ID ∧ a.flags = SeccompAddFdFlagSetFd ∧
        a.newfd = ctx.req.Data.Args 0 % 4294967296 ∧
        (ctx.req.Data.Args 0 < 4294967296 → a.newfd = ctx.req.Data.Args 0) ∧
        a.newfdFlags = intAnd ss.sockType SOCK_CLOEXEC % 4294967296 ∧
        (a.newfdFlags = 0 ∨ a.newfdFlags = SOCK_CLOEXEC) ∧
        (a.newfdFlags = SOCK_CLOEXEC ↔ hasCloexecBit ss.sockType = true)) := by
  constructor
  · rcases handleSysConnect_shape w handler ctx ss with ⟨hpol, _⟩ | ⟨dest, tr, hpol, hsh⟩
    · obtain ⟨ha, _⟩ := policy_observations _ hpol
      rw [ha]
      exact ⟨by simp, fun a h => by cases h⟩
    · rcases install_addFds w ctx _ tr _ hsh hpol with h | ⟨fd, h⟩
      · rw [h]
        exact ⟨by simp, fun a h => by cases h⟩
      · rw [h]
        refine ⟨by simp, fun a ha => ?_⟩
        rcases List.mem_singleton.1 ha with rfl
        exact mkAddFd_fields ctx { ss with addr := some dest } fd
  · rcases handleSysBind_shape w pid handler ctx ss with ⟨hpol, _⟩ | ⟨sa, tr, hpol, hsh⟩
    · obtain ⟨ha, _⟩ := policy_observations _ hpol
      rw [ha]
      exact ⟨by simp, fun a h => by cases h⟩
    · rcases bind_addFds w ctx _ tr _ hsh hpol with h | ⟨fd, h⟩
      · rw [h]
        exact ⟨by simp, fun a h => by cases h⟩
      · rw [h]
        refine ⟨by simp, fun a ha => ?_⟩
        rcases List.mem_singleton.1 ha with rfl
        exact mkAddFd_fields ctx { ss with addr := some sa } fd

theorem install_closedOnce (w : World) (ctx : context) (ss : socketStatus) (tr : List Event)
    (o : Outcome) (hsh : InstallShape w ctx ss tr o) (hpol : ∀ e ∈ tr, e.call.isPolicy = true) :
    ClosedOnce w ss.sockDomain ss.sockType ss.sockProto o.trace := by
  obtain ⟨_, _, hps, _, hpc, _, _⟩ := policy_observations tr hpol
  rcases hsh with ⟨_, htr, _, _⟩ | ⟨fd, evs, mid, hs, hrep, htr, hcases⟩
  · left
    constructor
    · intro e he hk
      rw [htr] at he
      rcases List.mem_append.1 he with h | h
      · rw [(policy_kind _ (hpol e h)).1] at hk
        cases hk
      · rcases List.mem_singleton.1 h with rfl
        rfl
    · rw [htr]
      simp [closeCalls_append, closeCalls_cons, closeCalls_nil, hpc, Call.closeArg]
  · obtain ⟨_, _, hrs, _, hrc, _, _⟩ := replay_observations evs hrep
    have hmid : socketCalls mid = [] ∧ closeCalls mid = [] := by
      rcases hcases with ⟨hmid, _⟩ | ⟨hmid, _⟩ | ⟨hmid, _⟩ | ⟨wevs, hmid, _, hw, _⟩
      · rw [hmid]
        exact ⟨rfl, rfl⟩
      · rw [hmid]
        exact ⟨rfl, rfl⟩
      · rw [hmid]
        exact ⟨rfl, rfl⟩
      · obtain ⟨_, hws, _, hwc, _⟩ := write_observations wevs hw
        rw [hmid]
        constructor
        · simp [socketCalls_cons, hws, Call.socketArg]
        · simp [closeCalls_cons, hwc, Call.closeArg]
    right
    refine ⟨fd, tr, evs ++ mid, ?_, hs, hps, ?_, hpc, ?_, ?_⟩
    · rw [htr]
      simp
    · rw [socketCalls_append, hrs, hmid.1]
      rfl
    · rw [closeCalls_append, hrc, hmid.2]
      rfl
    · rw [htr]
      simp [closeCalls_append, closeCalls_cons, closeCalls_nil, hpc, hrc, hmid.2,
        Call.closeArg]

theorem bind_closedOnce (w : World) (ctx : context) (ss : socketStatus) (tr : List Event)
    (o : Outcome) (hsh : BindShape w ctx ss tr o) (hpol : ∀ e ∈ tr, e.call.isPolicy = true) :
    ClosedOnce w ss.sockDomain ss.sockType ss.sockProto o.trace := by
  obtain ⟨_, _, hps, _, hpc, _, _⟩ := policy_observations tr hpol
  rcases hsh with ⟨_, htr, _, _⟩ | ⟨fd, evs, mid, hs, hrep, htr, hcases⟩
  · left
    constructor
    · intro e he hk
      rw [htr] at he
      rcases List.mem_append.1 he with h | h
      · rw [(policy_kind _ (hpol e h)).1] at hk
        cases hk
      · rcases List.mem_singleton.1 h with rfl
        rfl
    · rw [htr]
      simp [closeCalls_append, closeCalls_cons, closeCalls_nil, hpc, Call.closeArg]
  · obtain ⟨_, _, hrs, _, hrc, _, _⟩ := replay_observations evs hrep
    have hmid : socketCalls mid = [] ∧ closeCalls mid = [] := by
      rcases hcases with ⟨hmid, _⟩ | ⟨hmid, _⟩ | ⟨ba, hmid, _⟩ | ⟨ba, hmid, _⟩ | ⟨ba, hmid, _⟩
      all_goals
        rw [hmid]
        exact ⟨rfl, rfl⟩
    right
    refine ⟨fd, tr, evs ++ mid, ?_, hs, hps, ?_, hpc, ?_, ?_⟩
    · rw [htr]
      simp
    · rw [socketCalls_append, hrs, hmid.1]
      rfl
    · rw [closeCalls_append, hrc, hmid.2]
      rfl
    · rw [htr]
      simp [closeCalls_append, closeCalls_cons, closeCalls_nil, hpc, hrc, hmid.2,
        Call.closeArg]

theorem policy_closedOnce (w : World) (d t p : Int) (trace : List Event)
    (hpol : ∀ e ∈ trace, e.call.isPolicy = true) : ClosedOnce w d t p trace := by
  obtain ⟨_, _, _, _, hpc, _, _⟩ := policy_observations trace hpol
  left
  refine ⟨fun e he hk => ?_, hpc⟩
  rw [(policy_kind _ (hpol e he)).1] at hk
  cases hk

/-- Claim C20: in every run of `handleSysConnect` and of `handleSysBind`, on every
path, either no host socket was created and the handler closes nothing, or the
one host socket created by the run, with the descriptor the world answered, is
closed exactly once, by the last call of the run (the deferred close): it is
neither leaked nor closed twice. -/
theorem host_socket_closed_once (w : World) (pid : Int) (handler : notifHandler) (ctx : context)
    (ss : socketStatus) :
    ClosedOnce w ss.sockDomain ss.sockType ss.sockProto (handleSysConnect w handler ctx ss).trace ∧
    ClosedOnce w ss.sockDomain ss.sockType ss.sockProto
      (handleSysBind w pid handler ctx ss).trace := by
  constructor
  · rcases handleSysConnect_shape w handler ctx ss with ⟨hpol, _⟩ | ⟨dest, tr, hpol, hsh⟩
    · exact policy_closedOnce w _ _ _ _ hpol
    · exact install_closedOnce w ctx { ss with addr := some dest } tr _ hsh hpol
  · rcases handleSysBind_shape w pid handler ctx ss with ⟨hpol, _⟩ | ⟨sa, tr, hpol, hsh⟩
    · exact policy_closedOnce w _ _ _ _ hpol
    · exact bind_closedOnce w ctx { ss with addr := some sa } tr _ hsh hpol

/-! ## Dispatcher loop -/

theorem Dispatcher_handleSysConnect_resp (iw : Dispatcher.IterWorld) (h : Dispatcher.notifHandler)
    (ctx : context) : (Dispatcher.handleSysConnect iw h ctx).resp = ctx.resp := by
  simp only [Dispatcher.handleSysConnect]
  repeat' split
  all_goals rfl

theorem Dispatcher_handleSysBind_resp (iw : Dispatcher.IterWorld) (h : Dispatcher.notifHandler)
    (ctx : context) :
    (Dispatcher.handleSysBind iw h ctx).resp = ctx.resp ∨
    (Dispatcher.handleSysBind iw h ctx).resp = clearContinue ctx.resp := by
  unfold Dispatcher.handleSysBind
  repeat' split
  all_goals first
    | exact Or.inl rfl
    | exact Or.inr rfl

/-- No handler of the dispatcher changes the ID, the error or the value of the
response. -/
theorem Dispatcher_handleReq_resp (iw : Dispatcher.IterWorld) (h : Dispatcher.notifHandler)
    (ctx : context) :
    (Dispatcher.handleReq iw h ctx).resp.ID = ctx.resp.ID ∧
    (Dispatcher.handleReq iw h ctx).resp.Error = ctx.resp.Error ∧
    (Dispatcher.handleReq iw h ctx).resp.Val = ctx.resp.Val := by
  cases hn : iw.GetName with
  | none => simp [Dispatcher.handleReq, hn]
  | some name =>
    simp only [Dispatcher.handleReq, hn]
    split_ifs
    · rw [Dispatcher_handleSysConnect_resp]
      exact ⟨rfl, rfl, rfl⟩
    · rcases Dispatcher_handleSysBind_resp iw h
        { ctx with resp := { ctx.resp with
            Flags := ctx.resp.Flags ||| SeccompUserNotifFlagContinue } } with hb | hb
      · rw [hb]
        exact ⟨rfl, rfl, rfl⟩
      · rw [hb]
        exact ⟨rfl, rfl, rfl⟩
    · exact ⟨rfl, rfl, rfl⟩
    · exact ⟨rfl, rfl, rfl⟩
    · exact ⟨rfl, rfl, rfl⟩

theorem Dispatcher_statusInv_setStatus (h : Dispatcher.notifHandler) (key : Nat × Nat)
    (st : Dispatcher.socketStatus) (hinv : Dispatcher.StatusInv h)
    (hst : st.state = Dispatcher.socketState.Bypassed ∨
      st.state = Dispatcher.socketState.SwitchBacked) :
    Dispatcher.StatusInv (Dispatcher.setStatus h key st) := by
  intro k s hk
  simp only [Dispatcher.setStatus] at hk
  split_ifs at hk with heq
  · cases hk
    exact hst
  · exact hinv k s hk

/-- The allocation of `readProcMem` panics exactly when the length is more than
`maxAlloc`. -/
theorem Dispatcher_readProcMem_panic (iw : Dispatcher.IterWorld) (len : Nat) :
    Dispatcher.readProcMem iw len = Dispatcher.ReadResult.panic ↔ Dispatcher.maxAlloc < len := by
  unfold Dispatcher.readProcMem
  split_ifs with hlen
  · exact ⟨fun _ => hlen, fun _ => rfl⟩
  · cases iw.readProcMem with
    | none => exact ⟨fun hf => (by cases hf), fun hl => absurd hl hlen⟩
    | some buf => exact ⟨fun hf => (by cases hf), fun hl => absurd hl hlen⟩

/-- The handler of connect keeps the invariant of the status map; it panics
exactly when the address length is more than `maxAlloc`. -/
theorem Dispatcher_handleSysConnect_inv (iw : Dispatcher.IterWorld) (h : Dispatcher.notifHandler)
    (ctx : context) (hinv : Dispatcher.StatusInv h) :
    Dispatcher.StatusInv (Dispatcher.handleSysConnect iw h ctx).handler ∧
    ((Dispatcher.handleSysConnect iw h ctx).panicked = true ↔
      Dispatcher.maxAlloc < ctx.req.Data.Args 2) := by
  have hp := Dispatcher_readProcMem_panic iw (ctx.req.Data.Args 2)
  have hno : ∀ r, Dispatcher.readProcMem iw (ctx.req.Data.Args 2) = r →
      r ≠ Dispatcher.ReadResult.panic →
      ((false = true) ↔ Dispatcher.maxAlloc < ctx.req.Data.Args 2) := by
    intro r hr hne
    refine ⟨fun hf => (by cases hf), fun hl => ?_⟩
    exact absurd (hr ▸ hp.2 hl) hne
  simp only [Dispatcher.handleSysConnect]
  split
  · next hr => exact ⟨hinv, ⟨fun _ => hp.1 hr, fun _ => rfl⟩⟩
  · next hr => exact ⟨hinv, hno _ hr (by simp)⟩
  · next buf hr =>
    have hq := hno _ hr (by simp)
    split
    · exact ⟨hinv, hq⟩
    · split
      · split
        · exact ⟨hinv, hq⟩
        · split
          · exact ⟨hinv, hq⟩
          · split
            · exact ⟨Dispatcher_statusInv_setStatus h _ _ hinv (Or.inl rfl), hq⟩
            · exact ⟨hinv, hq⟩
      · next sockStatus hst =>
        have hs := hinv _ _ hst
        split
        · split
          · exact ⟨hinv, hq⟩
          · exact ⟨Dispatcher_statusInv_setStatus h _ _ hinv (Or.inr rfl), hq⟩
        · split
          · exact ⟨hinv, hq⟩
          · exact ⟨Dispatcher_statusInv_setStatus h _ _ hinv (Or.inl rfl), hq⟩
        · next hstate =>
          rw [hstate] at hs
          rcases hs with hs | hs <;> cases hs

/-- The handler of bind leaves the handler state as it is; it panics exactly when
the address length is more than `maxAlloc`. -/
theorem Dispatcher_handleSysBind_inv (iw : Dispatcher.IterWorld) (h : Dispatcher.notifHandler)
    (ctx : context) :
    (Dispatcher.handleSysBind iw h ctx).handler = h ∧
    ((Dispatcher.handleSysBind iw h ctx).panicked = true ↔
      Dispatcher.maxAlloc < ctx.req.Data.Args 2) := by
  have hp := Dispatcher_readProcMem_panic iw (ctx.req.Data.Args 2)
  have hno : ∀ r, Dispatcher.readProcMem iw (ctx.req.Data.Args 2) = r →
      r ≠ Dispatcher.ReadResult.panic →
      ((false = true) ↔ Dispatcher.maxAlloc < ctx.req.Data.Args 2) := by
    intro r hr hne
    refine ⟨fun hf => (by cases hf), fun hl => ?_⟩
    exact absurd (hr ▸ hp.2 hl) hne
  simp only [Dispatcher.handleSysBind]
  split
  · next hr => exact ⟨rfl, ⟨fun _ => hp.1 hr, fun _ => rfl⟩⟩
  · next hr => exact ⟨rfl, hno _ hr (by simp)⟩
  · next buf hr =>
    have hq := hno _ hr (by simp)
    repeat' split
    all_goals exact ⟨rfl, hq⟩

/-- Function `handleReq` keeps the invariant of the status map, and it returns
unless the syscall is a connect or a bind whose address length is more than
`maxAlloc`. -/
theorem Dispatcher_handleReq_inv (iw : Dispatcher.IterWorld) (h : Dispatcher.notifHandler)
    (ctx : context) (hinv : Dispatcher.StatusInv h) :
    Dispatcher.StatusInv (Dispatcher.handleReq iw h ctx).handler ∧
    ((Dispatcher.handleReq iw h ctx).panicked = true ↔
      ((iw.GetName = some "connect" ∨ iw.GetName = some "bind") ∧
        Dispatcher.maxAlloc < ctx.req.Data.Args 2)) := by
  cases hn : iw.GetName with
  | none =>
    simp only [Dispatcher.handleReq, hn]
    exact ⟨hinv, ⟨fun hf => (by cases hf), fun hc => by rcases hc.1 with hc | hc <;> cases hc⟩⟩
  | some name =>
    simp only [Dispatcher.handleReq, hn]
    split_ifs with h1 h2 h3 h4
    · obtain ⟨ha, hb⟩ := Dispatcher_handleSysConnect_inv iw h
        { ctx with resp := { ctx.resp with
            Flags := ctx.resp.Flags ||| SeccompUserNotifFlagContinue } } hinv
      refine ⟨ha, hb.trans ⟨fun hl => ⟨Or.inl (by rw [h1]), hl⟩, fun hc => hc.2⟩⟩
    · obtain ⟨ha, hb⟩ := Dispatcher_handleSysBind_inv iw h
        { ctx with resp := { ctx.resp with
            Flags := ctx.resp.Flags ||| SeccompUserNotifFlagContinue } }
      rw [ha]
      refine ⟨hinv, hb.trans ⟨fun hl => ⟨Or.inr (by rw [h2]), hl⟩, fun hc => hc.2⟩⟩
    · refine ⟨hinv, ⟨fun hf => (by cases hf), fun hc => ?_⟩⟩
      rcases hc.1 with hc | hc
      · exact absurd (Option.some.inj hc) h1
      · exact absurd (Option.some.inj hc) h2
    · refine ⟨?_, ⟨fun hf => (by cases hf), fun hc => ?_⟩⟩
      · intro k s hk
        simp only [Dispatcher.handleSysClose, Dispatcher.deleteSocket] at hk
        split_ifs at hk
        exact hinv k s hk
      · rcases hc.1 with hc | hc
        · exact absurd (Option.some.inj hc) h1
        · exact absurd (Option.some.inj hc) h2
    · refine ⟨hinv, ⟨fun hf => (by cases hf), fun hc => ?_⟩⟩
      rcases hc.1 with hc | hc
      · exact absurd (Option.some.inj hc) h1
      · exact absurd (Option.some.inj hc) h2

theorem Dispatcher_handleIteration_inv (iw : Dispatcher.IterWorld) (h : Dispatcher.notifHandler)
    (hinv : Dispatcher.StatusInv h) :
    Dispatcher.StatusInv (Dispatcher.handleIteration iw h).handler := by
  simp only [Dispatcher.handleIteration]
  split
  · exact hinv
  · next req _ =>
    have h1 := (Dispatcher_handleReq_inv iw h
      { notifFd := h.fd, req := req,
        resp := { ID := req.ID, Error := 0, Val := 0, Flags := SeccompUserNotifFlagContinue } }
      hinv).1
    split
    · exact hinv
    · split
      · exact h1
      · exact h1

theorem Dispatcher_handlerAfter_inv (iws : List Dispatcher.IterWorld) :
    ∀ h : Dispatcher.notifHandler, Dispatcher.StatusInv h →
      Dispatcher.StatusInv (Dispatcher.handlerAfter iws h) := by
  induction iws with
  | nil =>
    intro h hinv
    exact hinv
  | cons iw rest ih =>
    intro h hinv
    exact ih _ (Dispatcher_handleIteration_inv iw h hinv)

theorem Dispatcher_newNotifHandler_inv (fd : Int) (subnets : List (List Nat → Bool)) :
    Dispatcher.StatusInv (Dispatcher.newNotifHandler fd subnets) := by
  intro k s hk
  cases hk

/-- Within the allocation bound the loop answers every valid request once: in
an iteration, reached after any earlier iterations of a dispatcher created by
`newNotifHandler`, in which the receive succeeds with request r and r is not a
connect or a bind with Args[2] above `maxAlloc`: if the ID is reported invalid
the iteration is the receive and the failed check only, with no run of
`handleReq`, no call of `NotifRespond` and the handler state unchanged; if the
ID is valid, `handleReq` runs once and returns, and `NotifRespond` is called
exactly once, as the last call of the iteration, with the response left by
`handleReq`, whose ID is r.ID. -/
theorem Dispatcher_iteration_responds_once (fd : Int) (subnets : List (List Nat → Bool))
    (pre : List Dispatcher.IterWorld) (iw : Dispatcher.IterWorld) (r : ScmpNotifReq)
    (hrecv : iw.NotifReceive = some r)
    (hlen : (iw.GetName = some "connect" ∨ iw.GetName = some "bind") →
      r.Data.Args 2 ≤ Dispatcher.maxAlloc) :
    (iw.NotifIDValid = false →
      (Dispatcher.handleIteration iw
          (Dispatcher.handlerAfter pre (Dispatcher.newNotifHandler fd subnets))).trace =
        [⟨Dispatcher.NotifCall.NotifReceive, true⟩,
         ⟨Dispatcher.NotifCall.NotifIDValid r.ID, false⟩] ∧
      (Dispatcher.handleIteration iw
          (Dispatcher.handlerAfter pre (Dispatcher.newNotifHandler fd subnets))).handler =
        Dispatcher.handlerAfter pre (Dispatcher.newNotifHandler fd subnets)) ∧
    (iw.NotifIDValid = true →
      (Dispatcher.handleIteration iw
          (Dispatcher.handlerAfter pre (Dispatcher.newNotifHandler fd subnets))).panicked = false ∧
      ∃ resp, (Dispatcher.handleIteration iw
          (Dispatcher.handlerAfter pre (Dispatcher.newNotifHandler fd subnets))).trace =
          [⟨Dispatcher.NotifCall.NotifReceive, true⟩,
           ⟨Dispatcher.NotifCall.NotifIDValid r.ID, true⟩,
           ⟨Dispatcher.NotifCall.handleReq r.ID, true⟩,
           ⟨Dispatcher.NotifCall.NotifRespond resp, iw.NotifRespond⟩] ∧
        resp.ID = r.ID) := by
  have hinv := Dispatcher_handlerAfter_inv pre _ (Dispatcher_newNotifHandler_inv fd subnets)
  generalize Dispatcher.handlerAfter pre (Dispatcher.newNotifHandler fd subnets) = h at hinv
  constructor
  · intro hv
    simp only [Dispatcher.handleIteration, hrecv, hv]
    exact ⟨rfl, rfl⟩
  · intro hv
    have hpan := (Dispatcher_handleReq_inv iw h
      { notifFd := h.fd, req := r,
        resp := { ID := r.ID, Error := 0, Val := 0, Flags := SeccompUserNotifFlagContinue } }
      hinv).2
    have h2 : (Dispatcher.handleReq iw h
        { notifFd := h.fd, req := r,
          resp := { ID := r.ID, Error := 0, Val := 0,
                    Flags := SeccompUserNotifFlagContinue } }).panicked = false := by
      cases hpk : (Dispatcher.handleReq iw h
        { notifFd := h.fd, req := r,
          resp := { ID := r.ID, Error := 0, Val := 0,
                    Flags := SeccompUserNotifFlagContinue } }).panicked with
      | false => rfl
      | true =>
        obtain ⟨hname, hbig⟩ := hpan.1 hpk
        exact absurd (hlen hname) (Nat.not_le.2 hbig)
    have hid := (Dispatcher_handleReq_resp iw h
      { notifFd := h.fd, req := r,
        resp := { ID := r.ID, Error := 0, Val := 0,
                  Flags := SeccompUserNotifFlagContinue } }).1
    simp only [Dispatcher.handleIteration, hrecv, hv, h2]
    exact ⟨rfl, _, rfl, hid⟩

/-- Claim C15, the code at the failing input: a fresh dispatcher on seccomp fd 5
receives a connect with request id 41 whose Args[2], the address length, is
2^64 - 1, and the ID is valid.  `readProcMem` panics in `make([]byte, len)`, so
`handleReq` does not return: the iteration is the receive, the check and the
failed run of `handleReq`, and no response is sent for the request.  The panic
unwinds `handle`, whose trace ends with the deferred close of fd 5. -/
theorem handle_iteration_no_response_on_huge_addrlen :
    Dispatcher.hugeLenIterWorld.NotifReceive =
      some
        { ID := 41, Pid := 100, Data := { Args := fun i => [3, 4096, 18446744073709551615].getD i 0 } } ∧
    Dispatcher.hugeLenIterWorld.NotifIDValid = true ∧
    Dispatcher.readProcMem Dispatcher.hugeLenIterWorld 18446744073709551615 =
      Dispatcher.ReadResult.panic ∧
    (Dispatcher.handleIteration Dispatcher.hugeLenIterWorld
      (Dispatcher.newNotifHandler 5 [])).panicked = true ∧
    (Dispatcher.handleIteration Dispatcher.hugeLenIterWorld
        (Dispatcher.newNotifHandler 5 [])).trace =
      [⟨Dispatcher.NotifCall.NotifReceive, true⟩,
       ⟨Dispatcher.NotifCall.NotifIDValid 41, true⟩,
       ⟨Dispatcher.NotifCall.handleReq 41, false⟩] ∧
    Dispatcher.responses (Dispatcher.handleIteration Dispatcher.hugeLenIterWorld
      (Dispatcher.newNotifHandler 5 [])).trace = [] ∧
    Dispatcher.handle [Dispatcher.hugeLenIterWorld, Dispatcher.bindIterWorld]
        (Dispatcher.newNotifHandler 5 []) =
      ([⟨Dispatcher.NotifCall.NotifReceive, true⟩,
        ⟨Dispatcher.NotifCall.NotifIDValid 41, true⟩,
        ⟨Dispatcher.NotifCall.handleReq 41, false⟩,
        ⟨Dispatcher.NotifCall.close 5, true⟩], Dispatcher.LoopStatus.panicked) := by
  refine ⟨rfl, ?_⟩
  decide

theorem Dispatcher_handle_not_returned (iws : List Dispatcher.IterWorld) :
    ∀ h : Dispatcher.notifHandler,
      (Dispatcher.handle iws h).2 ≠ Dispatcher.LoopStatus.returned := by
  induction iws with
  | nil =>
    intro h
    simp [Dispatcher.handle]
  | cons iw rest ih =>
    intro h
    unfold Dispatcher.handle
    split_ifs
    · simp
    · exact ih _

/-- Claim C16, the code at the failing input: when the seccomp descriptor has been
closed by the other side, so that every receive fails, then after any number n
of iterations `handle` is still in its loop: its trace is the n failed receives,
it has not returned and it has closed no descriptor.  No run of `handle` ever
returns. -/
theorem handle_loops_on_closed_fd :
    (∀ n : Nat,
      Dispatcher.handle (List.replicate n Dispatcher.closedWorld)
          (Dispatcher.newNotifHandler 5 []) =
        (List.replicate n ⟨Dispatcher.NotifCall.NotifReceive, false⟩,
          Dispatcher.LoopStatus.looping) ∧
      Dispatcher.closes (Dispatcher.handle (List.replicate n Dispatcher.closedWorld)
        (Dispatcher.newNotifHandler 5 [])).1 = []) ∧
    (∀ (iws : List Dispatcher.IterWorld) (h : Dispatcher.notifHandler),
      (Dispatcher.handle iws h).2 ≠ Dispatcher.LoopStatus.returned) := by
  refine ⟨?_, fun iws h => Dispatcher_handle_not_returned iws h⟩
  have key : ∀ (n : Nat) (h : Dispatcher.notifHandler),
      Dispatcher.handle (List.replicate n Dispatcher.closedWorld) h =
        (List.replicate n ⟨Dispatcher.NotifCall.NotifReceive, false⟩,
          Dispatcher.LoopStatus.looping) := by
    intro n
    induction n with
    | zero =>
      intro h
      rfl
    | succ n ih =>
      intro h
      have hit : Dispatcher.handleIteration Dispatcher.closedWorld h =
          ⟨h, [⟨Dispatcher.NotifCall.NotifReceive, false⟩], false⟩ := rfl
      rw [List.replicate_succ, Dispatcher.handle, hit]
      simp only [Bool.false_eq_true, if_false, ih h]
      rfl
  intro n
  refine ⟨key n _, ?_⟩
  rw [key n _]
  refine List.filterMap_eq_nil_iff.2 (fun e he => ?_)
  rw [List.eq_of_mem_replicate he]

/-! ## getpeername -/

/-- Claim C13, counterexample: the record has a captured address that serialises
to 16 bytes b, and the write of b at Args[1] fails; the handler then attempts no
write of the length at Args[2]: the only write of the run is the one of b. -/
theorem handleSysGetpeername_length_write_counterexample :
    capturedRecord.addr = some ⟨2, 80, [10, 4, 0, 2], 0⟩ ∧
    peerNameWriteFailWorld.toBytes ⟨2, 80, [10, 4, 0, 2], 0⟩ =
      some [2, 0, 0, 80, 10, 4, 0, 2, 0, 0, 0, 0, 0, 0, 0, 0] ∧
    memWrites (handleSysGetpeername peerNameWriteFailWorld (mkContext [3, 4096, 4100])
      capturedRecord).trace =
      [(100, 4096, [2, 0, 0, 80, 10, 4, 0, 2, 0, 0, 0, 0, 0, 0, 0, 0])] ∧
    (100, 4100, littleEndianPutUint32 16) ∉
      memWrites (handleSysGetpeername peerNameWriteFailWorld (mkContext [3, 4096, 4100])
        capturedRecord).trace := by
  decide

/-- Claim C13, amended: `handleSysGetpeername` never panics and leaves the record
as it was.  Without a captured address, or when the serialisation fails, it makes
no outside call and the response is unchanged.  With a captured address that
serialises to b it writes b at Args[1] and, only if that write succeeded, then
the 4-byte little-endian encoding of len(b) at Args[2]; the response is the one
with the continue flag cleared when both writes succeeded and is unchanged
otherwise.  In every case bit 0 aside no bit of the flags changes, nor the ID,
the error or the value. -/
theorem handleSysGetpeername_writes (w : World) (ctx : context) (ss : socketStatus) :
    (handleSysGetpeername w ctx ss).panicked = false ∧
    (handleSysGetpeername w ctx ss).ss = ss ∧
    (ss.addr = none →
      (handleSysGetpeername w ctx ss).trace = [] ∧
      (handleSysGetpeername w ctx ss).resp = ctx.resp) ∧
    (∀ a, ss.addr = some a → w.toBytes a = none →
      (handleSysGetpeername w ctx ss).trace = [] ∧
      (handleSysGetpeername w ctx ss).resp = ctx.resp) ∧
    (∀ a b, ss.addr = some a → w.toBytes a = some b →
      ((handleSysGetpeername w ctx ss).trace =
          [⟨Call.writeProcMem ss.pid (ctx.req.Data.Args 1) b, false⟩] ∧
        (handleSysGetpeername w ctx ss).resp = ctx.resp) ∨
      ((handleSysGetpeername w ctx ss).trace =
          [⟨Call.writeProcMem ss.pid (ctx.req.Data.Args 1) b, true⟩,
           ⟨Call.writeProcMem ss.pid (ctx.req.Data.Args 2)
              (littleEndianPutUint32 (b.length % 4294967296)), false⟩] ∧
        (handleSysGetpeername w ctx ss).resp = ctx.resp) ∨
      ((handleSysGetpeername w ctx ss).trace =
          [⟨Call.writeProcMem ss.pid (ctx.req.Data.Args 1) b, true⟩,
           ⟨Call.writeProcMem ss.pid (ctx.req.Data.Args 2)
              (littleEndianPutUint32 (b.length % 4294967296)), true⟩] ∧
        (handleSysGetpeername w ctx ss).resp = clearContinue ctx.resp ∧
        (handleSysGetpeername w ctx ss).resp.Flags.testBit 0 = false)) ∧
    (∀ i, i ≠ 0 → i < 32 →
      (handleSysGetpeername w ctx ss).resp.Flags.testBit i = ctx.resp.Flags.testBit i) ∧
    (handleSysGetpeername w ctx ss).resp.ID = ctx.resp.ID ∧
    (handleSysGetpeername w ctx ss).resp.Error = ctx.resp.Error ∧
    (handleSysGetpeername w ctx ss).resp.Val = ctx.resp.Val := by
  obtain ⟨hb0, hbi, hid, herr, hval⟩ := clearContinue_bits ctx.resp
  cases ha : ss.addr with
  | none =>
    have hdef : handleSysGetpeername w ctx ss = ⟨ss, ctx.resp, [], false⟩ := by
      simp only [handleSysGetpeername, ha]
    rw [hdef]
    refine ⟨rfl, rfl, fun _ => ⟨rfl, rfl⟩, fun a h => ?_, fun a b h => ?_,
      fun i _ _ => rfl, rfl, rfl, rfl⟩
    · cases h
    · cases h
  | some addr =>
    cases hb : w.toBytes addr with
    | none =>
      have hdef : handleSysGetpeername w ctx ss = ⟨ss, ctx.resp, [], false⟩ := by
        simp only [handleSysGetpeername, ha, hb]
      rw [hdef]
      refine ⟨rfl, rfl, fun h => ?_, fun a _ _ => ⟨rfl, rfl⟩, fun a b h h2 => ?_,
        fun i _ _ => rfl, rfl, rfl, rfl⟩
      · cases h
      · cases h
        rw [hb] at h2
        cases h2
    | some buf =>
      cases h1 : w.writeProcMem [] ss.pid (ctx.req.Data.Args 1) buf with
      | false =>
        have hdef : handleSysGetpeername w ctx ss =
            ⟨ss, ctx.resp, [⟨Call.writeProcMem ss.pid (ctx.req.Data.Args 1) buf, false⟩],
              false⟩ := by
          simp [handleSysGetpeername, ha, hb, h1]
        rw [hdef]
        refine ⟨rfl, rfl, fun h => ?_, fun a h h2 => ?_, fun a b h h2 => ?_,
          fun i _ _ => rfl, rfl, rfl, rfl⟩
        · cases h
        · cases h
          rw [hb] at h2
          cases h2
        · cases h
          rw [hb] at h2
          cases h2
          exact Or.inl ⟨rfl, rfl⟩
      | true =>
        cases h2 : w.writeProcMem
            [⟨Call.writeProcMem ss.pid (ctx.req.Data.Args 1) buf, true⟩] ss.pid
            (ctx.req.Data.Args 2) (littleEndianPutUint32 (buf.length % 4294967296)) with
        | false =>
          have hdef : handleSysGetpeername w ctx ss =
              ⟨ss, ctx.resp, [⟨Call.writeProcMem ss.pid (ctx.req.Data.Args 1) buf, true⟩,
                ⟨Call.writeProcMem ss.pid (ctx.req.Data.Args 2)
                  (littleEndianPutUint32 (buf.length % 4294967296)), false⟩], false⟩ := by
            simp [handleSysGetpeername, ha, hb, h1, h2]
          rw [hdef]
          refine ⟨rfl, rfl, fun h => ?_, fun a h h3 => ?_, fun a b h h3 => ?_,
            fun i _ _ => rfl, rfl, rfl, rfl⟩
          · cases h
          · cases h
            rw [hb] at h3
            cases h3
          · cases h
            rw [hb] at h3
            cases h3
            exact Or.inr (Or.inl ⟨rfl, rfl⟩)
        | true =>
          have hdef : handleSysGetpeername w ctx ss =
              ⟨ss, clearContinue ctx.resp,
                [⟨Call.writeProcMem ss.pid (ctx.req.Data.Args 1) buf, true⟩,
                ⟨Call.writeProcMem ss.pid (ctx.req.Data.Args 2)
                  (littleEndianPutUint32 (buf.length % 4294967296)), true⟩], false⟩ := by
            simp [handleSysGetpeername, ha, hb, h1, h2]
          rw [hdef]
          refine ⟨rfl, rfl, fun h => ?_, fun a h h3 => ?_, fun a b h h3 => ?_,
            hbi, hid, herr, hval⟩
          · cases h
          · cases h
            rw [hb] at h3
            cases h3
          · cases h
            rw [hb] at h3
            cases h3
            exact Or.inr (Or.inr ⟨rfl, rfl, hb0⟩)

/-! ## The ignoreBind flag in connect -/

theorem connectRewriteIP_ignoreBind (w : World) (ctx : context) (ss : socketStatus) (b : Bool)
    (destAddr : sockaddr) (iface other : Bool) (newDestAddr : List Nat) (tr : List Event) :
    connectRewriteIP w ctx { ss with ignoreBind := b } destAddr iface other newDestAddr tr =
      (connectRewriteIP w ctx ss destAddr iface other newDestAddr tr).setIgnoreBind b := by
  simp only [connectRewriteIP]
  split_ifs <;> rfl

theorem connectRewrite_ignoreBind (w : World) (ctx : context) (ss : socketStatus) (b : Bool)
    (destAddr : sockaddr) (loop iface other : Bool) (fwdPort : ForwardPortMapping)
    (newDestAddr : List Nat) (tr : List Event) :
    connectRewrite w ctx { ss with ignoreBind := b } destAddr loop iface other fwdPort
        newDestAddr tr =
      (connectRewrite w ctx ss destAddr loop iface other fwdPort newDestAddr tr).setIgnoreBind
        b := by
  simp only [connectRewrite, connectRewriteIP_ignoreBind]
  split_ifs <;> rfl

theorem connectInstall_ignoreBind (w : World) (ctx : context) (ss : socketStatus) (b : Bool)
    (destAddr : sockaddr) (loop iface other : Bool) (fwdPort : ForwardPortMapping)
    (newDestAddr : List Nat) (tr : List Event) :
    connectInstall w ctx { ss with ignoreBind := b } destAddr loop iface other fwdPort
        newDestAddr tr =
      (connectInstall w ctx ss destAddr loop iface other fwdPort newDestAddr tr).setIgnoreBind
        b := by
  have hcfg : ∀ fd tr1, configureSocket w { ss with ignoreBind := b } fd tr1 =
      configureSocket w ss fd tr1 := fun _ _ => rfl
  have hadd : ∀ fd, mkAddFd ctx { ss with ignoreBind := b } fd = mkAddFd ctx ss fd :=
    fun _ => rfl
  simp only [connectInstall, hcfg, hadd, connectRewrite_ignoreBind]
  split
  · rfl
  · split
    · rfl
    · rfl
    · split_ifs <;> rfl

/-- With the loopback and interface flags off, the install phase reads the forward
port only when the peer flag is on, and then only its host port. -/
theorem connectInstall_fwdPort (w : World) (ctx : context) (ss : socketStatus)
    (destAddr : sockaddr) (other : Bool) (fp fp2 : ForwardPortMapping)
    (newDestAddr : List Nat) (tr : List Event)
    (h : other = true → fp.HostPort = fp2.HostPort) :
    connectInstall w ctx ss destAddr false false other fp newDestAddr tr =
      connectInstall w ctx ss destAddr false false other fp2 newDestAddr tr := by
  cases other with
  | false => simp only [connectInstall, connectRewrite, Bool.or_self, Bool.false_eq_true, if_false]
  | true => simp only [connectInstall, connectRewrite, h rfl]

/-- The peer rules on two forward ports: they stop alike, or go on with the same
replacement address, peer flag and trace, and with forward ports whose host
ports agree when the peer flag is on. -/
theorem connectPeerRules_fwdPort (w : World) (handler : notifHandler) (dest : sockaddr)
    (nd : List Nat) (fp fp2 : ForwardPortMapping) (tr : List Event) :
    (∃ tr1, connectPeerRules w handler dest nd fp tr = PeerResult.abort tr1 ∧
      connectPeerRules w handler dest nd fp2 tr = PeerResult.abort tr1) ∨
    (∃ nd1 fpa fpb other tr1,
      connectPeerRules w handler dest nd fp tr = PeerResult.go nd1 fpa other tr1 ∧
      connectPeerRules w handler dest nd fp2 tr = PeerResult.go nd1 fpb other tr1 ∧
      (other = true → fpa.HostPort = fpb.HostPort)) := by
  by_cases hm : (handler.multinodeEnable && IsPrivate dest.IP) = true
  · cases hg : w.etcdGet tr (w.ETCD_MULTINODE_PREFIX ++ w.sockaddrString dest) with
    | none =>
      right
      exact ⟨nd, fp, fp2, false, (tr ++ [⟨Call.etcdGet (w.ETCD_MULTINODE_PREFIX ++ w.sockaddrString dest), false⟩]),
        by simp only [connectPeerRules, if_pos hm, hg],
        by simp only [connectPeerRules, if_pos hm, hg], fun h => by cases h⟩
    | some kvs =>
      rcases kvs with _ | ⟨v, _ | ⟨v2, rest⟩⟩
      · left
        exact ⟨(tr ++ [⟨Call.etcdGet (w.ETCD_MULTINODE_PREFIX ++ w.sockaddrString dest), true⟩]),
            by simp only [connectPeerRules, if_pos hm, hg],
          by simp only [connectPeerRules, if_pos hm, hg]⟩
      · rcases hsp : stringsSplitColon v with _ | ⟨a, _ | ⟨b, _ | ⟨c, r⟩⟩⟩
        · left
          exact ⟨(tr ++ [⟨Call.etcdGet (w.ETCD_MULTINODE_PREFIX ++ w.sockaddrString dest), true⟩]),
            by simp only [connectPeerRules, if_pos hm, hg, hsp],
            by simp only [connectPeerRules, if_pos hm, hg, hsp]⟩
        · left
          exact ⟨(tr ++ [⟨Call.etcdGet (w.ETCD_MULTINODE_PREFIX ++ w.sockaddrString dest), true⟩]),
            by simp only [connectPeerRules, if_pos hm, hg, hsp],
            by simp only [connectPeerRules, if_pos hm, hg, hsp]⟩
        · cases ha : w.Atoi b with
          | none =>
            left
            exact ⟨(tr ++ [⟨Call.etcdGet (w.ETCD_MULTINODE_PREFIX ++ w.sockaddrString dest), true⟩]),
            by simp only [connectPeerRules, if_pos hm, hg, hsp, ha],
              by simp only [connectPeerRules, if_pos hm, hg, hsp, ha]⟩
          | some hostPort =>
            right
            exact ⟨w.ParseIP a, { fp with HostPort := hostPort },
              { fp2 with HostPort := hostPort }, true,
              (tr ++ [⟨Call.etcdGet (w.ETCD_MULTINODE_PREFIX ++ w.sockaddrString dest), true⟩]),
              by simp only [connectPeerRules, if_pos hm, hg, hsp, ha],
              by simp only [connectPeerRules, if_pos hm, hg, hsp, ha], fun _ => rfl⟩
        · left
          exact ⟨(tr ++ [⟨Call.etcdGet (w.ETCD_MULTINODE_PREFIX ++ w.sockaddrString dest), true⟩]),
            by simp only [connectPeerRules, if_pos hm, hg, hsp],
            by simp only [connectPeerRules, if_pos hm, hg, hsp]⟩
      · left
        exact ⟨(tr ++ [⟨Call.etcdGet (w.ETCD_MULTINODE_PREFIX ++ w.sockaddrString dest), true⟩]),
            by simp only [connectPeerRules, if_pos hm, hg],
          by simp only [connectPeerRules, if_pos hm, hg]⟩
  · right
    by_cases hc : handler.c2cConnectionsEnable = true
    · cases hci : handler.containerInterfaces (w.sockaddrString dest) with
      | none =>
        exact ⟨nd, fp, fp2, false, tr,
          by simp only [connectPeerRules, if_neg hm, if_pos hc, hci],
          by simp only [connectPeerRules, if_neg hm, if_pos hc, hci], fun h => by cases h⟩
      | some ci =>
        exact ⟨nd, { fp with HostPort := ci.hostPort }, { fp2 with HostPort := ci.hostPort },
          true, tr,
          by simp only [connectPeerRules, if_neg hm, if_pos hc, hci],
          by simp only [connectPeerRules, if_neg hm, if_pos hc, hci], fun _ => rfl⟩
    · exact ⟨nd, fp, fp2, false, tr,
        by simp only [connectPeerRules, if_neg hm, if_neg hc],
        by simp only [connectPeerRules, if_neg hm, if_neg hc], fun h => by cases h⟩

/-- A record with the flag set runs connect as the same record with the flag
clear does when neither forward rule matches the destination. -/
theorem handleSysConnect_setIgnoreBind (w : World) (handler : notifHandler) (ctx : context)
    (ss : socketStatus)
    (hno : ∀ destAddr,
      w.readSockaddrFromProcess [] ss.pid (ctx.req.Data.Args 1) (ctx.req.Data.Args 2) =
        some destAddr →
      (handler.forwardingPorts (destAddr.Port : Int) = none ∨
        (IsLoopback destAddr.IP = false ∧
          ∀ ci, handler.containerInterfaces (w.sockaddrString destAddr) = some ci →
            ci.containerID ≠ handler.stateID))) :
    handleSysConnect w handler ctx { ss with ignoreBind := true } =
      (handleSysConnect w handler ctx { ss with ignoreBind := false }).setIgnoreBind true := by
  cases hread : w.readSockaddrFromProcess [] ss.pid (ctx.req.Data.Args 1)
      (ctx.req.Data.Args 2) with
  | none =>
    simp only [handleSysConnect, hread]
    rfl
  | some destAddr =>
    have hnoloop : ¬ ((handler.forwardingPorts (destAddr.Port : Int)).isSome = true ∧
        IsLoopback destAddr.IP = true) := by
      rintro ⟨h1, h2⟩
      rcases hno destAddr hread with h | ⟨h, _⟩
      · rw [h] at h1
        cases h1
      · rw [h] at h2
        cases h2
    have hnoif : ¬ ((handler.forwardingPorts (destAddr.Port : Int)).isSome = true ∧
        ∃ ci, handler.containerInterfaces (w.sockaddrString destAddr) = some ci ∧
          ci.containerID = handler.stateID) := by
      rintro ⟨h1, ci, h2, h3⟩
      rcases hno destAddr hread with h | ⟨_, h⟩
      · rw [h] at h1
        cases h1
      · exact h ci h2 h3
    obtain ⟨fp1, hr1⟩ := connectForwardRules_none w handler
      { ss with ignoreBind := false, addr := some destAddr } destAddr hnoloop hnoif
    obtain ⟨fp2, hr2⟩ := connectForwardRules_none w handler
      { ss with ignoreBind := true, addr := some destAddr } destAddr hnoloop hnoif
    simp only [handleSysConnect, hread, hr1, hr2]
    split_ifs with hip
    · rfl
    · cases hl : hostLoopbackFor destAddr.Family with
      | none => rfl
      | some nd =>
        simp only []
        rcases connectPeerRules_fwdPort w handler destAddr nd fp2 fp1
            [⟨Call.readSockaddrFromProcess ss.pid (ctx.req.Data.Args 1) (ctx.req.Data.Args 2),
              true⟩] with
          ⟨tr1, h1, h2⟩ | ⟨nd1, fpa, fpb, other, tr1, h1, h2, hhp⟩
        · rw [h1, h2]
          rfl
        · rw [h1, h2]
          simp only []
          split_ifs
          · rfl
          · rw [connectInstall_fwdPort w ctx _ destAddr other fpa fpb nd1 tr1 hhp]
            exact connectInstall_ignoreBind w ctx
              { ss with ignoreBind := false, addr := some destAddr }
              true destAddr false false other fpb nd1 tr1

/-- Claim C21 as stated fails at two inputs, both a connect to 127.0.0.1:5201 with
forward table 5201 to 8080 in which every call succeeds, on two records that
differ only in `ignoreBind`.  With the flag clear the loopback rule rewrites the
port to 8080; with the flag set the rule is skipped and nothing is written.
When 127.0.0.1 is also in the non-bypassable set, the record with the flag clear
ends Bypassed with the host socket installed and the one with the flag set ends
NotBypassable with no add-fd. -/
theorem handleSysConnect_ignoreBind_counterexample :
    ignoreBindRecord = { freshRecord with ignoreBind := true } ∧
    (memWrites (handleSysConnect okWorld fwdHandler (mkContext [3, 4096, 16])
        freshRecord).trace = [(100, 4098, [31, 144])] ∧
      memWrites (handleSysConnect okWorld fwdHandler (mkContext [3, 4096, 16])
        ignoreBindRecord).trace = []) ∧
    ((handleSysConnect okWorld fwdSkipHandler (mkContext [3, 4096, 16]) freshRecord).ss.state =
        socketState.Bypassed ∧
      (handleSysConnect okWorld fwdSkipHandler (mkContext [3, 4096, 16])
        ignoreBindRecord).ss.state = socketState.NotBypassable ∧
      addFds (handleSysConnect okWorld fwdSkipHandler (mkContext [3, 4096, 16])
        freshRecord).trace = [⟨42, 1, 7, 3, 0⟩] ∧
      addFds (handleSysConnect okWorld fwdSkipHandler (mkContext [3, 4096, 16])
        ignoreBindRecord).trace = []) := by
  decide

/-- Claim C21, amended: for two records that differ only in `ignoreBind`, when
neither forward rule of connect matches the decoded destination (its port is
not in the forward-port table, or the destination is neither loopback nor an
interface address of this container), `handleSysConnect` yields the same
result: the same final state, the same trace of outside calls, hence the same
add-fd requests and the same sequence of writes to the target memory, the same
response and the same panic flag; the final records again differ only in
`ignoreBind`. -/
theorem handleSysConnect_ignoreBind_no_forward_rule (w : World) (handler : notifHandler)
    (ctx : context) (ss : socketStatus)
    (hno : ∀ destAddr,
      w.readSockaddrFromProcess [] ss.pid (ctx.req.Data.Args 1) (ctx.req.Data.Args 2) =
        some destAddr →
      (handler.forwardingPorts (destAddr.Port : Int) = none ∨
        (IsLoopback destAddr.IP = false ∧
          ∀ ci, handler.containerInterfaces (w.sockaddrString destAddr) = some ci →
            ci.containerID ≠ handler.stateID))) :
    (handleSysConnect w handler ctx { ss with ignoreBind := true }).ss.state =
      (handleSysConnect w handler ctx { ss with ignoreBind := false }).ss.state ∧
    (handleSysConnect w handler ctx { ss with ignoreBind := true }).trace =
      (handleSysConnect w handler ctx { ss with ignoreBind := false }).trace ∧
    addFds (handleSysConnect w handler ctx { ss with ignoreBind := true }).trace =
      addFds (handleSysConnect w handler ctx { ss with ignoreBind := false }).trace ∧
    memWrites (handleSysConnect w handler ctx { ss with ignoreBind := true }).trace =
      memWrites (handleSysConnect w handler ctx { ss with ignoreBind := false }).trace ∧
    (handleSysConnect w handler ctx { ss with ignoreBind := true }).resp =
      (handleSysConnect w handler ctx { ss with ignoreBind := false }).resp ∧
    (handleSysConnect w handler ctx { ss with ignoreBind := true }).panicked =
      (handleSysConnect w handler ctx { ss with ignoreBind := false }).panicked ∧
    (handleSysConnect w handler ctx { ss with ignoreBind := true }).ss =
      { (handleSysConnect w handler ctx { ss with ignoreBind := false }).ss with
        ignoreBind := true } := by
  rw [handleSysConnect_setIgnoreBind w handler ctx ss hno]
  exact ⟨rfl, rfl, rfl, rfl, rfl, rfl, rfl⟩

/-- Witness of C21 amended: a connect to 10.4.0.2:80 with forward table 5201 to
8080; the port is not in the table, and the two records end in the same state
after the same calls. -/
theorem handleSysConnect_ignoreBind_no_forward_rule_witness :
    (handleSysConnect peerWorld fwdHandler (mkContext [3, 4096, 16])
        { freshRecord with ignoreBind := true }).trace =
      (handleSysConnect peerWorld fwdHandler (mkContext [3, 4096, 16])
        { freshRecord with ignoreBind := false }).trace :=
  (handleSysConnect_ignoreBind_no_forward_rule peerWorld fwdHandler (mkContext [3, 4096, 16])
    freshRecord (fun destAddr h => Or.inl (by
      have hd : destAddr = ⟨2, 80, [10, 4, 0, 2], 0⟩ := (Option.some.inj h).symm
      rw [hd]
      decide))).2.1

/-! ## Empty option values in the replay -/

/-- Claim C22, the code at the failing input: a setsockopt with optlen 0 on a fresh
record is recorded with an empty value; `configureSocket` on that record then
indexes `optval[0]` out of range, before any host setsockopt, and so does the
connect and the bind that replay the record.  The same happens when the read of
optval fails and the nil slice is recorded. -/
theorem configureSocket_empty_optval_out_of_range :
    (handleSysSetsockopt exactReadWorld 100 (mkContext [3, 1, 2, 4096, 0])
        freshRecord).ss.socketOptions = [⟨1, 2, [], 0⟩] ∧
    configureSocket exactReadWorld
        (handleSysSetsockopt exactReadWorld 100 (mkContext [3, 1, 2, 4096, 0]) freshRecord).ss
        7 [] = (ConfigResult.panic, []) ∧
    (handleSysConnect exactReadWorld fwdHandler (mkContext [3, 4096, 16])
        (handleSysSetsockopt exactReadWorld 100 (mkContext [3, 1, 2, 4096, 0])
          freshRecord).ss).panicked = true ∧
    (handleSysBind bindWorld 100 fwdHandler (mkContext [3, 4096, 16])
        (handleSysSetsockopt exactReadWorld 100 (mkContext [3, 1, 2, 4096, 0])
          freshRecord).ss).panicked = true ∧
    (handleSysSetsockopt readFailWorld 100 (mkContext [3, 1, 2, 4096, 4])
        freshRecord).ss.socketOptions = [⟨1, 2, [], 4⟩] ∧
    configureSocket readFailWorld
        (handleSysSetsockopt readFailWorld 100 (mkContext [3, 1, 2, 4096, 4]) freshRecord).ss
        7 [] = (ConfigResult.panic, []) := by
  decide

end Bypass4netns
